import Mathlib

/-!
# dash.js streaming core: buffer ranges, fetch retries, catch-up rate, live delay

A shallow embedding of parts of

* `src/streaming/controllers/BufferController.js`
* `src/streaming/net/HTTPLoader.js`
* `src/streaming/controllers/PlaybackController.js`
* `src/streaming/models/MediaPlayerModel.js`

JavaScript numbers that carry times, durations, rates and byte counts are
modelled by exact rationals (`ℚ`) or naturals; `NaN`, `null`, `undefined`
and `Infinity` are modelled by `Option` where the source tests for them.
Rounding of IEEE doubles is not modelled.
-/

/-! ## BufferController: buffered ranges -/

namespace BufferController

/-- One entry of the `TimeRanges` object returned by the sink's
`getAllBufferRanges()`: `ranges.start(i)` and `ranges.end(i)`. -/
structure TimeRange where
  start : ℚ
  end_ : ℚ
deriving DecidableEq, Repr

/-- Opening test of `getRangeAt` (lines 289-298): the range contains `time`
(`time >= start && time < end`) or its start is within the tolerance
(`Math.abs(start - time) <= toler`). -/
def Opens (time toler : ℚ) (r : TimeRange) : Prop :=
  (r.start ≤ time ∧ time < r.end_) ∨ |r.start - time| ≤ toler

instance (time toler : ℚ) (r : TimeRange) : Decidable (Opens time toler r) := by
  unfold Opens
  exact inferInstance

/-- Merge test of `getRangeAt` (lines 300-301): `start - lastEnd <= toler`,
for two neighbouring ranges `a`, `b`. -/
def GapWithin (toler : ℚ) (a b : TimeRange) : Prop :=
  b.start - a.end_ ≤ toler

instance (toler : ℚ) (a b : TimeRange) : Decidable (GapWithin toler a b) := by
  unfold GapWithin
  exact inferInstance

/-- The `for` loop of `getRangeAt` (lines 285-308).  The accumulator is the
pair `(firstStart, lastEnd)`; both are assigned together, so the pair is
`none` while `firstStart === null`.  The `break` of line 305 returns the
accumulator without looking at the remaining ranges. -/
def getRangeAtLoop (time toler : ℚ) : List TimeRange → Option TimeRange → Option TimeRange
  | [], acc => acc
  | r :: rest, none =>
      if r.start ≤ time ∧ time < r.end_ then
        getRangeAtLoop time toler rest (some ⟨r.start, r.end_⟩)
      else if |r.start - time| ≤ toler then
        getRangeAtLoop time toler rest (some ⟨r.start, r.end_⟩)
      else
        getRangeAtLoop time toler rest none
  | r :: rest, some acc =>
      if r.start - acc.end_ ≤ toler then
        getRangeAtLoop time toler rest (some ⟨acc.start, r.end_⟩)
      else
        some acc

/-- The tolerance actually used, `const toler = (tolerance || 0.15)` (line 282):
an absent or zero tolerance is replaced by the default. -/
def effectiveTolerance (tolerance : Option ℚ) : ℚ :=
  match tolerance with
  | none => 0.15
  | some t => if t = 0 then 0.15 else t

/-- `getRangeAt(time, tolerance)` (lines 272-319) over the list `ranges` read
from the sink; `none` for `ranges` is a `null`/`undefined` list and `none`
as result is the returned `null`. -/
def getRangeAt (ranges : Option (List TimeRange)) (time : ℚ) (tolerance : Option ℚ) :
    Option TimeRange :=
  match ranges with
  | none => none
  | some rs => getRangeAtLoop time (effectiveTolerance tolerance) rs none

/-- `getBufferLength(time, tolerance)` (lines 321-334). -/
def getBufferLength (ranges : Option (List TimeRange)) (time : ℚ) (tolerance : Option ℚ) : ℚ :=
  match getRangeAt ranges time tolerance with
  | none => 0
  | some range => range.end_ - time

/-- Input assumption of the range claims: every range is non-empty and the
ranges are ordered by start time without overlap. -/
def OrderedDisjoint (ranges : List TimeRange) : Prop :=
  (∀ r ∈ ranges, r.start < r.end_) ∧ List.Chain' (fun a b => a.end_ ≤ b.start) ranges

/-- Specification side: the list cut into its maximal runs, a run being a
block of consecutive ranges whose successive gaps are at most `tol`. -/
def maximalRuns (tol : ℚ) : List TimeRange → List (List TimeRange)
  | [] => []
  | r :: rest =>
      match maximalRuns tol rest with
      | [] => [[r]]
      | run :: runs =>
          match run with
          | [] => [r] :: runs
          | b :: _ => if b.start - r.end_ ≤ tol then (r :: run) :: runs else [r] :: run :: runs

/-- Specification side: the maximal run around `t`, that is the first
maximal run holding a range that contains `t` or starts within `tol` of it,
reported as (start of its first range, end of its last range). -/
def maximalRunAround (ranges : List TimeRange) (t tol : ℚ) : Option TimeRange :=
  match (maximalRuns tol ranges).find? (fun run => run.any (fun r => decide (Opens t tol r))) with
  | none => none
  | some run =>
      match run.head?, run.getLast? with
      | some a, some b => some ⟨a.start, b.end_⟩
      | _, _ => none

/-- What `getRangeAt` computes, as a property of its result: `none` when no
range opens the result; otherwise the ranges split as `pre ++ hd :: run ++ post`
where nothing in `pre` opens the result, `hd` is the first range that does,
`run` is chained to `hd` by gaps within `tol`, the first range of `post` (if
any) is farther than `tol` from the end of the run, and the result spans from
the start of `hd` to the end of the last merged range. -/
def IsForwardRun (ranges : List TimeRange) (t tol : ℚ) : Option TimeRange → Prop
  | none => ∀ r ∈ ranges, ¬ Opens t tol r
  | some res =>
      ∃ pre hd run post, ranges = pre ++ hd :: run ++ post ∧
        (∀ r ∈ pre, ¬ Opens t tol r) ∧ Opens t tol hd ∧
        List.Chain (GapWithin tol) hd run ∧
        res.start = hd.start ∧
        res.end_ = ((hd :: run).getLast (List.cons_ne_nil hd run)).end_ ∧
        ∀ b ∈ post.head?, tol < b.start - res.end_

/-- Specification side: `t` lies inside the range (bounds included). -/
def Inside (t : ℚ) (r : TimeRange) : Prop :=
  r.start ≤ t ∧ t ≤ r.end_

/-- Specification side: distance from `t` to the range, `0` inside it. -/
def distanceTo (t : ℚ) (r : TimeRange) : ℚ :=
  max (max (r.start - t) (t - r.end_)) 0

end BufferController

/-! ## HTTPLoader: requests, retries, pacing delay, abort -/

namespace HTTPLoader

/-- Request types of `HTTPRequest` (`request.type`); `unlisted` stands for any
value that is not a key of the two error maps. -/
inductive RequestType
  | MPD_TYPE
  | XLINK_EXPANSION_TYPE
  | INIT_SEGMENT_TYPE
  | MEDIA_SEGMENT_TYPE
  | INDEX_SEGMENT_TYPE
  | BITSTREAM_SWITCHING_SEGMENT_TYPE
  | OTHER_TYPE
  | unlisted
deriving DecidableEq, Repr

/-- Legacy error identifiers passed to `errHandler.downloadError`. -/
inductive DownloadErrorId
  | DOWNLOAD_ERROR_ID_MANIFEST
  | DOWNLOAD_ERROR_ID_XLINK
  | DOWNLOAD_ERROR_ID_INITIALIZATION
  | DOWNLOAD_ERROR_ID_CONTENT
deriving DecidableEq, Repr

/-- Error codes carried by the `DashJSError` passed to `errHandler.error`. -/
inductive ErrorCode
  | DOWNLOAD_ERROR_ID_MANIFEST_CODE
  | DOWNLOAD_ERROR_ID_XLINK_CODE
  | DOWNLOAD_ERROR_ID_INITIALIZATION_CODE
  | DOWNLOAD_ERROR_ID_CONTENT_CODE
  | DOWNLOAD_CONTENT_LENGTH_MISMATCH
deriving DecidableEq, Repr

/-- The table `downloadErrorToRequestTypeMap` (lines 71-79); `none` is the
`undefined` of a missing key. -/
def downloadErrorToRequestTypeMap : RequestType → Option DownloadErrorId
  | .MPD_TYPE => some .DOWNLOAD_ERROR_ID_MANIFEST
  | .XLINK_EXPANSION_TYPE => some .DOWNLOAD_ERROR_ID_XLINK
  | .INIT_SEGMENT_TYPE => some .DOWNLOAD_ERROR_ID_INITIALIZATION
  | .MEDIA_SEGMENT_TYPE => some .DOWNLOAD_ERROR_ID_CONTENT
  | .INDEX_SEGMENT_TYPE => some .DOWNLOAD_ERROR_ID_CONTENT
  | .BITSTREAM_SWITCHING_SEGMENT_TYPE => some .DOWNLOAD_ERROR_ID_CONTENT
  | .OTHER_TYPE => some .DOWNLOAD_ERROR_ID_CONTENT
  | .unlisted => none

/-- The table `newDownloadErrorToRequestTypeMap` (lines 81-89). -/
def newDownloadErrorToRequestTypeMap : RequestType → Option ErrorCode
  | .MPD_TYPE => some .DOWNLOAD_ERROR_ID_MANIFEST_CODE
  | .XLINK_EXPANSION_TYPE => some .DOWNLOAD_ERROR_ID_XLINK_CODE
  | .INIT_SEGMENT_TYPE => some .DOWNLOAD_ERROR_ID_INITIALIZATION_CODE
  | .MEDIA_SEGMENT_TYPE => some .DOWNLOAD_ERROR_ID_CONTENT_CODE
  | .INDEX_SEGMENT_TYPE => some .DOWNLOAD_ERROR_ID_CONTENT_CODE
  | .BITSTREAM_SWITCHING_SEGMENT_TYPE => some .DOWNLOAD_ERROR_ID_CONTENT_CODE
  | .OTHER_TYPE => some .DOWNLOAD_ERROR_ID_CONTENT_CODE
  | .unlisted => none

/-- The fields of `config.request` that the loader reads: its type and
`delayLoadingTime` in epoch milliseconds (`none` when `isNaN`). -/
structure Request where
  type_ : RequestType
  delayLoadingTime : Option ℚ
deriving DecidableEq, Repr

/-- The `config` object handed to `load`: the request (absent when
`config.request` is falsy) and which of the caller's callbacks are supplied.
`tag` names the caller's object in the log of effects. -/
structure LoadConfig where
  tag : Nat
  request : Option Request
  success : Bool
  error : Bool
  complete : Bool
  abort : Bool
deriving DecidableEq, Repr

/-- Value of `response.getResponseHeader('content-length')` as the loader uses
it: `absent` is `null` or the empty string (falsy), `nonNumeric` a non-empty
text whose numeric value is `NaN`, `value h` a non-empty text whose numeric
value is `h` (so the text "0" is `value 0`, which is truthy). -/
inductive ContentLengthHeader
  | absent
  | nonNumeric
  | value (h : ℚ)
deriving DecidableEq, Repr

/-- What the transport left in `httpRequest.response`.  `body` is
`response.response`: `none` when it is falsy, `some n` a buffer of
`byteLength` `n`. -/
structure Response where
  status : Nat
  body : Option Nat
  isArrayBuffer : Bool
  hasGetResponseHeader : Bool
  contentLength : ContentLengthHeader
deriving DecidableEq, Repr

/-- `hasContentLengthMismatch(response)` (lines 317-329), for a response
object that exists. -/
def hasContentLengthMismatch (response : Response) : Bool :=
  match response.body with
  | none => false
  | some dataLength =>
      if response.isArrayBuffer ∧ response.hasGetResponseHeader then
        match response.contentLength with
        | .value headerLength =>
            decide (dataLength ≠ 0 ∧ |(dataLength : ℚ) - headerLength| > headerLength * 0.25)
        | _ => false
      else false

/-- The `httpRequest` object built by one run of `internalLoad`, together
with the variables of that run's closure which its `onloadend` reads.  `id` is
the identity of the object (`indexOf` compares by identity). -/
structure HttpRequest where
  id : Nat
  config : LoadConfig
  remainingAttempts : Nat
  needFailureReport : Bool
deriving DecidableEq, Repr

/-- An entry of `delayedRequests` (line 297); `id` identifies the entry and
its timer. -/
structure DelayedRequest where
  id : Nat
  httpRequest : HttpRequest
deriving DecidableEq, Repr

/-- An entry of `retryRequests` (line 93) with the arguments captured by its
timer closure. -/
structure RetryRequest where
  id : Nat
  config : LoadConfig
  remainingAttempts : Nat
deriving DecidableEq, Repr

/-- The collaborators' answers that the loader reads: whether
`requestModifier`, `metricsModel` and `errHandler` are all present, and
`mediaPlayerModel.getRetryAttemptsForType` / `getRetryIntervalForType`. -/
structure Cfg where
  depsPresent : Bool
  retryAttempts : RequestType → Nat
  retryInterval : RequestType → ℚ

/-- The three queues of the loader.  `nextId` is the supply of object
identities; it is not a variable of the source. -/
structure State where
  requests : List HttpRequest
  delayedRequests : List DelayedRequest
  retryRequests : List RetryRequest
  nextId : Nat
deriving DecidableEq, Repr

/-- State after `setup()` (lines 65-69). -/
def State.init : State := ⟨[], [], [], 0⟩

/-- Calls the loader makes on its collaborators and on the caller. -/
inductive Effect
  | transportLoad (httpRequest : Nat) (config : LoadConfig)
  | transportAbort (httpRequest : Nat)
  | setRetryTimer (retry : Nat) (interval : ℚ)
  | setDelayTimer (delayed : Nat) (delay : ℚ)
  | clearRetryTimer (retry : Nat)
  | clearDelayTimer (delayed : Nat)
  | successCallback (config : LoadConfig)
  | errorCallback (config : LoadConfig)
  | completeCallback (config : LoadConfig)
  | abortCallback (config : LoadConfig)
  | downloadError (id : Option DownloadErrorId) (config : LoadConfig)
  | error (code : Option ErrorCode) (config : LoadConfig)
  | exception
deriving DecidableEq, Repr

/-- Whether `loader.load(httpRequest)` returned or threw; when it threw,
`response` is what `httpRequest.response` holds at that moment. -/
inductive LoadOutcome
  | started
  | threw (response : Option Response)
deriving DecidableEq, Repr

/-- `scheduleRetry(config, remainingAttempts, request)` (lines 92-103): the
entry is pushed and its timer armed. -/
def scheduleRetry (cfg : Cfg) (s : State) (config : LoadConfig) (remainingAttempts : Nat)
    (request : Request) : State × List Effect :=
  let retryRequest : RetryRequest := ⟨s.nextId, config, remainingAttempts⟩
  ({ s with retryRequests := s.retryRequests ++ [retryRequest], nextId := s.nextId + 1 },
   [.setRetryTimer retryRequest.id (cfg.retryInterval request.type_)])

/-- The callbacks `if (config.f) config.f(...)`, in the order given. -/
def callbacks (l : List (Bool × Effect)) : List Effect :=
  (l.filter (fun p => p.1)).map (fun p => p.2)

/-- `onloadend` of the `httpRequest` with identity `id` (lines 152-203), run
with `httpRequest.response = response`.  Metrics reporting in `handleLoaded`
is not modelled; its write `needFailureReport = false` happens after the
request left `requests`, so no later run of `onloadend` reads it. -/
def onloadend (cfg : Cfg) (s : State) (id : Nat) (response : Option Response) :
    State × List Effect :=
  match s.requests.find? (fun x => x.id == id) with
  | none => (s, [])
  | some httpRequest =>
      let s1 := { s with requests := s.requests.eraseP (fun x => x.id == id) }
      let config := httpRequest.config
      match response, config.request with
      | none, _ => (s1, [.exception])
      | _, none => (s1, [.exception])
      | some resp, some request =>
          if 200 ≤ resp.status ∧ resp.status ≤ 299 then
            if hasContentLengthMismatch resp then
              if httpRequest.remainingAttempts > 0 then
                scheduleRetry cfg s1 config (httpRequest.remainingAttempts - 1) request
              else
                (s1, [.error (some .DOWNLOAD_CONTENT_LENGTH_MISMATCH) config])
            else
              (s1, callbacks [(config.success, .successCallback config),
                              (config.complete, .completeCallback config)])
          else if httpRequest.needFailureReport then
            if httpRequest.remainingAttempts > 0 then
              scheduleRetry cfg s1 config (httpRequest.remainingAttempts - 1) request
            else
              (s1, [.downloadError (downloadErrorToRequestTypeMap request.type_) config,
                    .error (newDownloadErrorToRequestTypeMap request.type_) config]
                   ++ callbacks [(config.error, .errorCallback config),
                                 (config.complete, .completeCallback config)])
          else (s1, [])

/-- `internalLoad(config, remainingAttempts)` (lines 105-315) at clock reading
`now`; `outcome` tells whether the immediate `loader.load` returned.  Only
called with `config.request` present. -/
def internalLoad (cfg : Cfg) (s : State) (config : LoadConfig) (remainingAttempts : Nat)
    (now : ℚ) (outcome : LoadOutcome) : State × List Effect :=
  match config.request with
  | none => (s, [.exception])
  | some request =>
      if ¬ cfg.depsPresent then (s, [.exception])
      else
        let httpRequest : HttpRequest := ⟨s.nextId, config, remainingAttempts, true⟩
        let sendNow : Bool :=
          match request.delayLoadingTime with
          | none => true
          | some t => decide (now ≥ t)
        if sendNow then
          ({ s with requests := s.requests ++ [httpRequest], nextId := s.nextId + 1 },
           .transportLoad httpRequest.id config ::
             (match outcome with
              | .started => []
              | .threw _ => [.exception]))
        else
          let delayedRequest : DelayedRequest := ⟨s.nextId + 1, httpRequest⟩
          ({ s with delayedRequests := s.delayedRequests ++ [delayedRequest],
                    nextId := s.nextId + 2 },
           [.setDelayTimer delayedRequest.id ((request.delayLoadingTime.getD 0) - now)])

/-- The timer callback armed by `scheduleRetry` (lines 95-102) for the entry
with identity `id`. -/
def retryTimerFired (cfg : Cfg) (s : State) (id : Nat) (now : ℚ) (outcome : LoadOutcome) :
    State × List Effect :=
  match s.retryRequests.find? (fun x => x.id == id) with
  | none => (s, [])
  | some retryRequest =>
      internalLoad cfg { s with retryRequests := s.retryRequests.eraseP (fun x => x.id == id) }
        retryRequest.config retryRequest.remainingAttempts now outcome

/-- The timer callback of the delay branch (lines 299-313) for the entry with
identity `id`: the request is pushed and handed to the transport; when
`loader.load` throws, `onerror` (which is `onloadend`) runs at once. -/
def delayTimerFired (cfg : Cfg) (s : State) (id : Nat) (outcome : LoadOutcome) :
    State × List Effect :=
  match s.delayedRequests.find? (fun x => x.id == id) with
  | none => (s, [])
  | some delayedRequest =>
      let h := delayedRequest.httpRequest
      let s1 := { s with
        delayedRequests := s.delayedRequests.eraseP (fun x => x.id == id),
        requests := s.requests ++ [h] }
      match outcome with
      | .started => (s1, [.transportLoad h.id h.config])
      | .threw response =>
          let r := onloadend cfg s1 h.id response
          (r.1, .transportLoad h.id h.config :: r.2)

/-- `load(config)` (lines 337-346). -/
def load (cfg : Cfg) (s : State) (config : LoadConfig) (now : ℚ) (outcome : LoadOutcome) :
    State × List Effect :=
  match config.request with
  | none => (s, [])
  | some request => internalLoad cfg s config (cfg.retryAttempts request.type_) now outcome

/-- `abort()` (lines 353-375).  `loader.abort(x)` is a call on the transport;
it is taken not to re-enter the loader before `abort` returns. -/
def abort (s : State) : State × List Effect :=
  ({ s with retryRequests := [], delayedRequests := [], requests := [] },
   (s.retryRequests.map (fun t =>
      .clearRetryTimer t.id ::
        (if t.config.request.isSome ∧ t.config.abort then [Effect.abortCallback t.config]
         else []))).flatten
   ++ s.delayedRequests.map (fun x => .clearDelayTimer x.id)
   ++ (s.requests.map (fun x =>
      .transportAbort x.id ::
        (if x.config.abort then [Effect.abortCallback x.config] else []))).flatten)

/-- What can happen to a loader: a call of `load` or `abort`, one of its
timer callbacks running, or the transport invoking `onend`/`onerror` of an
`httpRequest`. -/
inductive Event
  | load (config : LoadConfig) (now : ℚ) (outcome : LoadOutcome)
  | abort
  | retryTimer (id : Nat) (now : ℚ) (outcome : LoadOutcome)
  | delayTimer (id : Nat) (outcome : LoadOutcome)
  | loadEnd (id : Nat) (response : Option Response)
deriving DecidableEq, Repr

/-- One event applied to the loader. -/
def step (cfg : Cfg) (s : State) : Event → State × List Effect
  | .load config now outcome => load cfg s config now outcome
  | .abort => abort s
  | .retryTimer id now outcome => retryTimerFired cfg s id now outcome
  | .delayTimer id outcome => delayTimerFired cfg s id outcome
  | .loadEnd id response => onloadend cfg s id response

/-- A sequence of events applied in order; the effects are concatenated. -/
def run (cfg : Cfg) : State → List Event → State × List Effect
  | s, [] => (s, [])
  | s, e :: es =>
      let r := step cfg s e
      let r2 := run cfg r.1 es
      (r2.1, r.2 ++ r2.2)

/-- The identities of everything outstanding: in flight, delayed, or waiting
for a retry. -/
def State.outstanding (s : State) : List Nat :=
  s.requests.map (fun x => x.id) ++ s.delayedRequests.map (fun x => x.id)
    ++ s.delayedRequests.map (fun x => x.httpRequest.id) ++ s.retryRequests.map (fun x => x.id)

/-- The identity on which a handler event acts: a timer callback or a
transport completion; `none` for calls of `load` and `abort`. -/
def Event.handlerOf : Event → Option Nat
  | .retryTimer id _ _ => some id
  | .delayTimer id _ => some id
  | .loadEnd id _ => some id
  | .load _ _ _ => none
  | .abort => none

/-- Effects that hand a request on without a verdict: a transport load or an
armed timer. -/
def Effect.isScheduling : Effect → Bool
  | .transportLoad _ _ => true
  | .setRetryTimer _ _ => true
  | .setDelayTimer _ _ => true
  | _ => false

/-- The effects `abort()` may have: cleared timers, transport aborts and the
caller's abort callback. -/
def Effect.isAbortEffect : Effect → Bool
  | .clearRetryTimer _ => true
  | .clearDelayTimer _ => true
  | .transportAbort _ => true
  | .abortCallback _ => true
  | _ => false

/-- Number of times the transport was handed a request of `config`. -/
def transportLoads (config : LoadConfig) (effects : List Effect) : Nat :=
  (effects.filter (fun e =>
    match e with
    | .transportLoad _ c => c == config
    | _ => false)).length

/-- Number of calls of `errHandler.downloadError` for `config`. -/
def downloadErrors (config : LoadConfig) (effects : List Effect) : Nat :=
  (effects.filter (fun e =>
    match e with
    | .downloadError _ c => c == config
    | _ => false)).length

/-- Number of calls of the caller's error callback of `config`. -/
def errorCallbacks (config : LoadConfig) (effects : List Effect) : Nat :=
  (effects.filter (fun e =>
    match e with
    | .errorCallback c => c == config
    | _ => false)).length

/-- Number of calls of `errHandler.error` for `config`. -/
def errorReports (config : LoadConfig) (effects : List Effect) : Nat :=
  (effects.filter (fun e =>
    match e with
    | .error _ c => c == config
    | _ => false)).length

/-- A response that makes an attempt fail: a status outside 200-299, or a
2xx response with a content-length mismatch. -/
def Response.fails (r : Response) : Prop :=
  ¬ (200 ≤ r.status ∧ r.status ≤ 299) ∨ hasContentLengthMismatch r = true

/-- An environment in which everything the loader schedules for the requests
created from identity `base` on happens, and every attempt is answered: the
transport completes the request in flight (attempt `k` with `responses k`),
else the pending retry timer fires (reading clock `clock k`), else the pending
delay timer fires.  `fuel` bounds the number of events; the run stops early
when nothing is pending. -/
def drive (cfg : Cfg) (base : Nat) (responses : Nat → Response) (clock : Nat → ℚ) :
    Nat → Nat → State → State × List Effect
  | 0, _, s => (s, [])
  | fuel + 1, k, s =>
      match s.requests.find? (fun x => decide (base ≤ x.id)) with
      | some h =>
          let r := step cfg s (.loadEnd h.id (some (responses k)))
          let r2 := drive cfg base responses clock fuel (k + 1) r.1
          (r2.1, r.2 ++ r2.2)
      | none =>
          match s.retryRequests.find? (fun x => decide (base ≤ x.id)) with
          | some t =>
              let r := step cfg s (.retryTimer t.id (clock k) .started)
              let r2 := drive cfg base responses clock fuel k r.1
              (r2.1, r.2 ++ r2.2)
          | none =>
              match s.delayedRequests.find? (fun x => decide (base ≤ x.id)) with
              | some d =>
                  let r := step cfg s (.delayTimer d.id .started)
                  let r2 := drive cfg base responses clock fuel k r.1
                  (r2.1, r.2 ++ r2.2)
              | none => (s, [])

/-- A call `load(config)` at clock reading `clock 0` in state `s`, followed by
the environment `drive` for the request it creates. -/
def loadAndDrive (cfg : Cfg) (config : LoadConfig) (responses : Nat → Response)
    (clock : Nat → ℚ) (fuel : Nat) (s : State) : State × List Effect :=
  let r := step cfg s (.load config (clock 0) .started)
  let r2 := drive cfg s.nextId responses clock fuel 0 r.1
  (r2.1, r.2 ++ r2.2)

/-- What `onloadend` emits for a failed attempt when no attempt remains:
the content-length-mismatch error for a 2xx response (line 166), else the two
download errors classified by the request type and the caller's `error` and
`complete` callbacks (lines 186-200). -/
def terminalEffects (config : LoadConfig) (request : Request) (resp : Response) : List Effect :=
  if 200 ≤ resp.status ∧ resp.status ≤ 299 then
    [.error (some .DOWNLOAD_CONTENT_LENGTH_MISMATCH) config]
  else
    [.downloadError (downloadErrorToRequestTypeMap request.type_) config,
     .error (newDownloadErrorToRequestTypeMap request.type_) config]
    ++ callbacks [(config.error, .errorCallback config),
                  (config.complete, .completeCallback config)]

/-- Outcome of `drive` from state `s` for a request of `config` that has `n`
attempts left after the current one: the queues end as `R`, `D`, `T`, and the
effects are `loads` transport loads among scheduling effects only, followed by
the terminal effects for the response to attempt `k + n`. -/
def DriveResult (cfg : Cfg) (base : Nat) (responses : Nat → Response) (clock : Nat → ℚ)
    (config : LoadConfig) (request : Request) (n k fuel : Nat) (s : State)
    (R : List HttpRequest) (D : List DelayedRequest) (T : List RetryRequest)
    (loads : Nat) : Prop :=
  ∃ pre m', base ≤ m' ∧
    drive cfg base responses clock fuel k s
      = (⟨R, D, T, m'⟩, pre ++ terminalEffects config request (responses (k + n))) ∧
    (∀ e ∈ pre, e.isScheduling = true) ∧ transportLoads config pre = loads

/-- Invariant of the identity supply: every identity in the queues lies in
`[k, nextId)`.  With `k = 0` it holds in every reachable state; after an
`abort` in a state with supply `k` it holds with that `k`. -/
def State.Inv (k : Nat) (s : State) : Prop :=
  k ≤ s.nextId ∧
  (∀ x ∈ s.requests, k ≤ x.id ∧ x.id < s.nextId) ∧
  (∀ x ∈ s.delayedRequests,
    (k ≤ x.id ∧ x.id < s.nextId) ∧ (k ≤ x.httpRequest.id ∧ x.httpRequest.id < s.nextId)) ∧
  (∀ x ∈ s.retryRequests, k ≤ x.id ∧ x.id < s.nextId)

end HTTPLoader

/-! ## BufferController: the controller as a state machine -/

namespace BufferController

/-- The `type` the controller is configured with. -/
inductive MediaType
  | video
  | audio
  | fragmentedText
  | other
deriving DecidableEq, Repr

/-- The two buffer states, `BUFFER_LOADED = 'bufferLoaded'` and
`BUFFER_EMPTY = 'bufferStalled'` (lines 45-46). -/
inductive BufferState
  | BUFFER_LOADED
  | BUFFER_EMPTY
deriving DecidableEq, Repr

/-- `STALL_THRESHOLD` (line 47). -/
def STALL_THRESHOLD : ℚ := 0.5

/-- `QUOTA_EXCEEDED_ERROR_CODE` (line 48). -/
def QUOTA_EXCEEDED_ERROR_CODE : Nat := 22

/-- A chunk as the controller reads it.  `tag` is the identity of the object,
`index` is `none` when `isNaN(chunk.index)`, `isVideo` is
`chunk.mediaInfo.type === Constants.VIDEO`. -/
structure Chunk where
  tag : Nat
  streamId : Nat
  representationId : Nat
  index : Option ℤ
  isVideo : Bool
deriving DecidableEq, Repr

/-- The sink held in `buffer`; `isPreBuffer` is
`typeof buffer.discharge === 'function'`. -/
structure Sink where
  id : Nat
  isPreBuffer : Bool
deriving DecidableEq, Repr

/-- Signals triggered on the event bus and calls made on the sink, the init
cache and the error handler. -/
inductive Output
  | bufferLevelUpdated (bufferLevel : ℚ)
  | bufferingCompleted
  | bufferLevelStateChanged (state : BufferState)
  | bufferLoaded
  | bufferEmpty
  | bytesAppended (chunk : Chunk)
  | quotaExceeded (criticalBufferLevel : Option ℚ)
  | bufferCleared (hasEnoughSpaceToAppend : Bool)
  | initRequested
  | videoChunkReceived (chunk : Chunk)
  | initCacheSave (chunk : Chunk)
  | sinkAppend (sink : Nat) (chunk : Chunk)
  | sinkRemove (sink : Nat) (start end_ : ℚ)
  | sinkAbort (sink : Nat)
  | sinkReset (sink : Nat)
  | mediaSourceError
deriving DecidableEq, Repr

/-- The variables of the controller closure (lines 67-86) that the modelled
functions read or write.  `subscribed` tells whether the handlers are
registered on the event bus (between `initialize` and `reset`);
`initCache` whether `initialize` has set `initCache` and `videoModel`;
`mediaSource` whether `mediaSource` is truthy.  `lastIndex` and
`criticalBufferLevel` use `none` for `Number.POSITIVE_INFINITY`; a `NaN`
stream-end index is stored as `none` too, both make the comparison of
line 351 false. -/
structure State where
  subscribed : Bool
  initCache : Bool
  mediaSource : Bool
  buffer : Option Sink
  bufferState : BufferState
  lastIndex : Option ℤ
  criticalBufferLevel : Option ℚ
  maxAppendedIndex : ℤ
  appendedBytesInfo : Option Chunk
  isBufferingCompleted : Bool
  isAppendingInProgress : Bool
  isPruningInProgress : Bool
  seekClearedBufferingCompleted : Bool
  bufferLevel : ℚ
  wallclockTicked : Nat
  seekStartTime : Option ℚ
deriving DecidableEq, Repr

/-- State after construction: `setup()` runs `reset()` (lines 88-92), the
other variables are still `undefined`. -/
def State.init : State :=
  { subscribed := false, initCache := false, mediaSource := false, buffer := none,
    bufferState := .BUFFER_EMPTY, lastIndex := none, criticalBufferLevel := none,
    maxAppendedIndex := 0, appendedBytesInfo := none, isBufferingCompleted := false,
    isAppendingInProgress := false, isPruningInProgress := false,
    seekClearedBufferingCompleted := false, bufferLevel := 0, wallclockTicked := 0,
    seekStartTime := none }

/-- The configuration of one controller: its `type` and whether a
`playbackController` was supplied.  A `streamProcessor` is taken to be
supplied. -/
structure Config where
  type_ : MediaType
  hasPlaybackController : Bool

/-- The video element as `checkIfSufficientBuffer` reads it; `duration` is
`none` when `isNaN(duration)`. -/
structure VideoElement where
  currentTime : ℚ
  duration : Option ℚ
deriving DecidableEq, Repr

/-- What the collaborators answer while one handler runs; the answers are
taken not to change during the handler.
* `ranges`: `buffer.getAllBufferRanges()`;
* `buffered`: the entries of `buffer.buffered`;
* `time`: `playbackController.getTime()`, `none` for `null`;
* `timeToStreamEnd`: `playbackController.getTimeToStreamEnd()`;
* `videoElement`: `videoModel.getElement()`;
* `allTracksDisabled`: `textController.getAllTracksAreDisabled()`;
* `initCacheExtract`: `initCache.extract(streamId, representationId)`;
* `bufferToKeep`, `wallclockTimeUpdateInterval`, `bufferPruningInterval`:
  the getters of `mediaPlayerModel`;
* `safariOnMac`: the user-agent test of `onSeeked`;
* `alwaysReplace`: `mediaController.getSwitchMode(type) ===
  TRACK_SWITCH_MODE_ALWAYS_REPLACE`. -/
structure Env where
  ranges : Option (List TimeRange)
  buffered : List TimeRange
  time : Option ℚ
  timeToStreamEnd : ℚ
  videoElement : Option VideoElement
  allTracksDisabled : Bool
  initCacheExtract : Nat → Nat → Option Chunk
  bufferToKeep : ℚ
  wallclockTimeUpdateInterval : ℚ
  bufferPruningInterval : ℚ
  safariOnMac : Bool
  alwaysReplace : Bool

/-- Result of running a piece of the controller: the state reached, the
outputs made, and whether a JavaScript exception ended it (the writes and
outputs made before the exception stay). -/
structure Res where
  st : State
  out : List Output
  threw : Bool
deriving DecidableEq, Repr

/-- Sequencing: the second piece runs only if the first did not throw. -/
def Res.andThen (r : Res) (f : State → Res) : Res :=
  if r.threw then r
  else
    let r2 := f r.st
    ⟨r2.st, r.out ++ r2.out, r2.threw⟩

/-- `getWorkingTime()` (lines 253-265), with a sink present; `null` from
`getTime()` is kept as `none`. -/
def getWorkingTime (s : State) (env : Env) : Option ℚ :=
  match s.seekStartTime with
  | none => env.time
  | some seekStartTime =>
      if seekStartTime = 0 then env.time
      else
        match env.ranges with
        | some (r :: _) => some (max r.start seekStartTime)
        | _ => env.time

/-- `notifyBufferStateChanged(state)` (lines 381-388). -/
def notifyBufferStateChanged (cfg : Config) (s : State) (env : Env) (state : BufferState) : Res :=
  if s.bufferState = state ∨ (cfg.type_ = .fragmentedText ∧ env.allTracksDisabled) then
    ⟨s, [], false⟩
  else
    ⟨{ s with bufferState := state },
     [.bufferLevelStateChanged state,
      if state = .BUFFER_LOADED then .bufferLoaded else .bufferEmpty], false⟩

/-- `checkIfBufferingCompleted()` (lines 350-356). -/
def checkIfBufferingCompleted (s : State) : Res :=
  let isLastIdxAppended : Bool :=
    match s.lastIndex with
    | none => false
    | some lastIndex => decide (s.maxAppendedIndex ≥ lastIndex - 1)
  if isLastIdxAppended ∧ ¬ s.isBufferingCompleted then
    ⟨{ s with isBufferingCompleted := true }, [.bufferingCompleted], false⟩
  else ⟨s, [], false⟩

/-- `checkIfSufficientBuffer()` (lines 358-379).  `videoModel` is read only
after `initialize` has set it; without it line 368 throws. -/
def checkIfSufficientBuffer (cfg : Config) (s : State) (env : Env) : Res :=
  if cfg.type_ ≠ .audio ∧ cfg.type_ ≠ .video then ⟨s, [], false⟩
  else
    let r1 : Res :=
      if s.seekClearedBufferingCompleted ∧ ¬ s.isBufferingCompleted ∧
          cfg.hasPlaybackController ∧ env.timeToStreamEnd - s.bufferLevel < STALL_THRESHOLD then
        ⟨{ s with seekClearedBufferingCompleted := false, isBufferingCompleted := true },
         [.bufferingCompleted], false⟩
      else ⟨s, [], false⟩
    r1.andThen fun s1 =>
      if s1.bufferLevel < STALL_THRESHOLD ∧ ¬ s1.isBufferingCompleted then
        if ¬ s1.initCache then ⟨s1, [], true⟩
        else
          match env.videoElement with
          | none => ⟨s1, [], false⟩
          | some videoElement =>
              let stalls : Bool :=
                match videoElement.duration with
                | none => true
                | some d => decide (d - videoElement.currentTime > STALL_THRESHOLD)
              if stalls then notifyBufferStateChanged cfg s1 env .BUFFER_EMPTY
              else notifyBufferStateChanged cfg s1 env .BUFFER_LOADED
      else ⟨s1, [], false⟩

/-- `updateBufferLevel()` (lines 336-342); `getRangeAt` throws on a missing
sink (line 273). -/
def updateBufferLevel (cfg : Config) (s : State) (env : Env) : Res :=
  if cfg.hasPlaybackController then
    match s.buffer with
    | none => ⟨s, [], true⟩
    | some _ =>
        let bufferLevel := getBufferLength env.ranges ((getWorkingTime s env).getD 0) none
        let s1 := { s with bufferLevel := bufferLevel }
        (Res.mk s1 [.bufferLevelUpdated bufferLevel] false).andThen fun s2 =>
          checkIfSufficientBuffer cfg s2 env
  else ⟨s, [], false⟩

/-- `onPlaybackProgression()` (lines 267-270); the metrics of
`addBufferMetrics` are not modelled. -/
def onPlaybackProgression (cfg : Config) (s : State) (env : Env) : Res :=
  updateBufferLevel cfg s env

/-- `onPlaybackSeeking()` (lines 243-251). -/
def onPlaybackSeeking (cfg : Config) (s : State) (env : Env) : Res :=
  let s1 :=
    if s.isBufferingCompleted then
      { s with seekClearedBufferingCompleted := true, isBufferingCompleted := false,
               maxAppendedIndex := 0 }
    else s
  onPlaybackProgression cfg { s1 with seekStartTime := none } env

/-- `appendToBuffer(chunk)` (lines 223-231); `buffer.append` throws on a
missing sink, after the two assignments. -/
def appendToBuffer (s : State) (chunk : Chunk) : Res :=
  let s1 := { s with isAppendingInProgress := true, appendedBytesInfo := some chunk }
  match s.buffer with
  | none => ⟨s1, [], true⟩
  | some sink =>
      ⟨s1, .sinkAppend sink.id chunk ::
        (if chunk.isVideo then [.videoChunkReceived chunk] else []), false⟩

/-- `getTotalBufferedTime()` (lines 597-610), with a sink present. -/
def getTotalBufferedTime (env : Env) : ℚ :=
  match env.ranges with
  | none => 0
  | some ranges => (ranges.map fun r => r.end_ - r.start).sum

/-- `hasEnoughSpaceToAppend()` (lines 612-615), with a sink present. -/
def hasEnoughSpaceToAppend (s : State) (env : Env) : Bool :=
  match s.criticalBufferLevel with
  | none => true
  | some criticalBufferLevel => decide (getTotalBufferedTime env < criticalBufferLevel)

/-- `clearBuffer(getClearRange(threshold))` (lines 430-444 and 617-620).
`getClearRange` returns `null` without a sink, and `clearBuffer` then does
nothing.  With a sink, line 443 evaluates `buffer.getAllBufferRanges.start(0)`:
`getAllBufferRanges` is not called, a function has no `start`, and the call
throws before any range is returned. -/
def clearBufferOfClearRange (s : State) : Res :=
  match s.buffer with
  | none => ⟨s, [], false⟩
  | some _ => ⟨s, [], true⟩

/-- `onAppended(e)` (lines 547-583); `eBuffer` is the identity of `e.buffer`
and `error` the code of `e.error` when there is one. -/
def onAppended (cfg : Config) (s : State) (env : Env) (eBuffer : Nat) (error : Option Nat) :
    Res :=
  let r1 : Res :=
    match s.buffer with
    | none => ⟨s, [], false⟩
    | some sink =>
        if sink.id = eBuffer then
          let r0 : Res :=
            match s.appendedBytesInfo with
            | some chunk =>
                match chunk.index with
                | some index =>
                    checkIfBufferingCompleted
                      { s with maxAppendedIndex := max index s.maxAppendedIndex }
                | none => ⟨s, [], false⟩
            | none => ⟨s, [], false⟩
          (r0.andThen fun s1 => onPlaybackProgression cfg s1 env).andThen fun s2 =>
            match s2.appendedBytesInfo with
            | some chunk => ⟨s2, [.bytesAppended chunk], false⟩
            | none => ⟨s2, [], false⟩
        else ⟨s, [], false⟩
  r1.andThen fun s3 =>
    match error with
    | none => ⟨s3, [], false⟩
    | some code =>
        match s3.buffer with
        | none => ⟨s3, [], true⟩
        | some _ =>
            let s4 :=
              if code = QUOTA_EXCEEDED_ERROR_CODE then
                { s3 with criticalBufferLevel := some (getTotalBufferedTime env * 0.8) }
              else s3
            if code = QUOTA_EXCEEDED_ERROR_CODE ∨ ¬ hasEnoughSpaceToAppend s4 env then
              (Res.mk s4 [.quotaExceeded s4.criticalBufferLevel] false).andThen fun s5 =>
                clearBufferOfClearRange s5
            else ⟨s4, [], false⟩

/-- `onStreamCompleted(e)` (lines 460-464); `own` is
`e.fragmentModel === streamProcessor.getFragmentModel()` and `index` is
`e.request.index` (`none` when it is not a number). -/
def onStreamCompleted (s : State) (own : Bool) (index : Option ℤ) : Res :=
  if ¬ own then ⟨s, [], false⟩
  else checkIfBufferingCompleted { s with lastIndex := index }

/-- `onInitFragmentLoaded(e)` (lines 182-187). -/
def onInitFragmentLoaded (s : State) (own : Bool) (chunk : Chunk) : Res :=
  if ¬ own then ⟨s, [], false⟩
  else (Res.mk s [.initCacheSave chunk] false).andThen fun s1 => appendToBuffer s1 chunk

/-- `onMediaFragmentLoaded(e)` (lines 198-220); the in-band events handed to
the event controller are not modelled. -/
def onMediaFragmentLoaded (s : State) (own : Bool) (chunk : Chunk) : Res :=
  if ¬ own then ⟨s, [], false⟩
  else appendToBuffer s chunk

/-- `switchInitData(streamId, representationId)` (lines 189-196);
`initCache.extract` throws while `initCache` is not set. -/
def switchInitData (s : State) (env : Env) (streamId representationId : Nat) : Res :=
  if ¬ s.initCache then ⟨s, [], true⟩
  else
    match env.initCacheExtract streamId representationId with
    | some chunk => appendToBuffer s chunk
    | none => ⟨s, [.initRequested], false⟩

/-- `Math.round`: the nearest integer, ties upwards. -/
def jsRound (x : ℚ) : ℚ := (⌊x + 1 / 2⌋ : ℤ)

/-- `pruneBuffer()` (lines 418-428). -/
def pruneBuffer (cfg : Config) (s : State) (env : Env) : Res :=
  match s.buffer with
  | none => ⟨s, [], false⟩
  | some sink =>
      if cfg.type_ = .fragmentedText then ⟨s, [], false⟩
      else
        let start : ℚ :=
          match env.buffered with
          | [] => 0
          | r :: _ => r.start
        if ¬ cfg.hasPlaybackController then ⟨s, [], true⟩
        else
          let bufferToPrune := env.time.getD 0 - start - env.bufferToKeep
          if bufferToPrune > 0 then
            ⟨{ s with isPruningInProgress := true },
             [.sinkRemove sink.id 0 (jsRound (start + bufferToPrune))], false⟩
          else ⟨s, [], false⟩

/-- `onWallclockTimeUpdated()` (lines 473-480). -/
def onWallclockTimeUpdated (cfg : Config) (s : State) (env : Env) : Res :=
  let s1 := { s with wallclockTicked := s.wallclockTicked + 1 }
  let secondsElapsed : ℚ := s1.wallclockTicked * (env.wallclockTimeUpdateInterval / 1000)
  if secondsElapsed ≥ env.bufferPruningInterval ∧ ¬ s1.isAppendingInProgress then
    pruneBuffer cfg { s1 with wallclockTicked := 0 } env
  else ⟨s1, [], false⟩

/-- `onCurrentTrackChanged(e)` (lines 466-471); `matches` is the conjunction
of the type and stream tests of line 467. -/
def onCurrentTrackChanged (s : State) (env : Env) (isMatch : Bool) : Res :=
  if s.buffer.isNone ∨ ¬ isMatch then ⟨s, [], false⟩
  else if env.alwaysReplace then clearBufferOfClearRange s
  else ⟨s, [], false⟩

/-- `removeBufferAhead(time)` (lines 496-504) as called by `onSeeked`
(lines 487-493). -/
def onSeeked (cfg : Config) (s : State) (env : Env) : Res :=
  if env.safariOnMac then
    if ¬ cfg.hasPlaybackController then ⟨s, [], true⟩
    else
      match s.buffer with
      | none => ⟨s, [], true⟩
      | some sink =>
          match env.ranges with
          | none => ⟨s, [], true⟩
          | some ranges =>
              ⟨s, (ranges.filter fun r => decide (r.start > env.time.getD 0)).map
                    fun r => .sinkRemove sink.id r.start r.end_, false⟩
  else ⟨s, [], false⟩

/-- `onRemoved(e)` (lines 585-595). -/
def onRemoved (cfg : Config) (s : State) (env : Env) (eBuffer : Nat) : Res :=
  match s.buffer with
  | none => ⟨s, [], false⟩
  | some sink =>
      if sink.id ≠ eBuffer then ⟨s, [], false⟩
      else
        (updateBufferLevel cfg { s with isPruningInProgress := false } env).andThen fun s1 =>
          ⟨s1, [.bufferCleared (hasEnoughSpaceToAppend s1 env)], false⟩

/-- `createBuffer(mediaInfo)` (lines 121-134).  `created` is the identity of
the sink the factory returns, `none` when it throws; the exception of
`SourceBufferSink` is caught (line 127), the one of `PreBufferSink` is not.
The timestamp offset of line 133 is not modelled. -/
def createBuffer (s : State) (mediaInfo : Bool) (created : Option Nat) : Res :=
  if ¬ s.initCache ∨ ¬ mediaInfo then ⟨s, [], false⟩
  else if s.mediaSource then
    match created with
    | some id => ⟨{ s with buffer := some ⟨id, false⟩ }, [], false⟩
    | none => ⟨s, [.mediaSourceError], false⟩
  else
    match created with
    | some id => ⟨{ s with buffer := some ⟨id, true⟩ }, [], false⟩
    | none => ⟨s, [], true⟩

/-- The loop of `dischargePreBuffer` (lines 161-174) over the discharged
chunks, appending to the sink `sink`. -/
def dischargeLoop (env : Env) (sink : Nat) : List Chunk → Option Chunk → List Output
  | [], _ => []
  | chunk :: rest, lastInit =>
      match env.initCacheExtract chunk.streamId chunk.representationId with
      | some initChunk =>
          if lastInit ≠ some initChunk then
            .sinkAppend sink initChunk :: .sinkAppend sink chunk ::
              dischargeLoop env sink rest (some initChunk)
          else
            .sinkAppend sink chunk :: dischargeLoop env sink rest lastInit
      | none => dischargeLoop env sink rest lastInit

/-- `dischargePreBuffer(mediaInfo)` (lines 136-176); `chunks` is what
`preBuffer.discharge()` returns. -/
def dischargePreBuffer (s : State) (env : Env) (mediaInfo : Bool) (created : Option Nat)
    (chunks : List Chunk) : Res :=
  match s.buffer with
  | none => ⟨s, [], false⟩
  | some preBuffer =>
      if s.mediaSource ∧ preBuffer.isPreBuffer then
        (createBuffer { s with buffer := none } mediaInfo created).andThen fun s1 =>
          match s1.buffer with
          | none => ⟨{ s1 with buffer := some preBuffer }, [], false⟩
          | some sink => ⟨s1, dischargeLoop env sink.id chunks none, false⟩
      else ⟨s, [], false⟩

/-- `setMediaSource(value, mediaInfo)` (lines 530-537); `value` and
`mediaInfo` tell whether the arguments are truthy. -/
def setMediaSource (s : State) (env : Env) (value mediaInfo : Bool) (created : Option Nat)
    (chunks : List Chunk) : Res :=
  if ¬ s.mediaSource ∧ mediaInfo then
    dischargePreBuffer { s with mediaSource := value } env mediaInfo created chunks
  else ⟨{ s with mediaSource := value }, [], false⟩

/-- `initialize(Source)` (lines 98-119). -/
def initializeController (s : State) (source : Bool) : Res :=
  ⟨{ s with mediaSource := source, initCache := true, subscribed := true }, [], false⟩

/-- `reset(errored)` (lines 622-660). -/
def reset (s : State) (errored : Bool) : Res :=
  let s1 : State :=
    { s with subscribed := false, bufferState := .BUFFER_EMPTY, lastIndex := none,
             criticalBufferLevel := none, maxAppendedIndex := 0, appendedBytesInfo := none,
             isBufferingCompleted := false, isAppendingInProgress := false,
             isPruningInProgress := false, seekClearedBufferingCompleted := false,
             bufferLevel := 0, wallclockTicked := 0 }
  match s.buffer with
  | none => ⟨s1, [], false⟩
  | some sink =>
      ⟨{ s1 with buffer := none },
       (if errored then [] else [.sinkAbort sink.id]) ++ [.sinkReset sink.id], false⟩

/-- What can happen to a controller: a call of one of its methods, or a
signal of the event bus it has a handler for. -/
inductive Event
  | initializeCall (source : Bool)
  | createBuffer (mediaInfo : Bool) (created : Option Nat)
  | setMediaSource (value mediaInfo : Bool) (created : Option Nat) (chunks : List Chunk)
  | setSeekStartTime (value : Option ℚ)
  | switchInitData (streamId representationId : Nat)
  | reset (errored : Bool)
  | initFragmentLoaded (own : Bool) (chunk : Chunk)
  | mediaFragmentLoaded (own : Bool) (chunk : Chunk)
  | qualityChangeRequested
  | dataUpdateCompleted
  | streamCompleted (own : Bool) (index : Option ℤ)
  | playbackProgress
  | playbackTimeUpdated
  | playbackRateChanged
  | playbackSeeking
  | wallclockTimeUpdated
  | currentTrackChanged (isMatch : Bool)
  | appendCompleted (buffer : Nat) (error : Option Nat)
  | removeCompleted (buffer : Nat)
  | playbackSeeked
deriving DecidableEq, Repr

/-- Whether the event is a signal of the event bus (delivered only while the
handlers are registered) rather than a method call. -/
def Event.isSignal : Event → Bool
  | .initializeCall _ => false
  | .createBuffer _ _ => false
  | .setMediaSource _ _ _ _ => false
  | .setSeekStartTime _ => false
  | .switchInitData _ _ => false
  | .reset _ => false
  | _ => true

/-- The handler or method that an event runs.  `QUALITY_CHANGE_REQUESTED` and
`DATA_UPDATE_COMPLETED` only touch `requiredQuality` and the timestamp offset
of the sink, which are not modelled. -/
def handle (cfg : Config) (s : State) (env : Env) : Event → Res
  | .initializeCall source => initializeController s source
  | .createBuffer mediaInfo created => createBuffer s mediaInfo created
  | .setMediaSource value mediaInfo created chunks =>
      setMediaSource s env value mediaInfo created chunks
  | .setSeekStartTime value => ⟨{ s with seekStartTime := value }, [], false⟩
  | .switchInitData streamId representationId => switchInitData s env streamId representationId
  | .reset errored => reset s errored
  | .initFragmentLoaded own chunk => onInitFragmentLoaded s own chunk
  | .mediaFragmentLoaded own chunk => onMediaFragmentLoaded s own chunk
  | .qualityChangeRequested => ⟨s, [], false⟩
  | .dataUpdateCompleted => ⟨s, [], false⟩
  | .streamCompleted own index => onStreamCompleted s own index
  | .playbackProgress => onPlaybackProgression cfg s env
  | .playbackTimeUpdated => onPlaybackProgression cfg s env
  | .playbackRateChanged => checkIfSufficientBuffer cfg s env
  | .playbackSeeking => onPlaybackSeeking cfg s env
  | .wallclockTimeUpdated => onWallclockTimeUpdated cfg s env
  | .currentTrackChanged isMatch => onCurrentTrackChanged s env isMatch
  | .appendCompleted buffer error => onAppended cfg s env buffer error
  | .removeCompleted buffer => onRemoved cfg s env buffer
  | .playbackSeeked => onSeeked cfg s env

/-- One event with the collaborators' answers at that moment: a signal is
delivered only while the handlers are registered. -/
def step (cfg : Config) (s : State) (x : Env × Event) : Res :=
  if x.2.isSignal ∧ ¬ s.subscribed then ⟨s, [], false⟩
  else handle cfg s x.1 x.2

/-- A sequence of events applied in order; an exception ends only the handler
that raised it. -/
def run (cfg : Config) : State → List (Env × Event) → State × List Output
  | s, [] => (s, [])
  | s, x :: xs =>
      let r := step cfg s x
      let r2 := run cfg r.st xs
      (r2.1, r.out ++ r2.2)

/-- The two variables that tell where the controller is in its life cycle:
whether the handlers are registered and whether `initialize` has run. -/
@[reducible] def State.lifecycle (s : State) : Bool × Bool :=
  (s.subscribed, s.initCache)

/-- Number of `BUFFERING_COMPLETED` signals among the outputs. -/
def completions (out : List Output) : Nat :=
  (out.filter fun o => o == .bufferingCompleted).length

/-- The events that clear the completion flag: a seek and `reset`. -/
def Event.isSeekOrReset : Event → Bool
  | .playbackSeeking => true
  | .reset _ => true
  | _ => false

/-- Whether the event is an append-completed event carrying the
quota-exceeded error code. -/
def Event.isQuotaError : Event → Bool
  | .appendCompleted _ (some code) => code == QUOTA_EXCEEDED_ERROR_CODE
  | _ => false

/-- Whether the event is a call of `reset`. -/
def Event.isReset : Event → Bool
  | .reset _ => true
  | _ => false

/-- Whether event `e`, arriving in state `s`, is a check at which the maximum
appended index is at least `lastIndex − 1`: a delivered stream-completed
signal of the own fragment model whose index `l` satisfies
`maxAppendedIndex ≥ l − 1`, or a delivered append-completed signal of the own
sink for a chunk with index `i` such that `max i maxAppendedIndex ≥ lastIndex − 1`. -/
def indexReached (s : State) : Event → Bool
  | .streamCompleted own (some l) => s.subscribed && own && decide (s.maxAppendedIndex ≥ l - 1)
  | .appendCompleted b _ =>
      s.subscribed &&
        (match s.buffer, s.appendedBytesInfo, s.lastIndex with
         | some sink, some chunk, some l =>
             decide (sink.id = b) &&
               (match chunk.index with
                | some i => decide (max i s.maxAppendedIndex ≥ l - 1)
                | none => false)
         | _, _, _ => false)
  | _ => false

/-- Summary of a piece of the controller with respect to buffering
completion: it emitted `n` `BUFFERING_COMPLETED` signals, left the completion
flag as `c`, and left the flag `seekClearedBufferingCompleted` unset. -/
def Emits (r : Res) (n : Nat) (c : Bool) : Prop :=
  completions r.out = n ∧ r.st.isBufferingCompleted = c ∧
    r.st.seekClearedBufferingCompleted = false

end BufferController

/-! ## PlaybackController: live latency and catch-up -/

namespace PlaybackController

/-- A JavaScript number that may be `NaN`; infinities are not modelled.
`null` and `undefined` operands are converted where they are read: `null` to
`num 0`, `undefined` to `nan`. -/
inductive Num
  | nan
  | num (value : ℚ)
deriving DecidableEq, Repr

/-- `isNaN(a)`. -/
def Num.isNaN : Num → Bool
  | .nan => true
  | .num _ => false

/-- `a - b`. -/
def Num.sub : Num → Num → Num
  | .num x, .num y => .num (x - y)
  | _, _ => .nan

/-- `-a`. -/
def Num.neg : Num → Num
  | .num x => .num (-x)
  | .nan => .nan

/-- `a + b`. -/
def Num.add : Num → Num → Num
  | .num x, .num y => .num (x + y)
  | _, _ => .nan

/-- `a * b`. -/
def Num.mul : Num → Num → Num
  | .num x, .num y => .num (x * y)
  | _, _ => .nan

/-- `a / b` for a divisor that is not zero. -/
def Num.div : Num → Num → Num
  | .num x, .num y => .num (x / y)
  | _, _ => .nan

/-- `Math.abs(a)`. -/
def Num.abs : Num → Num
  | .num x => .num |x|
  | .nan => .nan

/-- `a > b`: false as soon as one side is `NaN`. -/
def Num.gt : Num → Num → Bool
  | .num x, .num y => decide (x > y)
  | _, _ => false

/-- `a < b`. -/
def Num.lt : Num → Num → Bool
  | .num x, .num y => decide (x < y)
  | _, _ => false

/-- `a <= b`. -/
def Num.le : Num → Num → Bool
  | .num x, .num y => decide (x ≤ y)
  | _, _ => false

/-- `Math.pow(Math.E, a)` for a function `pow` standing for the exponential
on numbers. -/
def Num.exp (pow : ℚ → ℚ) : Num → Num
  | .num x => .num (pow x)
  | .nan => .nan

/-- Truthiness of a number: neither `NaN` nor zero. -/
def Num.truthy : Num → Bool
  | .num x => decide (x ≠ 0)
  | .nan => false

/-- The object `{newRate: ...}` returned by the two rate policies together
with the value they leave in `playbackStalled`.  `newRate = none` is `null`,
`some nan` is `NaN`. -/
structure RateResult where
  newRate : Option Num
  playbackStalled : Bool
deriving DecidableEq, Repr

/-- `_calculateNewPlaybackRateDefault` (lines 800-831).  `pow x` stands for
`Math.pow(Math.E, x)`. -/
def _calculateNewPlaybackRateDefault (pow : ℚ → ℚ) (playbackStalled : Bool)
    (minPlaybackRateChange : Num)
    (liveCatchUpPlaybackRate currentLiveLatency liveDelay bufferLevel currentPlaybackRate : Num) :
    RateResult :=
  let cpr := liveCatchUpPlaybackRate
  let deltaLatency := currentLiveLatency.sub liveDelay
  let d := deltaLatency.mul (.num 5)
  let s := (cpr.mul (.num 2)).div ((Num.num 1).add (Num.exp pow d.neg))
  let newRate := ((Num.num 1).sub cpr).add s
  let r : Num × Bool :=
    if playbackStalled then
      if bufferLevel.gt (liveDelay.div (.num 2)) then (newRate, false)
      else if deltaLatency.gt (.num 0) then (.num 1, true)
      else (newRate, true)
    else (newRate, false)
  if ((currentPlaybackRate.sub r.1).abs).le minPlaybackRateChange then ⟨none, r.2⟩
  else ⟨some r.1, r.2⟩

/-- `_calculateNewPlaybackRateLolP` (lines 845-896). -/
def _calculateNewPlaybackRateLolP (pow : ℚ → ℚ) (playbackStalled : Bool)
    (minPlaybackRateChange : Num)
    (liveCatchUpPlaybackRate currentLiveLatency liveDelay minDrift playbackBufferMin bufferLevel
      currentPlaybackRate : Num) : RateResult :=
  let cpr := liveCatchUpPlaybackRate
  let newRate : Num :=
    if bufferLevel.lt playbackBufferMin then
      let deltaBuffer := bufferLevel.sub playbackBufferMin
      let d := deltaBuffer.mul (.num 5)
      let s := (cpr.mul (.num 2)).div ((Num.num 1).add (Num.exp pow d.neg))
      ((Num.num 1).sub cpr).add s
    else
      let minDifference : Num := .num 0.02
      if ((currentLiveLatency.sub liveDelay).abs).le (minDifference.mul liveDelay) then .num 1
      else
        let deltaLatency := currentLiveLatency.sub liveDelay
        let d := deltaLatency.mul (.num 5)
        let s := (cpr.mul (.num 2)).div ((Num.num 1).add (Num.exp pow d.neg))
        ((Num.num 1).sub cpr).add s
  let stalled : Bool :=
    if playbackStalled then
      if bufferLevel.gt (liveDelay.div (.num 2)) then false else true
    else false
  if ((currentPlaybackRate.sub newRate).abs).le minPlaybackRateChange then ⟨none, stalled⟩
  else ⟨some newRate, stalled⟩

/-- `_defaultNeedToCatchUp` (lines 720-728). -/
def _defaultNeedToCatchUp (currentLiveLatency liveDelay liveCatchupLatencyThreshold minDrift : Num) :
    Bool :=
  let latencyDrift := (currentLiveLatency.sub liveDelay).abs
  latencyDrift.gt minDrift &&
    (liveCatchupLatencyThreshold.isNaN || currentLiveLatency.le liveCatchupLatencyThreshold)

/-- `_lolpNeedToCatchUpCustom` (lines 741-749). -/
def _lolpNeedToCatchUpCustom (currentLiveLatency liveDelay minDrift currentBuffer
    playbackBufferMin liveCatchupLatencyThreshold : Num) : Bool :=
  let latencyDrift := (currentLiveLatency.sub liveDelay).abs
  (liveCatchupLatencyThreshold.isNaN || currentLiveLatency.le liveCatchupLatencyThreshold) &&
    (latencyDrift.gt minDrift || currentBuffer.lt playbackBufferMin)

/-- The variables of the controller closure (lines 45-67) that the modelled
functions read or write.  `videoModel` and `streamInfo` tell whether the
variable is set; `isDynamic` is `none` for `null`; `subscribed` tells whether
the handlers are registered on the event bus. -/
structure State where
  videoModel : Bool
  streamInfo : Bool
  isDynamic : Option Bool
  subscribed : Bool
  liveDelay : Num
  availabilityStartTime : Num
  seekTarget : Num
  isLowLatencySeekingInProgress : Bool
  playbackStalled : Bool
  minPlaybackRateChange : Num
deriving DecidableEq, Repr

/-- State after construction: `setup()` runs `reset()` (lines 69-73 and
328-351); the variables set only by `initialize` are still `undefined`. -/
def State.init : State :=
  { videoModel := false, streamInfo := false, isDynamic := none, subscribed := false,
    liveDelay := .num 0, availabilityStartTime := .num 0, seekTarget := .nan,
    isLowLatencySeekingInProgress := false, playbackStalled := false,
    minPlaybackRateChange := .nan }

/-- The catch-up settings `settings.get().streaming.liveCatchup` and
`lowLatencyEnabled`.  `playbackBufferMin` is `none` for `null`; `modeLoLP` is
`mode === Constants.LIVE_CATCHUP_MODE_LOLP`. -/
structure CatchupSettings where
  lowLatencyEnabled : Bool
  enabled : Bool
  playbackRate : Num
  minDrift : Num
  maxDrift : Num
  playbackBufferMin : Option Num
  modeLoLP : Bool

/-- The DVR window `dashMetrics.getCurrentDVRInfo().range`. -/
structure DVRWindow where
  start : Num
  end_ : Num

/-- What the collaborators answer while one handler runs:
* `settings`: the catch-up settings;
* `liveDelay`: `mediaPlayerModel.getLiveDelay()`;
* `liveCatchupLatencyThreshold`: `mediaPlayerModel.getLiveCatchupLatencyThreshold()`;
* `isPaused`, `isSeeking`, `time`, `playbackRate`: the getters of `videoModel`;
* `bufferLevels`: `getBufferLevel()` of the active stream processors;
* `now`: `new Date().getTime()`; `clientTimeOffset`:
  `timelineConverter.getClientTimeOffset()`;
* `dvrWindow`: the range of `dashMetrics.getCurrentDVRInfo()`, if any. -/
structure Env where
  settings : CatchupSettings
  liveDelay : Num
  liveCatchupLatencyThreshold : Num
  isPaused : Bool
  isSeeking : Bool
  time : Num
  playbackRate : Num
  bufferLevels : List ℚ
  now : ℚ
  clientTimeOffset : ℚ
  dvrWindow : Option DVRWindow

/-- Calls made on the video model and signals triggered on the event bus. -/
inductive Effect
  | setPlaybackRate (rate : Num)
  | setCurrentTime (time : Num) (stickToBuffered : Bool)
  | seekAsked
  | setStallState (stalled : Bool)
  | exception
deriving DecidableEq, Repr

/-- Result of a handler: the state reached and the effects made. -/
structure Res where
  st : State
  out : List Effect
deriving DecidableEq, Repr

/-- `getTime()` (lines 214-216); `null` is read as `0` in arithmetic and
comparisons, the only uses made of it here. -/
def getTime (s : State) (env : Env) : Num :=
  if s.streamInfo ∧ s.videoModel then env.time else .num 0

/-- Whether `getTime()` returns `null`. -/
def getTimeIsNull (s : State) : Bool :=
  !(s.streamInfo && s.videoModel)

/-- `getNormalizedTime()` (lines 218-229). -/
def getNormalizedTime (s : State) (env : Env) : Num :=
  let t := getTime s env
  if s.isDynamic = some true ∧ ¬ s.availabilityStartTime.isNaN then
    let timeOffset := s.availabilityStartTime.div (.num 1000)
    if t.gt timeOffset then t.sub timeOffset else t
  else t

/-- `Number(x.toFixed(3))` for a number `x`: the nearest multiple of 0.001,
ties away from zero. -/
def toFixed3 (x : ℚ) : ℚ :=
  if 0 ≤ x then (⌊x * 1000 + 1 / 2⌋ : ℤ) / 1000 else -((⌊-x * 1000 + 1 / 2⌋ : ℤ) / 1000)

/-- `getCurrentLiveLatency()` (lines 315-326). -/
def getCurrentLiveLatency (s : State) (env : Env) : Num :=
  if s.isDynamic ≠ some true ∨ s.availabilityStartTime.isNaN then .nan
  else
    match getNormalizedTime s env with
    | .nan => .num 0
    | .num currentTime =>
        if currentTime = 0 ∧ ¬ getTimeIsNull s then .num 0
        else
          match s.availabilityStartTime with
          | .nan => .nan
          | .num availabilityStartTime =>
              let now := env.now + env.clientTimeOffset * 1000
              .num (max (toFixed3 ((now - availabilityStartTime - currentTime * 1000) / 1000)) 0)

/-- `_isCatchupEnabled()` (lines 654-656). -/
def _isCatchupEnabled (env : Env) : Bool :=
  env.settings.enabled || env.settings.lowLatencyEnabled

/-- `getBufferLevel()` (lines 658-670), `null` read as `0`. -/
def getBufferLevel (env : Env) : Num :=
  match env.bufferLevels with
  | [] => .num 0
  | b :: rest => .num (rest.foldl min b)

/-- `_getCatchupMode() === Constants.LIVE_CATCHUP_MODE_LOLP` (lines 677-681). -/
def catchupModeIsLoLP (env : Env) : Bool :=
  env.settings.modeLoLP &&
    (match env.settings.playbackBufferMin with
     | some (.num _) => true
     | _ => false)

/-- The setting `playbackBufferMin` as a number (`null` read as `0`). -/
def playbackBufferMin (env : Env) : Num :=
  match env.settings.playbackBufferMin with
  | some v => v
  | none => .num 0

/-- `_needToCatchUp()` (lines 687-709); the result `undefined` of the path
that falls through is `false`. -/
def _needToCatchUp (s : State) (env : Env) : Bool :=
  if _isCatchupEnabled env ∧ env.settings.playbackRate.gt (.num 0) ∧
      (getTime s env).gt (.num 0) then
    let currentLiveLatency := getCurrentLiveLatency s env
    if catchupModeIsLoLP env then
      _lolpNeedToCatchUpCustom currentLiveLatency env.liveDelay env.settings.minDrift
        (getBufferLevel env) (playbackBufferMin env) env.liveCatchupLatencyThreshold
    else
      _defaultNeedToCatchUp currentLiveLatency env.liveDelay env.liveCatchupLatencyThreshold
        env.settings.minDrift
  else false

/-- `seek(time, stickToBuffered, internalSeek)` (lines 187-205). -/
def seek (s : State) (env : Env) (time : Num) (stickToBuffered internalSeek : Bool) : Res :=
  if ¬ s.streamInfo ∨ ¬ s.videoModel then ⟨s, []⟩
  else
    let currentTime := if ¬ s.seekTarget.isNaN then s.seekTarget else env.time
    if ¬ time.isNaN ∧ time = currentTime then ⟨s, []⟩
    else if internalSeek then ⟨s, [.setCurrentTime time stickToBuffered]⟩
    else ⟨{ s with seekTarget := time }, [.seekAsked, .setCurrentTime time stickToBuffered]⟩

/-- `seekToLive()` (lines 207-212); `DVRWindow.end` throws without a window. -/
def seekToLive (s : State) (env : Env) : Res :=
  match env.dvrWindow with
  | none => ⟨s, [.exception]⟩
  | some w => seek s env (w.end_.sub env.liveDelay) true false

/-- `startPlaybackCatchUp()` (lines 754-788). -/
def startPlaybackCatchUp (pow : ℚ → ℚ) (s : State) (env : Env) : Res :=
  if s.videoModel then
    let currentPlaybackRate := env.playbackRate
    let liveCatchupPlaybackRate := env.settings.playbackRate
    let currentLiveLatency := getCurrentLiveLatency s env
    let liveDelay := env.liveDelay
    let bufferLevel := getBufferLevel env
    let results :=
      if catchupModeIsLoLP env then
        _calculateNewPlaybackRateLolP pow s.playbackStalled s.minPlaybackRateChange
          liveCatchupPlaybackRate currentLiveLatency liveDelay env.settings.minDrift
          (playbackBufferMin env) bufferLevel currentPlaybackRate
      else
        _calculateNewPlaybackRateDefault pow s.playbackStalled s.minPlaybackRateChange
          liveCatchupPlaybackRate currentLiveLatency liveDelay bufferLevel currentPlaybackRate
    let s1 := { s with playbackStalled := results.playbackStalled }
    let out1 : List Effect :=
      match results.newRate with
      | some newRate => if newRate.truthy then [.setPlaybackRate newRate] else []
      | none => []
    let deltaLatency := currentLiveLatency.sub liveDelay
    if env.settings.maxDrift.gt (.num 0) ∧ ¬ s1.isLowLatencySeekingInProgress ∧
        deltaLatency.gt env.settings.maxDrift then
      let r := seekToLive { s1 with isLowLatencySeekingInProgress := true } env
      ⟨r.st, out1 ++ r.out⟩
    else ⟨{ s1 with isLowLatencySeekingInProgress := false }, out1⟩
  else ⟨s, []⟩

/-- `stopPlaybackCatchUp()` (lines 898-902). -/
def stopPlaybackCatchUp (s : State) : Res :=
  if s.videoModel then ⟨s, [.setPlaybackRate (.num 1)]⟩ else ⟨s, []⟩

/-- `isPaused()` (lines 173-175) as used in `!isPaused()`: `null` is falsy. -/
def isPaused (s : State) (env : Env) : Bool :=
  s.streamInfo && s.videoModel && env.isPaused

/-- `isSeeking()` (lines 183-185) as used in `!isSeeking()`. -/
def isSeeking (s : State) (env : Env) : Bool :=
  s.streamInfo && s.videoModel && env.isSeeking

/-- `onPlaybackProgression()` (lines 638-652). -/
def onPlaybackProgression (pow : ℚ → ℚ) (s : State) (env : Env) : Res :=
  if s.isDynamic = some true ∧ _isCatchupEnabled env ∧ env.settings.playbackRate.gt (.num 0) ∧
      ¬ isPaused s env ∧ ¬ isSeeking s env then
    if _needToCatchUp s env then startPlaybackCatchUp pow s env
    else stopPlaybackCatchUp s
  else ⟨s, []⟩

/-- `onBufferLevelStateChanged(e)` (lines 916-930); `sameStream` is
`e.streamId === streamInfo.id` and `bufferEmpty` is
`e.state === MetricsConstants.BUFFER_EMPTY`. -/
def onBufferLevelStateChanged (s : State) (env : Env) (sameStream bufferEmpty : Bool) : Res :=
  if ¬ s.streamInfo then ⟨s, [.exception]⟩
  else if ¬ sameStream then ⟨s, []⟩
  else if _isCatchupEnabled env then
    if bufferEmpty ∧ ¬ isSeeking s env then
      if ¬ s.playbackStalled then
        let r := stopPlaybackCatchUp { s with playbackStalled := true }
        r
      else ⟨s, []⟩
    else ⟨s, []⟩
  else if s.videoModel then ⟨s, [.setStallState bufferEmpty]⟩
  else ⟨s, [.exception]⟩

/-- `initialize(sInfo, periodSwitch, seekTime)` (lines 75-103) for a stream
info object whose manifest has `isDynamic = dynamic`; `safari` is the
user-agent test of line 87.  `addAllListeners()` throws without a video
model, before anything else is done. -/
def initializeController (s : State) (dynamic safari : Bool) : Res :=
  if ¬ s.videoModel then ⟨{ s with streamInfo := true }, [.exception]⟩
  else
    ⟨{ s with streamInfo := true, isDynamic := some dynamic,
              isLowLatencySeekingInProgress := false, playbackStalled := false,
              minPlaybackRateChange := .num (if safari then 0.25 else 0.02),
              subscribed := true }, []⟩

/-- `reset()` (lines 328-351). -/
def reset (s : State) : Res :=
  ⟨{ s with liveDelay := .num 0, availabilityStartTime := .num 0, seekTarget := .nan,
            subscribed := if s.videoModel then false else s.subscribed,
            videoModel := false, streamInfo := false, isDynamic := none }, []⟩

/-- `setConfig(config)` (lines 353-380) as far as the video model goes:
`videoModel` tells whether `config.videoModel` is truthy. -/
def setConfig (s : State) (videoModel : Bool) : Res :=
  if videoModel then ⟨{ s with videoModel := true }, []⟩ else ⟨s, []⟩

/-- `setLiveDelay(value, useMaxValue)` (lines 307-313). -/
def setLiveDelay (s : State) (value : Num) (useMaxValue : Bool) : Res :=
  if useMaxValue ∧ value.lt s.liveDelay then ⟨s, []⟩
  else ⟨{ s with liveDelay := value }, []⟩

/-- `onPlaybackSeeking()` (lines 546-558) as far as the state goes. -/
def onPlaybackSeeking (s : State) : Res :=
  ⟨{ s with seekTarget := .nan }, []⟩

/-- What can happen to the controller: a call of one of its methods, a signal
of the event bus, or an event of the video element.  `availabilityStartTime`
stands for the assignment of line 287 in `computeAndSetLiveDelay`. -/
inductive Event
  | setConfig (videoModel : Bool)
  | initializeCall (dynamic safari : Bool)
  | reset
  | setLiveDelay (value : Num) (useMaxValue : Bool)
  | availabilityStartTime (value : Num)
  | seekCall (time : Num) (stickToBuffered internalSeek : Bool)
  | videoSeeking
  | playbackProgress
  | playbackTimeUpdated
  | bufferLevelStateChanged (sameStream bufferEmpty : Bool)
deriving DecidableEq, Repr

/-- Whether the event is a signal of the event bus, delivered only while the
handlers are registered. -/
def Event.isSignal : Event → Bool
  | .playbackProgress => true
  | .playbackTimeUpdated => true
  | .bufferLevelStateChanged _ _ => true
  | _ => false

/-- One event with the collaborators' answers at that moment. -/
def step (pow : ℚ → ℚ) (s : State) (x : Env × Event) : Res :=
  if x.2.isSignal ∧ ¬ s.subscribed then ⟨s, []⟩
  else
    match x.2 with
    | .setConfig videoModel => setConfig s videoModel
    | .initializeCall dynamic safari => initializeController s dynamic safari
    | .reset => reset s
    | .setLiveDelay value useMaxValue => setLiveDelay s value useMaxValue
    | .availabilityStartTime value => ⟨{ s with availabilityStartTime := value }, []⟩
    | .seekCall time stickToBuffered internalSeek => seek s x.1 time stickToBuffered internalSeek
    | .videoSeeking => onPlaybackSeeking s
    | .playbackProgress => onPlaybackProgression pow s x.1
    | .playbackTimeUpdated => onPlaybackProgression pow s x.1
    | .bufferLevelStateChanged sameStream bufferEmpty =>
        onBufferLevelStateChanged s x.1 sameStream bufferEmpty

/-- A sequence of events applied in order. -/
def run (pow : ℚ → ℚ) : State → List (Env × Event) → State × List Effect
  | s, [] => (s, [])
  | s, x :: xs =>
      let r := step pow s x
      let r2 := run pow r.st xs
      (r2.1, r.out ++ r2.2)

end PlaybackController

/-! ## HTTPLoader: where a request is queued -/

namespace HTTPLoader

/-- Number of entries of the in-flight set `requests` that were created for
the caller's object `config`. -/
def inFlightOf (config : LoadConfig) (s : State) : Nat :=
  (s.requests.filter fun x => x.config == config).length

/-- Number of entries of the delay queue `delayedRequests` whose `httpRequest`
was created for `config`. -/
def delayedOf (config : LoadConfig) (s : State) : Nat :=
  (s.delayedRequests.filter fun x => x.httpRequest.config == config).length

/-- Number of entries of the retry queue `retryRequests` that hold `config`. -/
def retryingOf (config : LoadConfig) (s : State) : Nat :=
  (s.retryRequests.filter fun x => x.config == config).length

/-- Number of entries that `config` has in the three queues together. -/
def queueEntries (config : LoadConfig) (s : State) : Nat :=
  inFlightOf config s + delayedOf config s + retryingOf config s

/-- Number of calls `load(config)` among the events. -/
def loadCalls (config : LoadConfig) (evs : List Event) : Nat :=
  (evs.filter fun e =>
    match e with
    | .load c _ _ => c == config
    | _ => false).length

end HTTPLoader

namespace HTTPLoader

/-- Number of places in the three queues at which the object with identity
`a` stands: as an `httpRequest` in flight, as an entry of the delay queue, as
the `httpRequest` held by such an entry, or as an entry of the retry queue. -/
def idEntries (a : Nat) (s : State) : Nat :=
  (s.requests.filter fun x => x.id == a).length
    + (s.delayedRequests.filter fun x => x.id == a).length
    + (s.delayedRequests.filter fun x => x.httpRequest.id == a).length
    + (s.retryRequests.filter fun x => x.id == a).length

end HTTPLoader

/-! ## BufferController: what the claims about replay, pruning and init data compare with -/

namespace BufferController

/-- The staged chunks that have an init chunk in the init cache, each paired
with that init chunk (first component), in staged order; a staged chunk
without a cached init chunk is left out. -/
def replayable (env : Env) (chunks : List Chunk) : List (Chunk × Chunk) :=
  chunks.filterMap fun chunk =>
    (env.initCacheExtract chunk.streamId chunk.representationId).map fun initChunk =>
      (initChunk, chunk)

/-- The sink appends for one replayed chunk `p.2` with init chunk `p.1`: the
chunk alone when the init chunk appended last is the very same object, else
the init chunk and then the chunk. -/
def replayBlock (sink : Nat) (lastInit : Option Chunk) (p : Chunk × Chunk) : List Output :=
  if lastInit = some p.1 then [.sinkAppend sink p.2]
  else [.sinkAppend sink p.1, .sinkAppend sink p.2]

/-- The replay as the specification words it: every staged chunk with a
cached init chunk, in staged order, each preceded by its init chunk unless
that init chunk is the one appended last (none before the first). -/
def replaySpec (env : Env) (sink : Nat) (chunks : List Chunk) : List Output :=
  (List.zipWith (replayBlock sink)
    (none :: (replayable env chunks).map fun p => some p.1) (replayable env chunks)).flatten

end BufferController

namespace BufferController

/-- The start `s` of the first buffered range of the sink, `0` when nothing
is buffered (line 421). -/
def firstBufferedStart (env : Env) : ℚ :=
  match env.buffered with
  | [] => 0
  | r :: _ => r.start

/-- The excess `p − s − k` of the claims about pruning: playback position
minus first buffered start minus the keep-window. -/
def pruneExcess (env : Env) : ℚ :=
  env.time.getD 0 - firstBufferedStart env - env.bufferToKeep

end BufferController

/-! ## PlaybackController: live delay and the DVR window -/

namespace PlaybackController

/-- `Math.max(a, b)`: `NaN` as soon as one side is `NaN`. -/
def Num.max : Num → Num → Num
  | .num x, .num y => .num (Max.max x y)
  | _, _ => .nan

/-- `Math.min(a, b)`: `NaN` as soon as one side is `NaN`. -/
def Num.min : Num → Num → Num
  | .num x, .num y => .num (Min.min x y)
  | _, _ => .nan

/-- A number argument that may also be infinite, as `fragmentDuration` may
(line 266 tests `isFinite`). -/
inductive ExtNum
  | nan
  | posInf
  | negInf
  | num (value : ℚ)
deriving DecidableEq, Repr

/-- What `computeAndSetLiveDelay` reads from its collaborators:
* `lowLatencyEnabled`: `settings.get().streaming.lowLatencyEnabled`;
* `userLiveDelay`: `mediaPlayerModel.getLiveDelay()` (`null` and `undefined`
  are falsy like `NaN` and stand as `nan`);
* `liveDelayFragmentCount`: the setting of that name, `none` for `null`;
* `useSuggestedPresentationDelay`: whether the setting is `true`;
* `suggestedPresentationDelay`: `adapter.getSuggestedPresentationDelay()`,
  `none` for `null`;
* `manifestMinBufferTime`: `streamInfo.manifestInfo.minBufferTime`;
* `availabilityStartTime`: `adapter.getAvailabilityStartTime()`, `none` for
  `null`. -/
structure LiveDelayEnv where
  lowLatencyEnabled : Bool
  userLiveDelay : Num
  liveDelayFragmentCount : Option Num
  useSuggestedPresentationDelay : Bool
  suggestedPresentationDelay : Option Num
  manifestMinBufferTime : Num
  availabilityStartTime : Option Num

/-- `adjustedFragmentDuration` (line 266): the fragment duration when it is a
finite number, else `NaN`. -/
def adjustedFragmentDuration : ExtNum → Num
  | .num x => .num x
  | _ => .nan

/-- The value of `delay` chosen by lines 270-282 of `computeAndSetLiveDelay`;
`none` when line 281 throws because `streamInfo` is not set. -/
def chosenDelay (s : State) (env : LiveDelayEnv) (fragmentDuration : ExtNum)
    (minBufferTime : Num) : Option Num :=
  let adjusted := adjustedFragmentDuration fragmentDuration
  let count : Num := env.liveDelayFragmentCount.getD .nan
  let suggested : Num := env.suggestedPresentationDelay.getD .nan
  if env.lowLatencyEnabled then some (.num 0)
  else if env.userLiveDelay.truthy then some env.userLiveDelay
  else if env.liveDelayFragmentCount.isSome ∧ ¬ count.isNaN ∧ ¬ adjusted.isNaN then
    some (adjusted.mul count)
  else if env.useSuggestedPresentationDelay ∧ env.suggestedPresentationDelay.isSome ∧
      ¬ suggested.isNaN ∧ suggested.gt (.num 0) then
    some suggested
  else if ¬ adjusted.isNaN then some (adjusted.mul (.num 4))
  else if ¬ minBufferTime.isNaN then some (minBufferTime.mul (.num 4))
  else if s.streamInfo then some (env.manifestMinBufferTime.mul (.num 4))
  else none

/-- `computeAndSetLiveDelay(fragmentDuration, dvrWindowSize, minBufferTime)`
(lines 259-301): the state left and the value returned; `none` when the call
throws, which it does before any assignment. -/
def computeAndSetLiveDelay (s : State) (env : LiveDelayEnv) (fragmentDuration : ExtNum)
    (dvrWindowSize minBufferTime : Num) : Option (State × Num) :=
  match chosenDelay s env fragmentDuration minBufferTime with
  | none => none
  | some delay =>
      let s1 : State :=
        match env.availabilityStartTime with
        | some startTime => { s with availabilityStartTime := startTime }
        | none => s
      let ret : Num :=
        if dvrWindowSize.gt (.num 0) then
          let targetDelayCapping :=
            Num.max (dvrWindowSize.sub (.num 10)) (dvrWindowSize.div (.num 2))
          Num.min delay targetDelayCapping
        else delay
      some ({ s1 with liveDelay := ret }, ret)

/-- `getLiveDelay()` (lines 303-305). -/
def getLiveDelay (s : State) : Num := s.liveDelay

/-- `getActualPresentationTime(currentTime)` (lines 453-480). -/
def getActualPresentationTime (s : State) (env : Env) (currentTime : Num) : Num :=
  match env.dvrWindow with
  | none => .nan
  | some w =>
      if currentTime.gt w.end_ then Num.max (w.end_.sub s.liveDelay) w.start
      else if currentTime.gt (.num 0) ∧ (currentTime.add (.num 0.250)).lt w.start ∧
          ((currentTime.sub w.start).abs).lt (.num 315360000) then
        w.start
      else currentTime

/-- The candidates for the live delay in the priority order of the
specification, each present when its condition holds: `0` in low-latency
mode; the user-configured live delay; `fragmentDuration ×
liveDelayFragmentCount` when both are numbers; the suggested presentation
delay of the manifest when its use is enabled and it is positive;
`fragmentDuration × 4` when the fragment duration is a finite number;
`minBufferTime × 4` for the argument when it is a number, and last for the
minimum buffer time of the manifest. -/
def delayCandidates (env : LiveDelayEnv) (fragmentDuration : ExtNum) (minBufferTime : Num) :
    List (Option Num) :=
  [ if env.lowLatencyEnabled then some (.num 0) else none,
    if env.userLiveDelay.truthy then some env.userLiveDelay else none,
    match fragmentDuration, env.liveDelayFragmentCount with
    | .num d, some (.num c) => some (.num (d * c))
    | _, _ => none,
    match env.suggestedPresentationDelay with
    | some (.num p) =>
        if env.useSuggestedPresentationDelay ∧ 0 < p then some (.num p) else none
    | _ => none,
    match fragmentDuration with
    | .num d => some (.num (d * 4))
    | _ => none,
    match minBufferTime with
    | .num m => some (.num (m * 4))
    | .nan => none,
    some (env.manifestMinBufferTime.mul (.num 4)) ]

/-- The first candidate that is present. -/
def firstPresent : List (Option Num) → Option Num
  | [] => none
  | some x :: _ => some x
  | none :: rest => firstPresent rest

end PlaybackController

/-! ## MediaPlayerModel: the custom ABR rules -/

namespace MediaPlayerModel

/-- A JavaScript value as far as the rule functions tell values apart: a
string, or a value that is not a string, of which only the truthiness
matters. -/
inductive Value
  | str (s : String)
  | other (truthy : Bool)
deriving DecidableEq, Repr

/-- Truthiness of a value: a string is truthy unless it is empty. -/
def Value.truthy : Value → Bool
  | .str s => decide (s ≠ "")
  | .other b => b

/-- An entry of `customABRRule` (lines 91-95); `rule` is the identity of the
rule object. -/
structure Rule where
  type_ : String
  rulename : String
  rule : Nat
deriving DecidableEq, Repr

/-- The two rule types `ABRRulesCollection.ABANDON_FRAGMENT_RULES` and
`ABRRulesCollection.QUALITY_SWITCH_RULES`.  `ABRRulesCollection` is not among
these sources, so the two strings are parameters. -/
structure RuleTypes where
  ABANDON_FRAGMENT_RULES : String
  QUALITY_SWITCH_RULES : String
deriving DecidableEq, Repr

/-- The loop of `findABRCustomRuleIndex` (lines 69-77) from index `i` on;
`none` is the returned `-1`.  A `rulename` that is not a string is strictly
equal to no rule name. -/
def findIndexFrom (rulename : Value) : List Rule → Nat → Option Nat
  | [], _ => none
  | r :: rest, i =>
      if Value.str r.rulename = rulename then some i
      else findIndexFrom rulename rest (i + 1)

/-- `findABRCustomRuleIndex(rulename)` (lines 69-77). -/
def findABRCustomRuleIndex (customABRRule : List Rule) (rulename : Value) : Option Nat :=
  findIndexFrom rulename customABRRule 0

/-- `getABRCustomRules()` (lines 79-81). -/
def getABRCustomRules (customABRRule : List Rule) : List Rule := customABRRule

/-- The assignments `customABRRule[index].type = type` and
`customABRRule[index].rule = rule` (lines 98-99). -/
def updateAt (type_ : String) (rule : Nat) : List Rule → Nat → List Rule
  | [], _ => []
  | r :: rest, 0 => { r with type_ := type_, rule := rule } :: rest
  | r :: rest, i + 1 => r :: updateAt type_ rule rest i

/-- `addABRCustomRule(type, rulename, rule)` (lines 83-101): the list left in
`customABRRule`, or `none` when `Constants.BAD_ARGUMENT_ERROR` is thrown. -/
def addABRCustomRule (types : RuleTypes) (customABRRule : List Rule) (type_ rulename : Value)
    (rule : Nat) : Option (List Rule) :=
  match type_, rulename with
  | .str t, .str n =>
      if t ≠ types.ABANDON_FRAGMENT_RULES ∧ t ≠ types.QUALITY_SWITCH_RULES then none
      else
        match findABRCustomRuleIndex customABRRule (.str n) with
        | none => some (customABRRule ++ [⟨t, n, rule⟩])
        | some index => some (updateAt t rule customABRRule index)
  | _, _ => none

/-- `removeABRCustomRule(rulename)` (lines 104-115 with the closing braces of
lines 204-205: the side `HEAD` of the merge that the file holds). -/
def removeABRCustomRule (customABRRule : List Rule) (rulename : Value) : List Rule :=
  if rulename.truthy then
    match findABRCustomRuleIndex customABRRule rulename with
    | some index => customABRRule.eraseIdx index
    | none => customABRRule
  else []

/-- A call on the model; a rule added under a thrown error leaves the list as
it was. -/
inductive Call
  | add (type_ rulename : Value) (rule : Nat)
  | remove (rulename : Value)
deriving DecidableEq, Repr

/-- One call applied to `customABRRule`. -/
def step (types : RuleTypes) (customABRRule : List Rule) : Call → List Rule
  | .add type_ rulename rule =>
      (addABRCustomRule types customABRRule type_ rulename rule).getD customABRRule
  | .remove rulename => removeABRCustomRule customABRRule rulename

/-- The list after `setup()` (line 65, the empty list) and a sequence of
calls. -/
def run (types : RuleTypes) (calls : List Call) : List Rule :=
  calls.foldl (step types) []

end MediaPlayerModel

/-! ## PlaybackController: computed rates and the start time of a stream -/

namespace PlaybackController

/-- The value of the local `newRate` of `_calculateNewPlaybackRateDefault`
when the test of `minPlaybackRateChange` (line 823) is reached. -/
def computedRateDefault (pow : ℚ → ℚ) (playbackStalled : Bool)
    (liveCatchUpPlaybackRate currentLiveLatency liveDelay bufferLevel : Num) : Num :=
  let cpr := liveCatchUpPlaybackRate
  let deltaLatency := currentLiveLatency.sub liveDelay
  let d := deltaLatency.mul (.num 5)
  let s := (cpr.mul (.num 2)).div ((Num.num 1).add (Num.exp pow d.neg))
  let newRate := ((Num.num 1).sub cpr).add s
  if playbackStalled then
    if bufferLevel.gt (liveDelay.div (.num 2)) then newRate
    else if deltaLatency.gt (.num 0) then .num 1
    else newRate
  else newRate

/-- The value of the local `newRate` of `_calculateNewPlaybackRateLolP` when
the test of `minPlaybackRateChange` (line 888) is reached. -/
def computedRateLolP (pow : ℚ → ℚ)
    (liveCatchUpPlaybackRate currentLiveLatency liveDelay playbackBufferMin bufferLevel : Num) :
    Num :=
  let cpr := liveCatchUpPlaybackRate
  if bufferLevel.lt playbackBufferMin then
    let deltaBuffer := bufferLevel.sub playbackBufferMin
    let d := deltaBuffer.mul (.num 5)
    let s := (cpr.mul (.num 2)).div ((Num.num 1).add (Num.exp pow d.neg))
    ((Num.num 1).sub cpr).add s
  else
    let minDifference : Num := .num 0.02
    if ((currentLiveLatency.sub liveDelay).abs).le (minDifference.mul liveDelay) then .num 1
    else
      let deltaLatency := currentLiveLatency.sub liveDelay
      let d := deltaLatency.mul (.num 5)
      let s := (cpr.mul (.num 2)).div ((Num.num 1).add (Num.exp pow d.neg))
      ((Num.num 1).sub cpr).add s

/-- The rate computed inside `startPlaybackCatchUp` (lines 762-769) by the
policy in force, before the test of `minPlaybackRateChange`. -/
def computedRate (pow : ℚ → ℚ) (s : State) (env : Env) : Num :=
  if catchupModeIsLoLP env then
    computedRateLolP pow env.settings.playbackRate (getCurrentLiveLatency s env) env.liveDelay
      (playbackBufferMin env) (getBufferLevel env)
  else
    computedRateDefault pow s.playbackStalled env.settings.playbackRate
      (getCurrentLiveLatency s env) env.liveDelay (getBufferLevel env)

/-- The sigmoid of the specification, `(1 − cpr) + 2·cpr / (1 + e^(−5·x))`,
with `pow` standing for the exponential. -/
def sigmoidRate (pow : ℚ → ℚ) (cpr x : ℚ) : ℚ :=
  (1 - cpr) + 2 * cpr / (1 + pow (-(5 * x)))

end PlaybackController

namespace PlaybackController

/-- What `onStreamInitialized(e)` (lines 105-155) reads to choose the start
time: `streamSwitch` and `streamSeekTime` as `initialize` left them (lines
81-82), whether `isDynamic` is truthy, `e.liveStartTime`, the range of
`dashMetrics.getCurrentDVRInfo()` if any, the result of
`getStartTimeFromUriParameters` (`NaN` without a time in the URI),
`adapter.getDuration()`, and `streamInfo.start` and `streamInfo.duration`. -/
structure StreamStart where
  streamSwitch : Bool
  streamSeekTime : Num
  isDynamic : Bool
  liveStartTime : Num
  dvrWindow : Option DVRWindow
  startTimeFromUri : Num
  duration : Num
  periodStart : Num
  periodDuration : Num

/-- The value of `startTime` when `onStreamInitialized` reaches line 148;
`none` when the handler returns at line 107 (seamless period switch). -/
def streamStartTime (x : StreamStart) : Option Num :=
  if x.streamSwitch ∧ x.streamSeekTime.isNaN then none
  else
    let startTime := x.streamSeekTime
    if startTime.isNaN then
      if x.isDynamic then
        let startTime := x.liveStartTime
        match x.dvrWindow with
        | some dvrWindow =>
            let startTimeFromUri := x.startTimeFromUri
            let startTime :=
              if ¬ startTimeFromUri.isNaN then
                Num.max (Num.min startTime startTimeFromUri) dvrWindow.start
              else startTime
            let duration := x.duration
            if duration.truthy ∧ duration.lt startTime then some dvrWindow.start
            else some startTime
        | none => some startTime
      else
        let startTime := x.periodStart
        let startTimeFromUri := x.startTimeFromUri
        if ¬ startTimeFromUri.isNaN ∧ startTimeFromUri.lt (startTime.add x.periodDuration) then
          some (Num.max startTime startTimeFromUri)
        else some startTime
    else some startTime

end PlaybackController

/-! ## MediaPlayerModel: the UTC timing sources -/

namespace MediaPlayerModel

/-- An entry of `UTCTimingSources`: the `UTCTiming` object built by
`addUTCTimingSource` (lines 289-291).  Both fields are strings: the calls are
taken with string arguments, for which `checkParameterType` (lines 301-302,
of `SupervisorTools`, not among these sources) returns. -/
structure UTCTiming where
  schemeIdUri : String
  value : String
deriving DecidableEq, Repr

/-- The `forEach` of lines 303-307 with `n` indices still to visit, the next
one being `k`: an index beyond the end of the array is skipped, and when the
entry at `k` matches it is spliced out of the array that the later visits
see. -/
def removeLoop (schemeIdUri value : String) : Nat → Nat → List UTCTiming → List UTCTiming
  | 0, _, arr => arr
  | n + 1, k, arr =>
      match arr[k]? with
      | none => removeLoop schemeIdUri value n (k + 1) arr
      | some obj =>
          if obj.schemeIdUri = schemeIdUri ∧ obj.value = value then
            removeLoop schemeIdUri value n (k + 1) (arr.eraseIdx k)
          else removeLoop schemeIdUri value n (k + 1) arr

/-- `removeUTCTimingSource(schemeIdUri, value)` (lines 300-308): `forEach`
visits the indices below the length the array has when it starts. -/
def removeUTCTimingSource (sources : List UTCTiming) (schemeIdUri value : String) :
    List UTCTiming :=
  removeLoop schemeIdUri value sources.length 0 sources

/-- `addUTCTimingSource(schemeIdUri, value)` (lines 287-294). -/
def addUTCTimingSource (sources : List UTCTiming) (schemeIdUri value : String) :
    List UTCTiming :=
  removeUTCTimingSource sources schemeIdUri value ++ [⟨schemeIdUri, value⟩]

/-- `getUTCTimingSources()` (lines 296-298). -/
def getUTCTimingSources (sources : List UTCTiming) : List UTCTiming := sources

/-- `clearDefaultUTCTimingSources()` (lines 310-312). -/
def clearDefaultUTCTimingSources (_sources : List UTCTiming) : List UTCTiming := []

/-- `restoreDefaultUTCTimingSources()` (lines 314-317);
`defaultTimingSource` is the setting
`streaming.utcSynchronization.defaultTimingSource` with its `scheme` and
`value`. -/
def restoreDefaultUTCTimingSources (defaultTimingSource : UTCTiming)
    (sources : List UTCTiming) : List UTCTiming :=
  addUTCTimingSource sources defaultTimingSource.schemeIdUri defaultTimingSource.value

/-- A call on the model that touches `UTCTimingSources`. -/
inductive UTCCall
  | add (schemeIdUri value : String)
  | remove (schemeIdUri value : String)
  | clear
  | restore
deriving DecidableEq, Repr

/-- One call applied to `UTCTimingSources`. -/
def stepUTC (defaultTimingSource : UTCTiming) (sources : List UTCTiming) :
    UTCCall → List UTCTiming
  | .add schemeIdUri value => addUTCTimingSource sources schemeIdUri value
  | .remove schemeIdUri value => removeUTCTimingSource sources schemeIdUri value
  | .clear => clearDefaultUTCTimingSources sources
  | .restore => restoreDefaultUTCTimingSources defaultTimingSource sources

/-- The list after `setup()` (line 61, the empty list) and a sequence of
calls. -/
def runUTC (defaultTimingSource : UTCTiming) (calls : List UTCCall) : List UTCTiming :=
  calls.foldl (stepUTC defaultTimingSource) []

end MediaPlayerModel

/-! ## Theorems: buffered ranges -/

namespace BufferController

theorem effectiveTolerance_of_pos (tol : ℚ) (h : 0 < tol) :
    effectiveTolerance (some tol) = tol := by
  simp [effectiveTolerance, ne_of_gt h]

/-- Once the result is open, the loop merges a prefix `run` of the remaining
ranges that is chained from the running end by gaps within the tolerance and
stops in front of `post`, whose first range is farther away. -/
theorem getRangeAtLoop_open (time toler : ℚ) :
    ∀ (rs : List TimeRange) (acc a : TimeRange), a.end_ = acc.end_ →
      ∃ run post, rs = run ++ post ∧ List.Chain (GapWithin toler) a run ∧
        getRangeAtLoop time toler rs (some acc)
          = some ⟨acc.start, ((a :: run).getLast (List.cons_ne_nil a run)).end_⟩ ∧
        ∀ b ∈ post.head?,
          toler < b.start - ((a :: run).getLast (List.cons_ne_nil a run)).end_ := by
  intro rs
  induction rs with
  | nil =>
    intro acc a h
    refine ⟨[], [], rfl, List.Chain.nil, ?_, ?_⟩
    · simp [getRangeAtLoop, h]
    · simp
  | cons r rest ih =>
    intro acc a h
    by_cases hg : r.start - acc.end_ ≤ toler
    · obtain ⟨run, post, hrs, hch, hres, hpost⟩ := ih ⟨acc.start, r.end_⟩ r rfl
      refine ⟨r :: run, post, by simp [hrs], ?_, ?_, ?_⟩
      · refine List.Chain.cons ?_ hch
        simpa [GapWithin, h] using hg
      · simp only [getRangeAtLoop, if_pos hg]
        rw [hres]
        simp [List.getLast_cons]
      · simpa [List.getLast_cons] using hpost
    · refine ⟨[], r :: rest, rfl, List.Chain.nil, ?_, ?_⟩
      · simp [getRangeAtLoop, hg, h]
      · intro b hb
        simp only [List.head?_cons, Option.mem_def, Option.some.injEq] at hb
        subst hb
        simpa [h] using lt_of_not_ge hg

/-- While the result is not open, the loop skips ranges that do not open it. -/
theorem getRangeAtLoop_closed (time toler : ℚ) :
    ∀ rs : List TimeRange,
      (getRangeAtLoop time toler rs none = none ∧ ∀ r ∈ rs, ¬ Opens time toler r) ∨
      ∃ pre hd run post, rs = pre ++ hd :: run ++ post ∧
        (∀ r ∈ pre, ¬ Opens time toler r) ∧ Opens time toler hd ∧
        List.Chain (GapWithin toler) hd run ∧
        getRangeAtLoop time toler rs none
          = some ⟨hd.start, ((hd :: run).getLast (List.cons_ne_nil hd run)).end_⟩ ∧
        ∀ b ∈ post.head?,
          toler < b.start - ((hd :: run).getLast (List.cons_ne_nil hd run)).end_ := by
  intro rs
  induction rs with
  | nil => exact Or.inl ⟨rfl, by simp⟩
  | cons r rest ih =>
    by_cases ho : Opens time toler r
    · right
      obtain ⟨run, post, hrs, hch, hres, hpost⟩ :=
        getRangeAtLoop_open time toler rest ⟨r.start, r.end_⟩ r rfl
      refine ⟨[], r, run, post, by simp [hrs], by simp, ho, hch, ?_, hpost⟩
      rcases ho with hin | hnear
      · simp only [getRangeAtLoop, if_pos hin]
        exact hres
      · by_cases hin : r.start ≤ time ∧ time < r.end_
        · simp only [getRangeAtLoop, if_pos hin]
          exact hres
        · simp only [getRangeAtLoop, if_neg hin, if_pos hnear]
          exact hres
    · have hin : ¬ (r.start ≤ time ∧ time < r.end_) := fun h => ho (Or.inl h)
      have hnear : ¬ |r.start - time| ≤ toler := fun h => ho (Or.inr h)
      have hstep : getRangeAtLoop time toler (r :: rest) none
          = getRangeAtLoop time toler rest none := by
        simp only [getRangeAtLoop, if_neg hin, if_neg hnear]
      rcases ih with ⟨hnone, hall⟩ | ⟨pre, hd, run, post, hrs, hpre, hhd, hch, hres, hpost⟩
      · left
        refine ⟨by rw [hstep, hnone], ?_⟩
        intro x hx
        rcases List.mem_cons.mp hx with rfl | hx
        · exact ho
        · exact hall x hx
      · right
        refine ⟨r :: pre, hd, run, post, by simp [hrs], ?_, hhd, hch, by rw [hstep, hres], hpost⟩
        intro x hx
        rcases List.mem_cons.mp hx with rfl | hx
        · exact ho
        · exact hpre x hx

end BufferController

namespace BufferController

/-- C1 (as stated) fails: for the ordered, non-overlapping ranges
`[(0,5),(5.1,9)]`, tolerance `0.15` and `t = 6`, `getRangeAt` returns
`(5.1,9)`, while the maximal run around `t` is `(0,9)`: the range `(0,5)` in
front of the opening range is not merged although its gap is within the
tolerance. -/
theorem getRangeAt_not_maximal_run :
    ¬ (∀ (ranges : List TimeRange) (t tol : ℚ), OrderedDisjoint ranges → 0 < tol →
        getRangeAt (some ranges) t (some tol) = maximalRunAround ranges t tol) := by
  intro h
  have h1 := h [⟨0, 5⟩, ⟨5.1, 9⟩] 6 0.15
    ⟨by intro r hr; simp at hr; rcases hr with rfl | rfl <;> norm_num,
     by simp [List.Chain']; norm_num⟩ (by norm_num)
  norm_num [getRangeAt, effectiveTolerance, getRangeAtLoop, maximalRunAround, maximalRuns,
    Opens] at h1

/-- For a positive tolerance the result of `getRangeAt` is the forward run of
`IsForwardRun`. -/
theorem getRangeAt_isForwardRun (ranges : List TimeRange) (t tol : ℚ) (htol : 0 < tol) :
    IsForwardRun ranges t tol (getRangeAt (some ranges) t (some tol)) := by
  simp only [getRangeAt, effectiveTolerance_of_pos tol htol]
  rcases getRangeAtLoop_closed t tol ranges with
    ⟨hnone, hall⟩ | ⟨pre, hd, run, post, hrs, hpre, hhd, hch, hres, hpost⟩
  · rw [hnone]
    exact hall
  · rw [hres]
    exact ⟨pre, hd, run, post, hrs, hpre, hhd, hch, rfl, rfl, hpost⟩

/-- C1 (amended): for every list of buffered ranges, every time `t` and every
tolerance `tol > 0`, `getRangeAt(t, tol)` returns the forward run described by
`IsForwardRun`: it opens at the first range that contains `t` or starts within
`tol` of `t`, is extended through the following ranges while each gap to the
running end is at most `tol`, and holds nothing beyond the first larger gap;
ranges in front of the opening range are never merged.  For ranges
`[(0,5),(5.1,9)]`, `tol = 0.15` and `t = 2` the result is `(0,9)`. -/
theorem getRangeAt_forward_run (ranges : List TimeRange) (t tol : ℚ) (htol : 0 < tol) :
    IsForwardRun ranges t tol (getRangeAt (some ranges) t (some tol)) ∧
    getRangeAt (some [⟨0, 5⟩, ⟨5.1, 9⟩]) 2 (some 0.15) = some ⟨0, 9⟩ :=
  ⟨getRangeAt_isForwardRun ranges t tol htol,
   by norm_num [getRangeAt, effectiveTolerance, getRangeAtLoop]⟩

/-- The amended C1 at `t = 6`, where the range `(0,5)` stays outside the
result. -/
theorem getRangeAt_forward_run_witness :
    (0 : ℚ) < 0.15 ∧
    IsForwardRun [⟨0, 5⟩, ⟨5.1, 9⟩] 6 0.15
      (getRangeAt (some [⟨0, 5⟩, ⟨5.1, 9⟩]) 6 (some 0.15)) ∧
    getRangeAt (some [⟨0, 5⟩, ⟨5.1, 9⟩]) 2 (some 0.15) = some ⟨0, 9⟩ :=
  ⟨by norm_num, getRangeAt_forward_run [⟨0, 5⟩, ⟨5.1, 9⟩] 6 0.15 (by norm_num)⟩

/-- C8 (as stated) fails: for the single range `(0,5)`, tolerance `0.15` and
`t = 5.1`, the time is within the tolerance of the range (0.1 behind its
end), so it is not in the "farther than tol from every range" case, yet
`getRangeAt` returns no range and `getBufferLength` is `0`. -/
theorem getBufferLength_no_range_near_end :
    ¬ (∀ (ranges : List TimeRange) (t tol : ℚ), OrderedDisjoint ranges → 0 < tol →
        ((∀ r ∈ ranges, ¬ Inside t r ∧ tol < distanceTo t r) →
          getBufferLength (some ranges) t (some tol) = 0) ∧
        (¬ (∀ r ∈ ranges, ¬ Inside t r ∧ tol < distanceTo t r) →
          ∃ res, getRangeAt (some ranges) t (some tol) = some res ∧
            getBufferLength (some ranges) t (some tol) = res.end_ - t)) := by
  intro h
  have h1 := (h [⟨0, 5⟩] 5.1 0.15
    ⟨by intro r hr; simp at hr; subst hr; norm_num, by simp⟩ (by norm_num)).2
    (by norm_num [Inside, distanceTo])
  obtain ⟨res, hres, -⟩ := h1
  norm_num [getRangeAt, effectiveTolerance, getRangeAtLoop] at hres
  have h2 := (abs_le.mp hres.1).2
  norm_num at h2

/-- C8 (amended): for every ordered non-overlapping range list, tolerance
`tol > 0` and time `t`: when no range contains `t` (`start ≤ t < end`) and no
range starts within `tol` of `t`, `getRangeAt` returns no range and
`getBufferLength(t, tol) = 0`; this covers every `t` that lies inside no range
and farther than `tol` from every range.  When some range contains `t` or
starts within `tol` of it, `getBufferLength(t, tol)` equals `range.end − t` for
the range returned by `getRangeAt(t, tol)`. -/
theorem getBufferLength_cases (ranges : List TimeRange) (t tol : ℚ)
    (hord : OrderedDisjoint ranges) (htol : 0 < tol) :
    ((∀ r ∈ ranges, ¬ Opens t tol r) →
      getRangeAt (some ranges) t (some tol) = none ∧
        getBufferLength (some ranges) t (some tol) = 0) ∧
    ((∀ r ∈ ranges, ¬ Inside t r ∧ tol < distanceTo t r) →
      getBufferLength (some ranges) t (some tol) = 0) ∧
    ((∃ r ∈ ranges, Opens t tol r) →
      ∃ res, getRangeAt (some ranges) t (some tol) = some res ∧
        getBufferLength (some ranges) t (some tol) = res.end_ - t) := by
  have hrun := getRangeAt_isForwardRun ranges t tol htol
  have hclosed : (∀ r ∈ ranges, ¬ Opens t tol r) →
      getRangeAt (some ranges) t (some tol) = none ∧
        getBufferLength (some ranges) t (some tol) = 0 := by
    intro hall
    cases hg : getRangeAt (some ranges) t (some tol) with
    | none => exact ⟨rfl, by simp [getBufferLength, hg]⟩
    | some res =>
      rw [hg] at hrun
      obtain ⟨pre, hd, run, post, hrs, -, hhd, -⟩ := hrun
      exact absurd hhd (hall hd (by simp [hrs]))
  refine ⟨hclosed, ?_, ?_⟩
  · intro hfar
    refine (hclosed ?_).2
    intro r hr ho
    obtain ⟨hin, hdist⟩ := hfar r hr
    have hlt : r.start < r.end_ := hord.1 r hr
    rcases ho with ⟨hs, he⟩ | hnear
    · exact hin ⟨hs, le_of_lt he⟩
    · have habs := abs_le.mp hnear
      have hle : distanceTo t r ≤ tol := by
        unfold distanceTo
        refine max_le (max_le ?_ ?_) (le_of_lt htol) <;> linarith
      linarith
  · rintro ⟨r, hr, ho⟩
    cases hg : getRangeAt (some ranges) t (some tol) with
    | none =>
      rw [hg] at hrun
      exact absurd ho (hrun r hr)
    | some res => exact ⟨res, rfl, by simp [getBufferLength, hg]⟩

/-- The amended C8 at the ranges `[(0,5),(5.1,9)]` and `t = 2`. -/
theorem getBufferLength_cases_witness :
    OrderedDisjoint [⟨0, 5⟩, ⟨5.1, 9⟩] ∧ (0 : ℚ) < 0.15 ∧
    (((∀ r ∈ [(⟨0, 5⟩ : TimeRange), ⟨5.1, 9⟩], ¬ Opens 2 0.15 r) →
      getRangeAt (some [⟨0, 5⟩, ⟨5.1, 9⟩]) 2 (some 0.15) = none ∧
        getBufferLength (some [⟨0, 5⟩, ⟨5.1, 9⟩]) 2 (some 0.15) = 0) ∧
    ((∀ r ∈ [(⟨0, 5⟩ : TimeRange), ⟨5.1, 9⟩], ¬ Inside 2 r ∧ 0.15 < distanceTo 2 r) →
      getBufferLength (some [⟨0, 5⟩, ⟨5.1, 9⟩]) 2 (some 0.15) = 0) ∧
    ((∃ r ∈ [(⟨0, 5⟩ : TimeRange), ⟨5.1, 9⟩], Opens 2 0.15 r) →
      ∃ res, getRangeAt (some [⟨0, 5⟩, ⟨5.1, 9⟩]) 2 (some 0.15) = some res ∧
        getBufferLength (some [⟨0, 5⟩, ⟨5.1, 9⟩]) 2 (some 0.15) = res.end_ - 2)) :=
  have hord : OrderedDisjoint [⟨0, 5⟩, ⟨5.1, 9⟩] :=
    ⟨by intro r hr; simp at hr; rcases hr with rfl | rfl <;> norm_num,
     by simp [List.Chain']; norm_num⟩
  ⟨hord, by norm_num, getBufferLength_cases [⟨0, 5⟩, ⟨5.1, 9⟩] 2 0.15 hord (by norm_num)⟩

end BufferController

/-! ## Theorems: HTTPLoader -/

namespace HTTPLoader

theorem find?_append_last {α : Type} (p : α → Bool) (l : List α) (a : α)
    (hl : ∀ x ∈ l, p x = false) (ha : p a = true) : (l ++ [a]).find? p = some a := by
  induction l with
  | nil => simp [List.find?, ha]
  | cons x xs ih =>
    have hx : p x = false := hl x (List.mem_cons_self _ _)
    simp only [List.cons_append, List.find?, hx]
    exact ih (fun y hy => hl y (List.mem_cons_of_mem _ hy))

theorem find?_none_of_all {α : Type} (p : α → Bool) (l : List α)
    (hl : ∀ x ∈ l, p x = false) : l.find? p = none := by
  induction l with
  | nil => rfl
  | cons x xs ih =>
    have hx : p x = false := hl x (List.mem_cons_self _ _)
    simp only [List.find?, hx]
    exact ih (fun y hy => hl y (List.mem_cons_of_mem _ hy))

theorem eraseP_append_last {α : Type} (p : α → Bool) (l : List α) (a : α)
    (hl : ∀ x ∈ l, p x = false) (ha : p a = true) : (l ++ [a]).eraseP p = l := by
  induction l with
  | nil => simp [List.eraseP, ha]
  | cons x xs ih =>
    have hx : p x = false := hl x (List.mem_cons_self _ _)
    have ih2 := ih (fun y hy => hl y (List.mem_cons_of_mem _ hy))
    simp only [List.cons_append, List.eraseP, hx, cond_false]
    exact congrArg (List.cons x) ih2

end HTTPLoader

namespace HTTPLoader

/-- With nothing of its own pending, the environment `drive` does nothing. -/
theorem drive_idle (cfg : Cfg) (b : Nat) (responses : Nat → Response) (clock : Nat → ℚ)
    (fuel k : Nat) (s : State)
    (hR : ∀ x ∈ s.requests, x.id < b) (hD : ∀ x ∈ s.delayedRequests, x.id < b)
    (hT : ∀ x ∈ s.retryRequests, x.id < b) :
    drive cfg b responses clock fuel k s = (s, []) := by
  cases fuel with
  | zero => rfl
  | succ f =>
    have h1 : s.requests.find? (fun x => decide (b ≤ x.id)) = none :=
      find?_none_of_all _ _ (fun x hx => by simpa using hR x hx)
    have h2 : s.retryRequests.find? (fun x => decide (b ≤ x.id)) = none :=
      find?_none_of_all _ _ (fun x hx => by simpa using hT x hx)
    have h3 : s.delayedRequests.find? (fun x => decide (b ≤ x.id)) = none :=
      find?_none_of_all _ _ (fun x hx => by simpa using hD x hx)
    simp only [drive, h1, h2, h3]

theorem transportLoads_append (config : LoadConfig) (l₁ l₂ : List Effect) :
    transportLoads config (l₁ ++ l₂) = transportLoads config l₁ + transportLoads config l₂ := by
  simp [transportLoads, List.filter_append]

/-- Extra fuel does not change a run of `drive` that ended with nothing
pending. -/
theorem DriveResult.prepend {cfg : Cfg} {b : Nat} {responses : Nat → Response}
    {clock : Nat → ℚ} {config : LoadConfig} {request : Request} {n k fuel : Nat}
    {s : State} {R : List HttpRequest} {D : List DelayedRequest} {T : List RetryRequest}
    {loads : Nat} (s' : State) (k' : Nat) (eff : List Effect) (extra : Nat)
    (hstep : drive cfg b responses clock (fuel + 1) k' s'
      = ((drive cfg b responses clock fuel k s).1,
          eff ++ (drive cfg b responses clock fuel k s).2))
    (heff : ∀ e ∈ eff, e.isScheduling = true)
    (hloads : transportLoads config eff = extra)
    (h : DriveResult cfg b responses clock config request n k fuel s R D T loads) :
    ∃ pre m', b ≤ m' ∧
      drive cfg b responses clock (fuel + 1) k' s'
        = (⟨R, D, T, m'⟩, pre ++ terminalEffects config request (responses (k + n))) ∧
      (∀ e ∈ pre, e.isScheduling = true) ∧ transportLoads config pre = extra + loads := by
  obtain ⟨pre, m', hm', hd, hpre, hl⟩ := h
  refine ⟨eff ++ pre, m', hm', ?_, ?_, ?_⟩
  · rw [hstep, hd, List.append_assoc]
  · intro e he
    rcases List.mem_append.mp he with he | he
    · exact heff e he
    · exact hpre e he
  · rw [transportLoads_append, hloads, hl]

/-- A delayed request of `config` whose timer fires is handed to the
transport; the rest follows the in-flight case. -/
theorem drive_delayed (cfg : Cfg) (b : Nat) (responses : Nat → Response) (clock : Nat → ℚ)
    (config : LoadConfig) (request : Request) (n : Nat)
    (hA : ∀ (k m i fuel : Nat) (R : List HttpRequest) (D : List DelayedRequest)
      (T : List RetryRequest), (∀ x ∈ R, x.id < b) → (∀ x ∈ D, x.id < b) →
      (∀ x ∈ T, x.id < b) → b ≤ i → b ≤ m → 3 * n + 1 ≤ fuel →
      DriveResult cfg b responses clock config request n k fuel
        ⟨R ++ [⟨i, config, n, true⟩], D, T, m⟩ R D T n)
    (k m i j fuel : Nat) (R : List HttpRequest) (D : List DelayedRequest)
    (T : List RetryRequest) (hR : ∀ x ∈ R, x.id < b) (hD : ∀ x ∈ D, x.id < b)
    (hT : ∀ x ∈ T, x.id < b) (hi : b ≤ i) (hj : b ≤ j) (hm : b ≤ m)
    (hfuel : 3 * n + 2 ≤ fuel) :
    DriveResult cfg b responses clock config request n k fuel
      ⟨R, D ++ [⟨j, ⟨i, config, n, true⟩⟩], T, m⟩ R D T (n + 1) := by
  obtain ⟨f, rfl⟩ : ∃ f, fuel = f + 1 := ⟨fuel - 1, by omega⟩
  have h1 : R.find? (fun x => decide (b ≤ x.id)) = none :=
    find?_none_of_all _ _ (fun x hx => by simpa using hR x hx)
  have h2 : T.find? (fun x => decide (b ≤ x.id)) = none :=
    find?_none_of_all _ _ (fun x hx => by simpa using hT x hx)
  have h3 : (D ++ [(⟨j, ⟨i, config, n, true⟩⟩ : DelayedRequest)]).find?
      (fun x => decide (b ≤ x.id)) = some ⟨j, ⟨i, config, n, true⟩⟩ :=
    find?_append_last _ _ _ (fun x hx => by simpa using hD x hx) (by simpa using hj)
  have h4 : (D ++ [(⟨j, ⟨i, config, n, true⟩⟩ : DelayedRequest)]).find?
      (fun x => x.id == j) = some ⟨j, ⟨i, config, n, true⟩⟩ :=
    find?_append_last _ _ _
      (fun x hx => by have := hD x hx; simp; omega) (by simp)
  have h5 : (D ++ [(⟨j, ⟨i, config, n, true⟩⟩ : DelayedRequest)]).eraseP
      (fun x => x.id == j) = D :=
    eraseP_append_last _ _ _
      (fun x hx => by have := hD x hx; simp; omega) (by simp)
  have hres := hA k m i f R D T hR hD hT hi hm (by omega)
  have := DriveResult.prepend ⟨R, D ++ [⟨j, ⟨i, config, n, true⟩⟩], T, m⟩ k
    [Effect.transportLoad i config] 1 ?_ ?_ ?_ hres
  · simpa [DriveResult, Nat.add_comm] using this
  · simp only [drive, h1, h2, h3, step, delayTimerFired, h4, h5]
  · simp [Effect.isScheduling]
  · simp [transportLoads]

/-- A request of `config` waiting for its retry timer is loaded again when the
timer fires, at once or through the delay queue. -/
theorem drive_retry (cfg : Cfg) (b : Nat) (responses : Nat → Response) (clock : Nat → ℚ)
    (config : LoadConfig) (request : Request) (n : Nat)
    (hdeps : cfg.depsPresent = true) (hreq : config.request = some request)
    (hA : ∀ (k m i fuel : Nat) (R : List HttpRequest) (D : List DelayedRequest)
      (T : List RetryRequest), (∀ x ∈ R, x.id < b) → (∀ x ∈ D, x.id < b) →
      (∀ x ∈ T, x.id < b) → b ≤ i → b ≤ m → 3 * n + 1 ≤ fuel →
      DriveResult cfg b responses clock config request n k fuel
        ⟨R ++ [⟨i, config, n, true⟩], D, T, m⟩ R D T n)
    (k m i fuel : Nat) (R : List HttpRequest) (D : List DelayedRequest)
    (T : List RetryRequest) (hR : ∀ x ∈ R, x.id < b) (hD : ∀ x ∈ D, x.id < b)
    (hT : ∀ x ∈ T, x.id < b) (hi : b ≤ i) (hm : b ≤ m)
    (hfuel : 3 * n + 3 ≤ fuel) :
    DriveResult cfg b responses clock config request n k fuel
      ⟨R, D, T ++ [⟨i, config, n⟩], m⟩ R D T (n + 1) := by
  obtain ⟨f, rfl⟩ : ∃ f, fuel = f + 1 := ⟨fuel - 1, by omega⟩
  have h1 : R.find? (fun x => decide (b ≤ x.id)) = none :=
    find?_none_of_all _ _ (fun x hx => by simpa using hR x hx)
  have h2 : (T ++ [(⟨i, config, n⟩ : RetryRequest)]).find?
      (fun x => decide (b ≤ x.id)) = some ⟨i, config, n⟩ :=
    find?_append_last _ _ _ (fun x hx => by simpa using hT x hx) (by simpa using hi)
  have h4 : (T ++ [(⟨i, config, n⟩ : RetryRequest)]).find?
      (fun x => x.id == i) = some ⟨i, config, n⟩ :=
    find?_append_last _ _ _
      (fun x hx => by have := hT x hx; simp; omega) (by simp)
  have h5 : (T ++ [(⟨i, config, n⟩ : RetryRequest)]).eraseP
      (fun x => x.id == i) = T :=
    eraseP_append_last _ _ _
      (fun x hx => by have := hT x hx; simp; omega) (by simp)
  by_cases hsend : (match request.delayLoadingTime with
      | none => true
      | some t => decide (clock k ≥ t)) = true
  · have hres := hA k (m + 1) m f R D T hR hD hT hm (by omega) (by omega)
    have := DriveResult.prepend ⟨R, D, T ++ [⟨i, config, n⟩], m⟩ k
      [Effect.transportLoad m config] 1 ?_ ?_ ?_ hres
    · simpa [DriveResult, Nat.add_comm] using this
    · simp only [drive, h1, h2, step, retryTimerFired, h4, h5, internalLoad, hreq, hdeps,
        hsend]
      simp
    · simp [Effect.isScheduling]
    · simp [transportLoads]
  · have hres := drive_delayed cfg b responses clock config request n hA k (m + 2) m (m + 1) f
      R D T hR hD hT hm (by omega) (by omega) (by omega)
    have := DriveResult.prepend ⟨R, D, T ++ [⟨i, config, n⟩], m⟩ k
      [Effect.setDelayTimer (m + 1) ((request.delayLoadingTime.getD 0) - clock k)] 0 ?_ ?_ ?_
      hres
    · simpa [DriveResult] using this
    · simp only [drive, h1, h2, step, retryTimerFired, h4, h5, internalLoad, hreq, hdeps,
        hsend]
      simp
    · simp [Effect.isScheduling]
    · simp [transportLoads]

/-- A failing request of `config` in flight with `n` attempts left is retried
`n` more times and then ends with the terminal effects. -/
theorem drive_inFlight (cfg : Cfg) (b : Nat) (responses : Nat → Response) (clock : Nat → ℚ)
    (config : LoadConfig) (request : Request)
    (hdeps : cfg.depsPresent = true) (hreq : config.request = some request)
    (hfail : ∀ k, (responses k).fails) :
    ∀ (n k m i fuel : Nat) (R : List HttpRequest) (D : List DelayedRequest)
      (T : List RetryRequest), (∀ x ∈ R, x.id < b) → (∀ x ∈ D, x.id < b) →
      (∀ x ∈ T, x.id < b) → b ≤ i → b ≤ m → 3 * n + 1 ≤ fuel →
      DriveResult cfg b responses clock config request n k fuel
        ⟨R ++ [⟨i, config, n, true⟩], D, T, m⟩ R D T n := by
  intro n
  induction n with
  | zero =>
    intro k m i fuel R D T hR hD hT hi hm hfuel
    obtain ⟨f, rfl⟩ : ∃ f, fuel = f + 1 := ⟨fuel - 1, by omega⟩
    have h1 : (R ++ [(⟨i, config, 0, true⟩ : HttpRequest)]).find?
        (fun x => decide (b ≤ x.id)) = some ⟨i, config, 0, true⟩ :=
      find?_append_last _ _ _ (fun x hx => by simpa using hR x hx) (by simpa using hi)
    have h4 : (R ++ [(⟨i, config, 0, true⟩ : HttpRequest)]).find?
        (fun x => x.id == i) = some ⟨i, config, 0, true⟩ :=
      find?_append_last _ _ _
        (fun x hx => by have := hR x hx; simp; omega) (by simp)
    have h5 : (R ++ [(⟨i, config, 0, true⟩ : HttpRequest)]).eraseP
        (fun x => x.id == i) = R :=
      eraseP_append_last _ _ _
        (fun x hx => by have := hR x hx; simp; omega) (by simp)
    have hidle := drive_idle cfg b responses clock f (k + 1) ⟨R, D, T, m⟩ hR hD hT
    refine ⟨[], m, hm, ?_, by simp, by simp [transportLoads]⟩
    by_cases h2xx : 200 ≤ (responses k).status ∧ (responses k).status ≤ 299
    · have hmis : hasContentLengthMismatch (responses k) = true := by
        rcases hfail k with h | h
        · exact absurd h2xx h
        · exact h
      simp only [drive, h1, step, onloadend, h4, h5, hreq, h2xx, hmis, terminalEffects]
      simp [hidle, h2xx]
    · simp only [drive, h1, step, onloadend, h4, h5, hreq, h2xx, terminalEffects]
      simp [hidle, h2xx]
  | succ n ih =>
    intro k m i fuel R D T hR hD hT hi hm hfuel
    obtain ⟨f, rfl⟩ : ∃ f, fuel = f + 1 := ⟨fuel - 1, by omega⟩
    have h1 : (R ++ [(⟨i, config, n + 1, true⟩ : HttpRequest)]).find?
        (fun x => decide (b ≤ x.id)) = some ⟨i, config, n + 1, true⟩ :=
      find?_append_last _ _ _ (fun x hx => by simpa using hR x hx) (by simpa using hi)
    have h4 : (R ++ [(⟨i, config, n + 1, true⟩ : HttpRequest)]).find?
        (fun x => x.id == i) = some ⟨i, config, n + 1, true⟩ :=
      find?_append_last _ _ _
        (fun x hx => by have := hR x hx; simp; omega) (by simp)
    have h5 : (R ++ [(⟨i, config, n + 1, true⟩ : HttpRequest)]).eraseP
        (fun x => x.id == i) = R :=
      eraseP_append_last _ _ _
        (fun x hx => by have := hR x hx; simp; omega) (by simp)
    have hres := drive_retry cfg b responses clock config request n hdeps hreq ih (k + 1)
      (m + 1) m f R D T hR hD hT hm (by omega) (by omega)
    have := DriveResult.prepend ⟨R ++ [⟨i, config, n + 1, true⟩], D, T, m⟩ k
      [Effect.setRetryTimer m (cfg.retryInterval request.type_)] 0 ?_ ?_ ?_ hres
    · have hk : k + 1 + n = k + (n + 1) := by omega
      simpa [DriveResult, hk] using this
    · by_cases h2xx : 200 ≤ (responses k).status ∧ (responses k).status ≤ 299
      · have hmis : hasContentLengthMismatch (responses k) = true := by
          rcases hfail k with h | h
          · exact absurd h2xx h
          · exact h
        simp only [drive, h1, step, onloadend, h4, h5, hreq, h2xx, hmis, scheduleRetry]
        simp
      · simp only [drive, h1, step, onloadend, h4, h5, hreq, h2xx, scheduleRetry]
        simp
    · simp [Effect.isScheduling]
    · simp [transportLoads]

end HTTPLoader

namespace HTTPLoader

theorem inv_init : State.init.Inv 0 := by
  simp [State.Inv, State.init]

theorem inv_scheduleRetry (cfg : Cfg) (k : Nat) (s : State) (config : LoadConfig) (n : Nat)
    (request : Request) (h : s.Inv k) : (scheduleRetry cfg s config n request).1.Inv k := by
  obtain ⟨hk, hR, hD, hT⟩ := h
  refine ⟨?_, ?_, ?_, ?_⟩
  · simp only [scheduleRetry]; omega
  · intro x hx
    have := hR x hx
    simp only [scheduleRetry]; omega
  · intro x hx
    have := hD x hx
    simp only [scheduleRetry]; omega
  · intro x hx
    simp only [scheduleRetry, List.mem_append, List.mem_singleton] at hx
    rcases hx with hx | rfl
    · have := hT x hx
      simp only [scheduleRetry]; omega
    · simp only [scheduleRetry]; omega

theorem inv_internalLoad (cfg : Cfg) (k : Nat) (s : State) (config : LoadConfig) (n : Nat)
    (now : ℚ) (outcome : LoadOutcome) (h : s.Inv k) :
    (internalLoad cfg s config n now outcome).1.Inv k := by
  obtain ⟨hk, hR, hD, hT⟩ := h
  unfold internalLoad
  cases config.request with
  | none => exact ⟨hk, hR, hD, hT⟩
  | some request =>
    by_cases hdeps : cfg.depsPresent = true
    · simp only [hdeps, not_true_eq_false, if_false]
      generalize (match request.delayLoadingTime with
        | none => true
        | some t => decide (now ≥ t)) = sendNow
      cases sendNow
      · simp only [Bool.false_eq_true, if_false]
        refine ⟨by simp only; omega, ?_, ?_, ?_⟩
        · intro x hx
          have := hR x hx
          (try simp only); omega
        · intro x hx
          simp only [List.mem_append, List.mem_singleton] at hx
          rcases hx with hx | rfl
          · have := hD x hx
            (try simp only); omega
          · simp only
            omega
        · intro x hx
          have := hT x hx
          (try simp only); omega
      · simp only [if_true]
        refine ⟨by simp only; omega, ?_, ?_, ?_⟩
        · intro x hx
          simp only [List.mem_append, List.mem_singleton] at hx
          rcases hx with hx | rfl
          · have := hR x hx
            (try simp only); omega
          · simp only
            omega
        · intro x hx
          have := hD x hx
          (try simp only); omega
        · intro x hx
          have := hT x hx
          (try simp only); omega
    · simp only [hdeps, not_false_eq_true, if_true]
      exact ⟨hk, hR, hD, hT⟩

theorem inv_onloadend (cfg : Cfg) (k : Nat) (s : State) (id : Nat) (response : Option Response)
    (h : s.Inv k) : (onloadend cfg s id response).1.Inv k := by
  unfold onloadend
  cases hf : s.requests.find? (fun x => x.id == id) with
  | none => exact h
  | some httpRequest =>
    have h1 : State.Inv k { s with requests := s.requests.eraseP (fun x => x.id == id) } := by
      obtain ⟨hk, hR, hD, hT⟩ := h
      exact ⟨hk, fun x hx => hR x (List.mem_of_mem_eraseP hx), hD, hT⟩
    cases response with
    | none =>
      cases hcr : httpRequest.config.request <;> simp only [hcr] <;> exact h1
    | some resp =>
      cases hcr : httpRequest.config.request with
      | none => simp only [hcr]; exact h1
      | some request =>
        simp only [hcr]
        split_ifs
        · exact inv_scheduleRetry cfg k _ _ _ _ h1
        · exact h1
        · exact h1
        · exact inv_scheduleRetry cfg k _ _ _ _ h1
        · exact h1
        · exact h1

theorem inv_step (cfg : Cfg) (k : Nat) (s : State) (e : Event) (h : s.Inv k) :
    (step cfg s e).1.Inv k := by
  cases e with
  | load config now outcome =>
    simp only [step, load]
    cases config.request with
    | none => exact h
    | some request => exact inv_internalLoad cfg k s config _ now outcome h
  | abort =>
    obtain ⟨hk, -⟩ := h
    simp [step, abort, State.Inv, hk]
  | retryTimer id now outcome =>
    simp only [step, retryTimerFired]
    cases hf : s.retryRequests.find? (fun x => x.id == id) with
    | none => exact h
    | some r =>
      refine inv_internalLoad cfg k _ _ _ now outcome ?_
      obtain ⟨hk, hR, hD, hT⟩ := h
      exact ⟨hk, hR, hD, fun x hx => hT x (List.mem_of_mem_eraseP hx)⟩
  | delayTimer id outcome =>
    simp only [step, delayTimerFired]
    cases hf : s.delayedRequests.find? (fun x => x.id == id) with
    | none => exact h
    | some d =>
      have h1 : State.Inv k { s with
          delayedRequests := s.delayedRequests.eraseP (fun x => x.id == id),
          requests := s.requests ++ [d.httpRequest] } := by
        obtain ⟨hk, hR, hD, hT⟩ := h
        refine ⟨hk, ?_, fun x hx => hD x (List.mem_of_mem_eraseP hx), hT⟩
        intro x hx
        simp only [List.mem_append, List.mem_singleton] at hx
        rcases hx with hx | rfl
        · exact hR x hx
        · exact (hD d (List.mem_of_find?_eq_some hf)).2
      cases outcome with
      | started => exact h1
      | threw response => exact inv_onloadend cfg k _ _ response h1
  | loadEnd id response => exact inv_onloadend cfg k s id response h

theorem inv_run (cfg : Cfg) (k : Nat) (evs : List Event) :
    ∀ s : State, s.Inv k → (run cfg s evs).1.Inv k := by
  induction evs with
  | nil => intro s h; exact h
  | cons e es ih =>
    intro s h
    simp only [run]
    exact ih _ (inv_step cfg k s e h)

/-- Every reachable state satisfies the identity invariant. -/
theorem inv_reachable (cfg : Cfg) (evs : List Event) : (run cfg State.init evs).1.Inv 0 :=
  inv_run cfg 0 evs State.init inv_init

/-- A handler whose object is in none of the queues returns at once. -/
theorem step_handler_absent (cfg : Cfg) (s : State) (e : Event) (id : Nat)
    (he : e.handlerOf = some id)
    (hR : ∀ x ∈ s.requests, x.id ≠ id) (hD : ∀ x ∈ s.delayedRequests, x.id ≠ id)
    (hT : ∀ x ∈ s.retryRequests, x.id ≠ id) :
    step cfg s e = (s, []) := by
  cases e with
  | load config now outcome => simp [Event.handlerOf] at he
  | abort => simp [Event.handlerOf] at he
  | retryTimer i now outcome =>
    simp only [Event.handlerOf, Option.some.injEq] at he
    subst he
    have : s.retryRequests.find? (fun x => x.id == i) = none :=
      find?_none_of_all _ _ (fun x hx => by simpa using hT x hx)
    simp [step, retryTimerFired, this]
  | delayTimer i outcome =>
    simp only [Event.handlerOf, Option.some.injEq] at he
    subst he
    have : s.delayedRequests.find? (fun x => x.id == i) = none :=
      find?_none_of_all _ _ (fun x hx => by simpa using hD x hx)
    simp [step, delayTimerFired, this]
  | loadEnd i response =>
    simp only [Event.handlerOf, Option.some.injEq] at he
    subst he
    have : s.requests.find? (fun x => x.id == i) = none :=
      find?_none_of_all _ _ (fun x hx => by simpa using hR x hx)
    simp [step, onloadend, this]

end HTTPLoader

namespace HTTPLoader

theorem errorCallbacks_append (config : LoadConfig) (l₁ l₂ : List Effect) :
    errorCallbacks config (l₁ ++ l₂) = errorCallbacks config l₁ + errorCallbacks config l₂ := by
  simp [errorCallbacks, List.filter_append]

theorem downloadErrors_append (config : LoadConfig) (l₁ l₂ : List Effect) :
    downloadErrors config (l₁ ++ l₂) = downloadErrors config l₁ + downloadErrors config l₂ := by
  simp [downloadErrors, List.filter_append]

theorem errorReports_append (config : LoadConfig) (l₁ l₂ : List Effect) :
    errorReports config (l₁ ++ l₂) = errorReports config l₁ + errorReports config l₂ := by
  simp [errorReports, List.filter_append]

/-- Scheduling effects hold no error report and no error callback. -/
theorem scheduling_counts (config : LoadConfig) (pre : List Effect)
    (h : ∀ e ∈ pre, e.isScheduling = true) :
    errorCallbacks config pre = 0 ∧ downloadErrors config pre = 0 ∧
      errorReports config pre = 0 := by
  induction pre with
  | nil => simp [errorCallbacks, downloadErrors, errorReports]
  | cons e es ih =>
    have he := h e (List.mem_cons_self _ _)
    obtain ⟨h1, h2, h3⟩ := ih (fun x hx => h x (List.mem_cons_of_mem _ hx))
    have e1 := errorCallbacks_append config [e] es
    have e2 := downloadErrors_append config [e] es
    have e3 := errorReports_append config [e] es
    simp only [List.singleton_append] at e1 e2 e3
    rw [e1, e2, e3, h1, h2, h3]
    cases e <;> simp [Effect.isScheduling] at he <;>
      simp [errorCallbacks, downloadErrors, errorReports]

/-- Terminal effects hold no transport load. -/
theorem transportLoads_terminal (config : LoadConfig) (request : Request) (resp : Response) :
    transportLoads config (terminalEffects config request resp) = 0 := by
  unfold terminalEffects transportLoads callbacks
  split_ifs <;> cases config.error <;> cases config.complete <;> simp

/-- A call of `load` in a state satisfying the identity invariant, followed by
the failing environment, makes `retryAttempts + 1` transport loads among
scheduling effects only, then emits the terminal effects for the last
response, and leaves the queues as they were. -/
theorem loadAndDrive_failing (cfg : Cfg) (s : State) (config : LoadConfig) (request : Request)
    (responses : Nat → Response) (clock : Nat → ℚ) (fuel : Nat)
    (hInv : s.Inv 0) (hdeps : cfg.depsPresent = true) (hreq : config.request = some request)
    (hfail : ∀ k, (responses k).fails)
    (hfuel : 3 * cfg.retryAttempts request.type_ + 2 ≤ fuel) :
    ∃ pre m',
      loadAndDrive cfg config responses clock fuel s
        = (⟨s.requests, s.delayedRequests, s.retryRequests, m'⟩,
            pre ++ terminalEffects config request
              (responses (cfg.retryAttempts request.type_))) ∧
      (∀ e ∈ pre, e.isScheduling = true) ∧
      transportLoads config pre = cfg.retryAttempts request.type_ + 1 := by
  obtain ⟨-, hR, hD, hT⟩ := hInv
  have hR' : ∀ x ∈ s.requests, x.id < s.nextId := fun x hx => (hR x hx).2
  have hD' : ∀ x ∈ s.delayedRequests, x.id < s.nextId := fun x hx => (hD x hx).1.2
  have hT' : ∀ x ∈ s.retryRequests, x.id < s.nextId := fun x hx => (hT x hx).2
  have hA := drive_inFlight cfg s.nextId responses clock config request hdeps hreq hfail
    (cfg.retryAttempts request.type_)
  by_cases hsend : (match request.delayLoadingTime with
      | none => true
      | some t => decide (clock 0 ≥ t)) = true
  · obtain ⟨pre, m', -, hd, hpre, hl⟩ := hA 0 (s.nextId + 1) s.nextId fuel
      s.requests s.delayedRequests s.retryRequests hR' hD' hT' (le_refl _) (by omega) (by omega)
    refine ⟨Effect.transportLoad s.nextId config :: pre, m', ?_, ?_, ?_⟩
    · simp only [loadAndDrive, step, load, hreq, internalLoad, hdeps, hsend]
      simp [hd]
    · intro e he
      rcases List.mem_cons.mp he with rfl | he
      · rfl
      · exact hpre e he
    · have := transportLoads_append config [Effect.transportLoad s.nextId config] pre
      simp only [List.singleton_append] at this
      rw [this, hl]
      simp [transportLoads, Nat.add_comm]
  · obtain ⟨pre, m', -, hd, hpre, hl⟩ := drive_delayed cfg s.nextId responses clock config request
      (cfg.retryAttempts request.type_) hA 0 (s.nextId + 2) s.nextId (s.nextId + 1) fuel
      s.requests s.delayedRequests s.retryRequests hR' hD' hT' (le_refl _) (by omega)
      (by omega) (by omega)
    refine ⟨Effect.setDelayTimer (s.nextId + 1) ((request.delayLoadingTime.getD 0) - clock 0)
      :: pre, m', ?_, ?_, ?_⟩
    · simp only [loadAndDrive, step, load, hreq, internalLoad, hdeps, hsend]
      simp [hd]
    · intro e he
      rcases List.mem_cons.mp he with rfl | he
      · rfl
      · exact hpre e he
    · have := transportLoads_append config
        [Effect.setDelayTimer (s.nextId + 1) ((request.delayLoadingTime.getD 0) - clock 0)] pre
      simp only [List.singleton_append] at this
      rw [this, hl]
      simp [transportLoads]

end HTTPLoader

namespace HTTPLoader

/-- C2 (as stated) fails: with 3 configured retry attempts and every attempt
answered by status 500, the request is handed to the transport 4 times, not
3: the first attempt is not counted among the retries. -/
theorem load_dispatches_not_equal_attempts :
    ¬ (∀ (cfg : Cfg) (config : LoadConfig) (request : Request) (responses : Nat → Response)
        (clock : Nat → ℚ) (fuel : Nat),
        cfg.depsPresent = true → config.request = some request →
        (∀ k, ¬ (200 ≤ (responses k).status ∧ (responses k).status ≤ 299)) →
        3 * cfg.retryAttempts request.type_ + 2 ≤ fuel →
        transportLoads config (loadAndDrive cfg config responses clock fuel State.init).2
          = cfg.retryAttempts request.type_) := by
  intro h
  have hfail : ∀ k : Nat, ((fun _ => (⟨500, none, false, false, .absent⟩ : Response)) k).fails :=
    fun k => Or.inl (by simp)
  have h1 := h ⟨true, fun _ => 3, fun _ => 1000⟩
    ⟨0, some ⟨.MEDIA_SEGMENT_TYPE, none⟩, true, true, true, true⟩
    ⟨.MEDIA_SEGMENT_TYPE, none⟩ (fun _ => ⟨500, none, false, false, .absent⟩) (fun _ => 0) 11
    rfl rfl (fun k => by simp) (by decide)
  obtain ⟨pre, m', hrun, -, hloads⟩ := loadAndDrive_failing ⟨true, fun _ => 3, fun _ => 1000⟩
    State.init ⟨0, some ⟨.MEDIA_SEGMENT_TYPE, none⟩, true, true, true, true⟩
    ⟨.MEDIA_SEGMENT_TYPE, none⟩ (fun _ => ⟨500, none, false, false, .absent⟩) (fun _ => 0) 11
    inv_init rfl rfl hfail (by decide)
  rw [hrun] at h1
  simp only [transportLoads_append, hloads, transportLoads_terminal] at h1
  omega

/-- C2 (amended): for every request type with configured retry attempts `N`,
in every reachable loader state, a `load()` whose every attempt fails with a
non-2xx status hands the request to the transport exactly `N + 1` times in
total (the first attempt and `N` retries), reporting nothing before the last
one has failed, and then reports exactly one terminal error: one call of
`errHandler.downloadError`, one of `errHandler.error`, and one call of the
caller's error callback when it is supplied; the queues are left as they were
before the call. -/
theorem load_retries_then_one_error (cfg : Cfg) (evs : List Event) (config : LoadConfig)
    (request : Request) (responses : Nat → Response) (clock : Nat → ℚ) (fuel : Nat)
    (hdeps : cfg.depsPresent = true) (hreq : config.request = some request)
    (hfail : ∀ k, ¬ (200 ≤ (responses k).status ∧ (responses k).status ≤ 299))
    (hfuel : 3 * cfg.retryAttempts request.type_ + 2 ≤ fuel) :
    transportLoads config
        (loadAndDrive cfg config responses clock fuel (run cfg State.init evs).1).2
      = cfg.retryAttempts request.type_ + 1 ∧
    downloadErrors config
        (loadAndDrive cfg config responses clock fuel (run cfg State.init evs).1).2 = 1 ∧
    errorReports config
        (loadAndDrive cfg config responses clock fuel (run cfg State.init evs).1).2 = 1 ∧
    errorCallbacks config
        (loadAndDrive cfg config responses clock fuel (run cfg State.init evs).1).2
      = (if config.error then 1 else 0) ∧
    (∃ pre, (loadAndDrive cfg config responses clock fuel (run cfg State.init evs).1).2
        = pre ++
          ([.downloadError (downloadErrorToRequestTypeMap request.type_) config,
            .error (newDownloadErrorToRequestTypeMap request.type_) config]
           ++ callbacks [(config.error, .errorCallback config),
                         (config.complete, .completeCallback config)]) ∧
        (∀ e ∈ pre, e.isScheduling = true) ∧
        transportLoads config pre = cfg.retryAttempts request.type_ + 1) ∧
    (loadAndDrive cfg config responses clock fuel (run cfg State.init evs).1).1.requests
      = (run cfg State.init evs).1.requests ∧
    (loadAndDrive cfg config responses clock fuel (run cfg State.init evs).1).1.delayedRequests
      = (run cfg State.init evs).1.delayedRequests ∧
    (loadAndDrive cfg config responses clock fuel (run cfg State.init evs).1).1.retryRequests
      = (run cfg State.init evs).1.retryRequests := by
  obtain ⟨pre, m', hrun, hpre, hloads⟩ := loadAndDrive_failing cfg (run cfg State.init evs).1
    config request responses clock fuel (inv_reachable cfg evs) hdeps hreq
    (fun k => Or.inl (hfail k)) hfuel
  obtain ⟨c1, c2, c3⟩ := scheduling_counts config pre hpre
  have hterm : terminalEffects config request (responses (cfg.retryAttempts request.type_))
      = [.downloadError (downloadErrorToRequestTypeMap request.type_) config,
          .error (newDownloadErrorToRequestTypeMap request.type_) config]
        ++ callbacks [(config.error, .errorCallback config),
                      (config.complete, .completeCallback config)] := by
    simp only [terminalEffects, if_neg (hfail _)]
  rw [hrun, ← hterm]
  refine ⟨?_, ?_, ?_, ?_, ⟨pre, rfl, hpre, hloads⟩, rfl, rfl, rfl⟩
  · simp only [transportLoads_append, hloads, transportLoads_terminal, Nat.add_zero]
  · simp only [downloadErrors_append, c2, hterm]
    cases config.error <;> cases config.complete <;> simp [downloadErrors, callbacks]
  · simp only [errorReports_append, c3, hterm]
    cases config.error <;> cases config.complete <;> simp [errorReports, callbacks]
  · simp only [errorCallbacks_append, c1, hterm]
    cases config.error <;> cases config.complete <;> simp [errorCallbacks, callbacks]

/-- The amended C2 at 3 retry attempts and status 500: 4 transport loads. -/
theorem load_retries_then_one_error_witness :
    transportLoads ⟨0, some ⟨.MEDIA_SEGMENT_TYPE, none⟩, true, true, true, true⟩
        (loadAndDrive ⟨true, fun _ => 3, fun _ => 1000⟩
          ⟨0, some ⟨.MEDIA_SEGMENT_TYPE, none⟩, true, true, true, true⟩
          (fun _ => ⟨500, none, false, false, .absent⟩) (fun _ => 0) 11
          (run ⟨true, fun _ => 3, fun _ => 1000⟩ State.init []).1).2 = 3 + 1 :=
  (load_retries_then_one_error ⟨true, fun _ => 3, fun _ => 1000⟩ []
    ⟨0, some ⟨.MEDIA_SEGMENT_TYPE, none⟩, true, true, true, true⟩
    ⟨.MEDIA_SEGMENT_TYPE, none⟩ (fun _ => ⟨500, none, false, false, .absent⟩) (fun _ => 0) 11
    rfl rfl (fun k => by simp) (by decide)).1

end HTTPLoader

namespace HTTPLoader

/-- The effects of `abort()` are cleared timers, transport aborts and abort
callbacks only. -/
theorem abort_effects (s : State) : ∀ eff ∈ (abort s).2, eff.isAbortEffect = true := by
  intro eff h
  simp only [abort, List.mem_append, List.mem_flatten, List.mem_map] at h
  rcases h with (⟨l, ⟨t, -, rfl⟩, h⟩ | ⟨x, -, rfl⟩) | ⟨l, ⟨x, -, rfl⟩, h⟩
  · rcases List.mem_cons.mp h with rfl | h
    · rfl
    · split_ifs at h
      · simp only [List.mem_singleton] at h
        subst h
        rfl
      · simp at h
  · rfl
  · rcases List.mem_cons.mp h with rfl | h
    · rfl
    · split_ifs at h
      · simp only [List.mem_singleton] at h
        subst h
        rfl
      · simp at h

/-- C3: in every reachable state, after `abort()` the retry queue, the delay
queue and the in-flight set are empty; and whatever happens afterwards (new
loads, timers, completions, further aborts), a retry timer, delay timer or
transport completion handler of a request that was outstanding at abort time
returns at once when it runs: it changes nothing and has no effect, so it
invokes none of the caller's success, error or complete callbacks and hands
nothing to the transport.  `abort()` itself only clears timers, asks the
transport to abort and invokes abort callbacks. -/
theorem abort_silences_outstanding (cfg : Cfg) (before after : List Event) (id : Nat)
    (e : Event) (hid : id ∈ (run cfg State.init before).1.outstanding)
    (he : e.handlerOf = some id) :
    (abort (run cfg State.init before).1).1.requests = [] ∧
    (abort (run cfg State.init before).1).1.delayedRequests = [] ∧
    (abort (run cfg State.init before).1).1.retryRequests = [] ∧
    (∀ eff ∈ (abort (run cfg State.init before).1).2, eff.isAbortEffect = true) ∧
    step cfg (run cfg (abort (run cfg State.init before).1).1 after).1 e
      = ((run cfg (abort (run cfg State.init before).1).1 after).1, []) := by
  refine ⟨rfl, rfl, rfl, abort_effects _, ?_⟩
  have hs := inv_reachable cfg before
  have hlt : id < (run cfg State.init before).1.nextId := by
    obtain ⟨-, hR, hD, hT⟩ := hs
    simp only [State.outstanding, List.mem_append, List.mem_map] at hid
    rcases hid with ((⟨x, hx, rfl⟩ | ⟨x, hx, rfl⟩) | ⟨x, hx, rfl⟩) | ⟨x, hx, rfl⟩
    · exact (hR x hx).2
    · exact (hD x hx).1.2
    · exact (hD x hx).2.2
    · exact (hT x hx).2
  have ha : (abort (run cfg State.init before).1).1.Inv (run cfg State.init before).1.nextId := by
    simp [abort, State.Inv]
  obtain ⟨-, hR, hD, hT⟩ := inv_run cfg _ after _ ha
  refine step_handler_absent cfg _ e id he ?_ ?_ ?_
  · intro x hx
    have := (hR x hx).1
    omega
  · intro x hx
    have := (hD x hx).1.1
    omega
  · intro x hx
    have := (hT x hx).1
    omega

/-- C3 for one request in flight when `abort()` is called: a late completion with status 200 does nothing. -/
theorem abort_silences_outstanding_witness :
    step ⟨true, fun _ => 3, fun _ => 1000⟩
        (run ⟨true, fun _ => 3, fun _ => 1000⟩
          (abort (run ⟨true, fun _ => 3, fun _ => 1000⟩ State.init
            [.load ⟨0, some ⟨.MEDIA_SEGMENT_TYPE, none⟩, true, true, true, true⟩ 0 .started]).1).1
          []).1
        (.loadEnd 0 (some ⟨200, none, false, false, .absent⟩))
      = ((run ⟨true, fun _ => 3, fun _ => 1000⟩
          (abort (run ⟨true, fun _ => 3, fun _ => 1000⟩ State.init
            [.load ⟨0, some ⟨.MEDIA_SEGMENT_TYPE, none⟩, true, true, true, true⟩ 0 .started]).1).1
          []).1, []) :=
  (abort_silences_outstanding ⟨true, fun _ => 3, fun _ => 1000⟩
    [.load ⟨0, some ⟨.MEDIA_SEGMENT_TYPE, none⟩, true, true, true, true⟩ 0 .started] [] 0
    (.loadEnd 0 (some ⟨200, none, false, false, .absent⟩))
    (by simp [run, step, load, internalLoad, State.init, State.outstanding]) rfl).2.2.2.2

/-- C9 (as stated) fails: with one configured retry and both attempts
answered by a 2xx response whose body is 10 bytes against a declared
content-length of 100, the attempts are exhausted, yet no error classified by
the request type is reported and the caller's error callback is not invoked:
the only report is the content-length-mismatch error. -/
theorem mismatch_exhaustion_no_error_callback :
    ¬ (∀ (cfg : Cfg) (config : LoadConfig) (request : Request) (responses : Nat → Response)
        (clock : Nat → ℚ) (fuel : Nat),
        cfg.depsPresent = true → config.request = some request → config.error = true →
        (∀ k, (responses k).fails) →
        3 * cfg.retryAttempts request.type_ + 2 ≤ fuel →
        Effect.error (newDownloadErrorToRequestTypeMap request.type_) config
            ∈ (loadAndDrive cfg config responses clock fuel State.init).2 ∧
        errorCallbacks config (loadAndDrive cfg config responses clock fuel State.init).2
          = 1) := by
  intro h
  have hmis : hasContentLengthMismatch ⟨200, some 10, true, true, .value 100⟩ = true := by
    norm_num [hasContentLengthMismatch]
  have hfail : ∀ k : Nat,
      ((fun _ => (⟨200, some 10, true, true, .value 100⟩ : Response)) k).fails :=
    fun k => Or.inr hmis
  have h1 := (h ⟨true, fun _ => 1, fun _ => 1000⟩
    ⟨0, some ⟨.MEDIA_SEGMENT_TYPE, none⟩, true, true, true, true⟩
    ⟨.MEDIA_SEGMENT_TYPE, none⟩ (fun _ => ⟨200, some 10, true, true, .value 100⟩)
    (fun _ => 0) 5 rfl rfl rfl hfail (by decide)).2
  obtain ⟨pre, m', hrun, hpre, -⟩ := loadAndDrive_failing ⟨true, fun _ => 1, fun _ => 1000⟩
    State.init ⟨0, some ⟨.MEDIA_SEGMENT_TYPE, none⟩, true, true, true, true⟩
    ⟨.MEDIA_SEGMENT_TYPE, none⟩ (fun _ => ⟨200, some 10, true, true, .value 100⟩)
    (fun _ => 0) 5 inv_init rfl rfl hfail (by decide)
  rw [hrun] at h1
  have hc := (scheduling_counts ⟨0, some ⟨.MEDIA_SEGMENT_TYPE, none⟩, true, true, true, true⟩
    pre hpre).1
  simp only [errorCallbacks_append, hc] at h1
  simp [terminalEffects, errorCallbacks] at h1

/-- C9 (amended): for every request whose every attempt fails, by a non-2xx
status or by a 2xx response with a content-length mismatch, nothing is
reported and no callback of the caller is invoked while attempts remain: the
`retryAttempts + 1` transport loads come first, among scheduling effects only.
When the last attempt ended in a non-2xx status the loader then surfaces one
terminal download error classified by the request type (media, index,
bitstream-switching and other map to the content error) and invokes the
caller's error callback exactly once (when supplied).  When the last attempt
ended in a 2xx response with a content-length mismatch the loader surfaces
exactly one error, the content-length-mismatch error, which is not classified
by the request type. -/
theorem exhausted_attempts_report (cfg : Cfg) (evs : List Event) (config : LoadConfig)
    (request : Request) (responses : Nat → Response) (clock : Nat → ℚ) (fuel : Nat)
    (hdeps : cfg.depsPresent = true) (hreq : config.request = some request)
    (hfail : ∀ k, (responses k).fails)
    (hfuel : 3 * cfg.retryAttempts request.type_ + 2 ≤ fuel) :
    (∃ pre terminal,
      (loadAndDrive cfg config responses clock fuel (run cfg State.init evs).1).2
        = pre ++ terminal ∧
      (∀ e ∈ pre, e.isScheduling = true) ∧
      transportLoads config pre = cfg.retryAttempts request.type_ + 1 ∧
      (¬ (200 ≤ (responses (cfg.retryAttempts request.type_)).status ∧
            (responses (cfg.retryAttempts request.type_)).status ≤ 299) →
        terminal =
          [.downloadError (downloadErrorToRequestTypeMap request.type_) config,
           .error (newDownloadErrorToRequestTypeMap request.type_) config]
          ++ callbacks [(config.error, .errorCallback config),
                        (config.complete, .completeCallback config)]) ∧
      ((200 ≤ (responses (cfg.retryAttempts request.type_)).status ∧
            (responses (cfg.retryAttempts request.type_)).status ≤ 299) →
        terminal = [.error (some .DOWNLOAD_CONTENT_LENGTH_MISMATCH) config])) ∧
    (¬ (200 ≤ (responses (cfg.retryAttempts request.type_)).status ∧
          (responses (cfg.retryAttempts request.type_)).status ≤ 299) →
      downloadErrors config
          (loadAndDrive cfg config responses clock fuel (run cfg State.init evs).1).2 = 1 ∧
      errorReports config
          (loadAndDrive cfg config responses clock fuel (run cfg State.init evs).1).2 = 1 ∧
      errorCallbacks config
          (loadAndDrive cfg config responses clock fuel (run cfg State.init evs).1).2
        = (if config.error then 1 else 0)) ∧
    ((200 ≤ (responses (cfg.retryAttempts request.type_)).status ∧
          (responses (cfg.retryAttempts request.type_)).status ≤ 299) →
      downloadErrors config
          (loadAndDrive cfg config responses clock fuel (run cfg State.init evs).1).2 = 0 ∧
      errorReports config
          (loadAndDrive cfg config responses clock fuel (run cfg State.init evs).1).2 = 1) ∧
    (request.type_ ∈ [RequestType.MEDIA_SEGMENT_TYPE, .INDEX_SEGMENT_TYPE,
        .BITSTREAM_SWITCHING_SEGMENT_TYPE, .OTHER_TYPE] →
      downloadErrorToRequestTypeMap request.type_ = some .DOWNLOAD_ERROR_ID_CONTENT ∧
      newDownloadErrorToRequestTypeMap request.type_ = some .DOWNLOAD_ERROR_ID_CONTENT_CODE) := by
  obtain ⟨pre, m', hrun, hpre, hloads⟩ := loadAndDrive_failing cfg (run cfg State.init evs).1
    config request responses clock fuel (inv_reachable cfg evs) hdeps hreq hfail hfuel
  obtain ⟨c1, c2, c3⟩ := scheduling_counts config pre hpre
  rw [hrun]
  refine ⟨⟨pre, _, rfl, hpre, hloads, ?_, ?_⟩, ?_, ?_, ?_⟩
  · intro h
    simp only [terminalEffects, if_neg h]
  · intro h
    simp only [terminalEffects, if_pos h]
  · intro h
    simp only [downloadErrors_append, errorReports_append, errorCallbacks_append, c1, c2, c3,
      terminalEffects, if_neg h]
    cases config.error <;> cases config.complete <;>
      simp [downloadErrors, errorReports, errorCallbacks, callbacks]
  · intro h
    simp only [downloadErrors_append, errorReports_append, c2, c3, terminalEffects, if_pos h]
    simp [downloadErrors, errorReports]
  · intro h
    simp only [List.mem_cons, List.mem_singleton, List.mem_nil_iff, or_false] at h
    rcases h with h | h | h | h <;>
      simp [h, downloadErrorToRequestTypeMap, newDownloadErrorToRequestTypeMap]

/-- The amended C9 at 3 retry attempts and status 500: one download error. -/
theorem exhausted_attempts_report_witness :
    downloadErrors ⟨0, some ⟨.MEDIA_SEGMENT_TYPE, none⟩, true, true, true, true⟩
        (loadAndDrive ⟨true, fun _ => 3, fun _ => 1000⟩
          ⟨0, some ⟨.MEDIA_SEGMENT_TYPE, none⟩, true, true, true, true⟩
          (fun _ => ⟨500, none, false, false, .absent⟩) (fun _ => 0) 11
          (run ⟨true, fun _ => 3, fun _ => 1000⟩ State.init []).1).2 = 1 :=
  ((exhausted_attempts_report ⟨true, fun _ => 3, fun _ => 1000⟩ []
    ⟨0, some ⟨.MEDIA_SEGMENT_TYPE, none⟩, true, true, true, true⟩
    ⟨.MEDIA_SEGMENT_TYPE, none⟩ (fun _ => ⟨500, none, false, false, .absent⟩) (fun _ => 0) 11
    rfl rfl (fun k => Or.inl (by simp)) (by decide)).2.1 (by simp)).1

end HTTPLoader

namespace HTTPLoader

/-- C10 (as stated) fails: a 2xx array-buffer response with an empty body
(`d = 0`) against a declared content-length `h = 100` has
`|d − h| = 100 > 0.25·h = 25`, yet it is not treated as a mismatch: the guard
`headerLength && dataLength` skips the comparison for an empty body. -/
theorem empty_body_is_no_mismatch :
    ¬ (∀ (resp : Response) (d : Nat) (h : ℚ),
        resp.body = some d → resp.isArrayBuffer = true → resp.hasGetResponseHeader = true →
        resp.contentLength = .value h →
        (hasContentLengthMismatch resp = true ↔ |(d : ℚ) - h| > h * 0.25)) := by
  intro hall
  have h1 := hall ⟨200, some 0, true, true, .value 100⟩ 0 100 rfl rfl rfl rfl
  have h2 : hasContentLengthMismatch ⟨200, some 0, true, true, .value 100⟩ = false := by
    simp [hasContentLengthMismatch]
  rw [h2] at h1
  norm_num at h1

/-- C10 (amended): a 2xx response is treated as a failure eligible for retry
(success callback not invoked; a retry is scheduled while attempts remain,
else the content-length-mismatch error is reported) exactly when it is an
array-buffer response with a non-empty body of `d` bytes and a declared
content-length `h` with `|d − h| > 0.25·h`; a difference of exactly 25%, an
empty body, a missing header or a non-array-buffer response counts as success
(the caller's success and complete callbacks are invoked). -/
theorem content_length_verdict (cfg : Cfg) (s : State) (id : Nat) (httpRequest : HttpRequest)
    (request : Request) (resp : Response)
    (hfind : s.requests.find? (fun x => x.id == id) = some httpRequest)
    (hreq : httpRequest.config.request = some request)
    (h2xx : 200 ≤ resp.status ∧ resp.status ≤ 299) :
    (hasContentLengthMismatch resp = true ↔
      ∃ (d : Nat) (h : ℚ), resp.body = some d ∧ resp.isArrayBuffer = true ∧
        resp.hasGetResponseHeader = true ∧ resp.contentLength = .value h ∧
        d ≠ 0 ∧ |(d : ℚ) - h| > h * 0.25) ∧
    (hasContentLengthMismatch resp = true →
      (∀ c, Effect.successCallback c ∉ (onloadend cfg s id (some resp)).2) ∧
      (0 < httpRequest.remainingAttempts →
        onloadend cfg s id (some resp)
          = scheduleRetry cfg { s with requests := s.requests.eraseP (fun x => x.id == id) }
              httpRequest.config (httpRequest.remainingAttempts - 1) request) ∧
      (httpRequest.remainingAttempts = 0 →
        (onloadend cfg s id (some resp)).2
          = [.error (some .DOWNLOAD_CONTENT_LENGTH_MISMATCH) httpRequest.config])) ∧
    (hasContentLengthMismatch resp = false →
      (onloadend cfg s id (some resp)).2
        = callbacks [(httpRequest.config.success, .successCallback httpRequest.config),
                     (httpRequest.config.complete, .completeCallback httpRequest.config)]) ∧
    (resp.contentLength = .absent → hasContentLengthMismatch resp = false) ∧
    (resp.isArrayBuffer = false → hasContentLengthMismatch resp = false) ∧
    (resp.body = some 0 → hasContentLengthMismatch resp = false) ∧
    (∀ (d : Nat) (h : ℚ), resp.body = some d → resp.contentLength = .value h →
      |(d : ℚ) - h| = h * 0.25 → hasContentLengthMismatch resp = false) := by
  refine ⟨?_, ?_, ?_, ?_, ?_, ?_, ?_⟩
  · constructor
    · intro h
      unfold hasContentLengthMismatch at h
      cases hb : resp.body with
      | none => simp [hb] at h
      | some d =>
        simp only [hb] at h
        split_ifs at h with hc
        cases hcl : resp.contentLength with
        | absent => simp [hcl] at h
        | nonNumeric => simp [hcl] at h
        | value hv =>
          simp only [hcl, decide_eq_true_eq] at h
          exact ⟨d, hv, rfl, hc.1, hc.2, rfl, h.1, h.2⟩
    · rintro ⟨d, hv, hb, ha, hg, hcl, hd, habs⟩
      simp only [hasContentLengthMismatch, hb, ha, hg, hcl, and_self, if_true,
        decide_eq_true_eq]
      exact ⟨hd, habs⟩
  · intro hmis
    refine ⟨?_, ?_, ?_⟩
    · intro c
      by_cases hrem : httpRequest.remainingAttempts > 0
      · simp [onloadend, hfind, hreq, h2xx, hmis, hrem, scheduleRetry]
      · simp [onloadend, hfind, hreq, h2xx, hmis, hrem]
    · intro hrem
      simp [onloadend, hfind, hreq, h2xx, hmis, hrem]
    · intro hrem
      simp [onloadend, hfind, hreq, h2xx, hmis, hrem]
  · intro hok
    simp [onloadend, hfind, hreq, h2xx, hok]
  · intro h
    unfold hasContentLengthMismatch
    cases resp.body <;> simp [h]
  · intro h
    unfold hasContentLengthMismatch
    cases resp.body <;> simp [h]
  · intro h
    unfold hasContentLengthMismatch
    simp only [h]
    split_ifs
    · cases resp.contentLength <;> simp
    · rfl
  · intro d hv hb hcl habs
    unfold hasContentLengthMismatch
    simp only [hb, hcl]
    split_ifs
    · simp only [decide_eq_false_iff_not, not_and, not_lt]
      intro _
      exact le_of_eq habs
    · rfl

/-- The amended C10 at a body of 10 bytes against a declared length of 100. -/
theorem content_length_verdict_witness :
    hasContentLengthMismatch ⟨200, some 10, true, true, .value 100⟩ = true ↔
      ∃ (d : Nat) (h : ℚ), (⟨200, some 10, true, true, .value 100⟩ : Response).body = some d ∧
        (⟨200, some 10, true, true, .value 100⟩ : Response).isArrayBuffer = true ∧
        (⟨200, some 10, true, true, .value 100⟩ : Response).hasGetResponseHeader = true ∧
        (⟨200, some 10, true, true, .value 100⟩ : Response).contentLength = .value h ∧
        d ≠ 0 ∧ |(d : ℚ) - h| > h * 0.25 :=
  (content_length_verdict ⟨true, fun _ => 3, fun _ => 1000⟩
    ⟨[⟨0, ⟨0, some ⟨.MEDIA_SEGMENT_TYPE, none⟩, true, true, true, true⟩, 3, true⟩], [], [], 1⟩
    0 ⟨0, ⟨0, some ⟨.MEDIA_SEGMENT_TYPE, none⟩, true, true, true, true⟩, 3, true⟩
    ⟨.MEDIA_SEGMENT_TYPE, none⟩ ⟨200, some 10, true, true, .value 100⟩
    (by simp [List.find?]) rfl (by decide)).1

end HTTPLoader

/-! ## Theorems: BufferController state machine -/

namespace BufferController

theorem andThen_crit (r : Res) (f : State → Res) (c : Option ℚ)
    (hr : r.st.criticalBufferLevel = c)
    (hf : ∀ s, s.criticalBufferLevel = c → (f s).st.criticalBufferLevel = c) :
    (r.andThen f).st.criticalBufferLevel = c := by
  unfold Res.andThen
  split_ifs
  · exact hr
  · exact hf _ hr

theorem notifyBufferStateChanged_crit (cfg : Config) (s : State) (env : Env) (b : BufferState) :
    (notifyBufferStateChanged cfg s env b).st.criticalBufferLevel = s.criticalBufferLevel := by
  unfold notifyBufferStateChanged
  split_ifs <;> rfl

theorem checkIfBufferingCompleted_crit (s : State) :
    (checkIfBufferingCompleted s).st.criticalBufferLevel = s.criticalBufferLevel := by
  unfold checkIfBufferingCompleted
  simp only
  split_ifs <;> rfl

theorem checkIfSufficientBuffer_crit (cfg : Config) (s : State) (env : Env) :
    (checkIfSufficientBuffer cfg s env).st.criticalBufferLevel = s.criticalBufferLevel := by
  unfold checkIfSufficientBuffer
  simp only
  split
  · rfl
  · refine andThen_crit _ _ _ (by split <;> rfl) ?_
    intro s1 h1
    repeat' split
    all_goals first | exact h1 | (rw [notifyBufferStateChanged_crit]; exact h1)

theorem updateBufferLevel_crit (cfg : Config) (s : State) (env : Env) :
    (updateBufferLevel cfg s env).st.criticalBufferLevel = s.criticalBufferLevel := by
  unfold updateBufferLevel
  repeat' split
  all_goals first | rfl | skip
  refine andThen_crit _ _ _ rfl ?_
  intro s1 h1
  rw [checkIfSufficientBuffer_crit]
  exact h1

theorem appendToBuffer_crit (s : State) (chunk : Chunk) :
    (appendToBuffer s chunk).st.criticalBufferLevel = s.criticalBufferLevel := by
  unfold appendToBuffer
  cases s.buffer <;> rfl

theorem clearBufferOfClearRange_crit (s : State) :
    (clearBufferOfClearRange s).st.criticalBufferLevel = s.criticalBufferLevel := by
  unfold clearBufferOfClearRange
  cases s.buffer <;> rfl

theorem pruneBuffer_crit (cfg : Config) (s : State) (env : Env) :
    (pruneBuffer cfg s env).st.criticalBufferLevel = s.criticalBufferLevel := by
  unfold pruneBuffer
  cases s.buffer with
  | none => rfl
  | some b =>
    simp only []
    split_ifs <;> rfl

theorem createBuffer_crit (s : State) (mediaInfo : Bool) (created : Option Nat) :
    (createBuffer s mediaInfo created).st.criticalBufferLevel = s.criticalBufferLevel := by
  unfold createBuffer
  repeat' split
  all_goals rfl

theorem onRemoved_crit (cfg : Config) (s : State) (env : Env) (b : Nat) :
    (onRemoved cfg s env b).st.criticalBufferLevel = s.criticalBufferLevel := by
  unfold onRemoved
  repeat' split
  all_goals first | rfl | skip
  refine andThen_crit _ _ _ (by rw [updateBufferLevel_crit]) ?_
  intro s1 h1
  exact h1

theorem dischargePreBuffer_crit (s : State) (env : Env) (mediaInfo : Bool)
    (created : Option Nat) (chunks : List Chunk) :
    (dischargePreBuffer s env mediaInfo created chunks).st.criticalBufferLevel
      = s.criticalBufferLevel := by
  unfold dischargePreBuffer
  repeat' split
  all_goals first | rfl | skip
  refine andThen_crit _ _ _ (by rw [createBuffer_crit]) ?_
  intro s1 h1
  split <;> exact h1

theorem onAppended_crit_no_quota (cfg : Config) (s : State) (env : Env) (b : Nat)
    (error : Option Nat) (h : ∀ code, error = some code → code ≠ QUOTA_EXCEEDED_ERROR_CODE) :
    (onAppended cfg s env b error).st.criticalBufferLevel = s.criticalBufferLevel := by
  unfold onAppended
  refine andThen_crit _ _ _ ?_ ?_
  · repeat' split
    all_goals first | rfl | skip
    all_goals
      refine andThen_crit _ _ _ (andThen_crit _ _ _ ?_ ?_) ?_
      · first | rfl | (rw [checkIfBufferingCompleted_crit])
      · intro s1 h1
        unfold onPlaybackProgression
        rw [updateBufferLevel_crit]
        exact h1
      · intro s1 h1
        split <;> exact h1
  · intro s3 h3
    cases error with
    | none => exact h3
    | some code =>
      have hc := h code rfl
      simp only [hc, if_false, false_or]
      repeat' split
      all_goals first | exact h3 | skip
      refine andThen_crit _ _ _ h3 ?_
      intro s5 h5
      rw [clearBufferOfClearRange_crit]
      exact h5


theorem andThen_life (r : Res) (f : State → Res) (c : Bool × Bool)
    (hr : r.st.lifecycle = c)
    (hf : ∀ s, s.lifecycle = c → (f s).st.lifecycle = c) :
    (r.andThen f).st.lifecycle = c := by
  unfold Res.andThen
  split_ifs
  · exact hr
  · exact hf _ hr

theorem notifyBufferStateChanged_life (cfg : Config) (s : State) (env : Env) (b : BufferState) :
    (notifyBufferStateChanged cfg s env b).st.lifecycle = s.lifecycle := by
  unfold notifyBufferStateChanged
  split_ifs <;> rfl

theorem checkIfBufferingCompleted_life (s : State) :
    (checkIfBufferingCompleted s).st.lifecycle = s.lifecycle := by
  unfold checkIfBufferingCompleted
  simp only
  split_ifs <;> rfl

theorem checkIfSufficientBuffer_life (cfg : Config) (s : State) (env : Env) :
    (checkIfSufficientBuffer cfg s env).st.lifecycle = s.lifecycle := by
  unfold checkIfSufficientBuffer
  simp only
  split
  · rfl
  · refine andThen_life _ _ _ (by split <;> rfl) ?_
    intro s1 h1
    repeat' split
    all_goals first | exact h1 | (rw [notifyBufferStateChanged_life]; exact h1)

theorem updateBufferLevel_life (cfg : Config) (s : State) (env : Env) :
    (updateBufferLevel cfg s env).st.lifecycle = s.lifecycle := by
  unfold updateBufferLevel
  repeat' split
  all_goals first | rfl | skip
  refine andThen_life _ _ _ rfl ?_
  intro s1 h1
  rw [checkIfSufficientBuffer_life]
  exact h1

theorem appendToBuffer_life (s : State) (chunk : Chunk) :
    (appendToBuffer s chunk).st.lifecycle = s.lifecycle := by
  unfold appendToBuffer
  cases s.buffer <;> rfl

theorem clearBufferOfClearRange_life (s : State) :
    (clearBufferOfClearRange s).st.lifecycle = s.lifecycle := by
  unfold clearBufferOfClearRange
  cases s.buffer <;> rfl

theorem pruneBuffer_life (cfg : Config) (s : State) (env : Env) :
    (pruneBuffer cfg s env).st.lifecycle = s.lifecycle := by
  unfold pruneBuffer
  cases s.buffer with
  | none => rfl
  | some b =>
    simp only []
    split_ifs <;> rfl

theorem createBuffer_life (s : State) (mediaInfo : Bool) (created : Option Nat) :
    (createBuffer s mediaInfo created).st.lifecycle = s.lifecycle := by
  unfold createBuffer
  repeat' split
  all_goals rfl

theorem onRemoved_life (cfg : Config) (s : State) (env : Env) (b : Nat) :
    (onRemoved cfg s env b).st.lifecycle = s.lifecycle := by
  unfold onRemoved
  repeat' split
  all_goals first | rfl | skip
  refine andThen_life _ _ _ (by rw [updateBufferLevel_life]) ?_
  intro s1 h1
  exact h1

theorem dischargePreBuffer_life (s : State) (env : Env) (mediaInfo : Bool)
    (created : Option Nat) (chunks : List Chunk) :
    (dischargePreBuffer s env mediaInfo created chunks).st.lifecycle
      = s.lifecycle := by
  unfold dischargePreBuffer
  repeat' split
  all_goals first | rfl | skip
  refine andThen_life _ _ _ (by rw [createBuffer_life]) ?_
  intro s1 h1
  split <;> exact h1

theorem onAppended_life (cfg : Config) (s : State) (env : Env) (b : Nat)
    (error : Option Nat) :
    (onAppended cfg s env b error).st.lifecycle = s.lifecycle := by
  unfold onAppended
  refine andThen_life _ _ _ ?_ ?_
  · repeat' split
    all_goals first | rfl | skip
    all_goals
      refine andThen_life _ _ _ (andThen_life _ _ _ ?_ ?_) ?_
      · first | rfl | (rw [checkIfBufferingCompleted_life])
      · intro s1 h1
        unfold onPlaybackProgression
        rw [updateBufferLevel_life]
        exact h1
      · intro s1 h1
        split <;> exact h1
  · intro s3 h3
    cases error with
    | none => exact h3
    | some code =>
      simp only []
      repeat' split
      all_goals first | exact h3 | skip
      all_goals
        refine andThen_life _ _ _ h3 ?_
        intro s5 h5
        rw [clearBufferOfClearRange_life]
        exact h5

/-- Every event other than `reset` and `initialize` leaves the life-cycle
variables as they are. -/
theorem step_life (cfg : Config) (s : State) (env : Env) (e : Event)
    (hreset : e.isReset = false) (hinit : ∀ src, e ≠ .initializeCall src) :
    (step cfg s (env, e)).st.lifecycle = s.lifecycle := by
  unfold step
  split_ifs
  · rfl
  · cases e with
    | initializeCall source => exact absurd rfl (hinit source)
    | createBuffer mediaInfo created => exact createBuffer_life s mediaInfo created
    | setMediaSource value mediaInfo created chunks =>
      simp only [handle, setMediaSource]
      split_ifs
      all_goals first | rfl | rw [dischargePreBuffer_life]
    | setSeekStartTime value => rfl
    | switchInitData a b =>
      simp only [handle, switchInitData]
      repeat' split
      all_goals first | rfl | exact appendToBuffer_life _ _
    | reset errored => simp [Event.isReset] at hreset
    | initFragmentLoaded own chunk =>
      simp only [handle, onInitFragmentLoaded]
      split_ifs
      all_goals first
        | rfl
        | exact andThen_life _ _ _ rfl (fun s1 h1 => by rw [appendToBuffer_life]; exact h1)
    | mediaFragmentLoaded own chunk =>
      simp only [handle, onMediaFragmentLoaded]
      split_ifs
      all_goals first | rfl | exact appendToBuffer_life _ _
    | qualityChangeRequested => rfl
    | dataUpdateCompleted => rfl
    | streamCompleted own index =>
      simp only [handle, onStreamCompleted]
      split_ifs
      all_goals first | rfl | rw [checkIfBufferingCompleted_life]
    | playbackProgress => exact updateBufferLevel_life cfg s env
    | playbackTimeUpdated => exact updateBufferLevel_life cfg s env
    | playbackRateChanged => exact checkIfSufficientBuffer_life cfg s env
    | playbackSeeking =>
      simp only [handle, onPlaybackSeeking, onPlaybackProgression]
      rw [updateBufferLevel_life]
      split_ifs <;> rfl
    | wallclockTimeUpdated =>
      simp only [handle, onWallclockTimeUpdated]
      split_ifs
      all_goals first | rfl | rw [pruneBuffer_life]
    | currentTrackChanged isMatch =>
      simp only [handle, onCurrentTrackChanged]
      repeat' split
      all_goals first | rfl | exact clearBufferOfClearRange_life _
    | appendCompleted b error => exact onAppended_life cfg s env b error
    | removeCompleted b => exact onRemoved_life cfg s env b
    | playbackSeeked =>
      simp only [handle, onSeeked]
      repeat' split
      all_goals rfl

/-- While the handlers are registered, `initCache` and `videoModel` are set. -/
theorem subscribed_initCache (cfg : Config) (evs : List (Env × Event)) :
    ∀ s : State, (s.subscribed = true → s.initCache = true) →
      ((run cfg s evs).1.subscribed = true → (run cfg s evs).1.initCache = true) := by
  induction evs with
  | nil => intro s h; exact h
  | cons x xs ih =>
    intro s h
    simp only [run]
    refine ih _ ?_
    obtain ⟨env, e⟩ := x
    by_cases hreset : e.isReset = true
    · cases e <;> simp [Event.isReset] at hreset
      simp [step, Event.isSignal, handle, reset]
      split <;> simp
    · by_cases hinit : ∃ src, e = .initializeCall src
      · obtain ⟨src, rfl⟩ := hinit
        simp [step, Event.isSignal, handle, initializeController]
      · have hl := step_life cfg s env e (by simpa using hreset)
          (fun src hsrc => hinit ⟨src, hsrc⟩)
        simp only [State.lifecycle, Prod.mk.injEq] at hl
        rw [hl.1, hl.2]
        exact h

/-- Every event other than `reset` and an append-completed event with the
quota-exceeded code leaves `criticalBufferLevel` as it is. -/
theorem step_crit (cfg : Config) (s : State) (env : Env) (e : Event)
    (hreset : e.isReset = false) (hquota : e.isQuotaError = false) :
    (step cfg s (env, e)).st.criticalBufferLevel = s.criticalBufferLevel := by
  unfold step
  split_ifs
  · rfl
  · cases e with
    | initializeCall source => rfl
    | createBuffer mediaInfo created => exact createBuffer_crit s mediaInfo created
    | setMediaSource value mediaInfo created chunks =>
      simp only [handle, setMediaSource]
      split_ifs
      all_goals first | rfl | rw [dischargePreBuffer_crit]
    | setSeekStartTime value => rfl
    | switchInitData a b =>
      simp only [handle, switchInitData]
      repeat' split
      all_goals first | rfl | exact appendToBuffer_crit _ _
    | reset errored => simp [Event.isReset] at hreset
    | initFragmentLoaded own chunk =>
      simp only [handle, onInitFragmentLoaded]
      split_ifs
      all_goals first
        | rfl
        | exact andThen_crit _ _ _ rfl (fun s1 h1 => by rw [appendToBuffer_crit]; exact h1)
    | mediaFragmentLoaded own chunk =>
      simp only [handle, onMediaFragmentLoaded]
      split_ifs
      all_goals first | rfl | exact appendToBuffer_crit _ _
    | qualityChangeRequested => rfl
    | dataUpdateCompleted => rfl
    | streamCompleted own index =>
      simp only [handle, onStreamCompleted]
      split_ifs
      all_goals first | rfl | rw [checkIfBufferingCompleted_crit]
    | playbackProgress => exact updateBufferLevel_crit cfg s env
    | playbackTimeUpdated => exact updateBufferLevel_crit cfg s env
    | playbackRateChanged => exact checkIfSufficientBuffer_crit cfg s env
    | playbackSeeking =>
      simp only [handle, onPlaybackSeeking, onPlaybackProgression]
      rw [updateBufferLevel_crit]
      split_ifs <;> rfl
    | wallclockTimeUpdated =>
      simp only [handle, onWallclockTimeUpdated]
      split_ifs
      all_goals first | rfl | rw [pruneBuffer_crit]
    | currentTrackChanged isMatch =>
      simp only [handle, onCurrentTrackChanged]
      repeat' split
      all_goals first | rfl | exact clearBufferOfClearRange_crit _
    | appendCompleted b error =>
      refine onAppended_crit_no_quota cfg s env b error ?_
      intro code hcode hq
      subst hcode
      simp [Event.isQuotaError, hq] at hquota
    | removeCompleted b => exact onRemoved_crit cfg s env b
    | playbackSeeked =>
      simp only [handle, onSeeked]
      repeat' split
      all_goals rfl

end BufferController

namespace BufferController

/-- A piece of the controller that ends normally with the sink and the
`initialize` flag as given. -/
theorem andThen_ok (r : Res) (f : State → Res) (B : Option Sink)
    (hr : r.threw = false ∧ r.st.buffer = B ∧ r.st.initCache = true)
    (hf : ∀ s, s.buffer = B → s.initCache = true →
      (f s).threw = false ∧ (f s).st.buffer = B ∧ (f s).st.initCache = true) :
    (r.andThen f).threw = false ∧ (r.andThen f).st.buffer = B ∧
      (r.andThen f).st.initCache = true := by
  obtain ⟨h1, h2, h3⟩ := hr
  unfold Res.andThen
  simp only [h1, Bool.false_eq_true, if_false]
  exact hf _ h2 h3

theorem notifyBufferStateChanged_ok (cfg : Config) (s : State) (env : Env) (b : BufferState) :
    (notifyBufferStateChanged cfg s env b).threw = false ∧
      (notifyBufferStateChanged cfg s env b).st.buffer = s.buffer ∧
      (notifyBufferStateChanged cfg s env b).st.initCache = s.initCache := by
  unfold notifyBufferStateChanged
  split_ifs <;> exact ⟨rfl, rfl, rfl⟩

theorem checkIfBufferingCompleted_ok (s : State) :
    (checkIfBufferingCompleted s).threw = false ∧
      (checkIfBufferingCompleted s).st.buffer = s.buffer ∧
      (checkIfBufferingCompleted s).st.initCache = s.initCache := by
  unfold checkIfBufferingCompleted
  simp only
  split_ifs <;> exact ⟨rfl, rfl, rfl⟩

theorem checkIfSufficientBuffer_ok (cfg : Config) (s : State) (env : Env)
    (hinit : s.initCache = true) :
    (checkIfSufficientBuffer cfg s env).threw = false ∧
      (checkIfSufficientBuffer cfg s env).st.buffer = s.buffer ∧
      (checkIfSufficientBuffer cfg s env).st.initCache = true := by
  unfold checkIfSufficientBuffer
  simp only
  split
  · exact ⟨rfl, rfl, hinit⟩
  · refine andThen_ok _ _ _ (by split <;> exact ⟨rfl, rfl, hinit⟩) ?_
    intro s1 hb hi
    simp only [hi, not_true_eq_false, if_false]
    repeat' split
    all_goals first
      | exact ⟨rfl, hb, hi⟩
      | (obtain ⟨h1, h2, h3⟩ := notifyBufferStateChanged_ok cfg s1 env .BUFFER_EMPTY
         exact ⟨h1, h2.trans hb, h3.trans hi⟩)
      | (obtain ⟨h1, h2, h3⟩ := notifyBufferStateChanged_ok cfg s1 env .BUFFER_LOADED
         exact ⟨h1, h2.trans hb, h3.trans hi⟩)

theorem updateBufferLevel_ok (cfg : Config) (s : State) (env : Env) (sink : Sink)
    (hbuf : s.buffer = some sink) (hinit : s.initCache = true) :
    (updateBufferLevel cfg s env).threw = false ∧
      (updateBufferLevel cfg s env).st.buffer = some sink ∧
      (updateBufferLevel cfg s env).st.initCache = true := by
  unfold updateBufferLevel
  split
  · split
    · rename_i h
      rw [hbuf] at h
      cases h
    · refine andThen_ok _ _ _ ⟨rfl, hbuf, hinit⟩ ?_
      intro s2 hb hi
      obtain ⟨h1, h2, h3⟩ := checkIfSufficientBuffer_ok cfg s2 env hi
      exact ⟨h1, h2.trans hb, h3⟩
  · exact ⟨rfl, hbuf, hinit⟩

/-- With a sink and after `initialize`, an append-completed event carrying
the quota-exceeded code sets `criticalBufferLevel` to 0.8 times the total
buffered time. -/
theorem onAppended_quota (cfg : Config) (s : State) (env : Env) (b : Nat) (sink : Sink)
    (hbuf : s.buffer = some sink) (hinit : s.initCache = true) :
    (onAppended cfg s env b (some QUOTA_EXCEEDED_ERROR_CODE)).st.criticalBufferLevel
      = some (getTotalBufferedTime env * 0.8) := by
  unfold onAppended
  have h1 : ∀ r1 : Res, (r1.threw = false ∧ r1.st.buffer = some sink ∧ r1.st.initCache = true) →
      (r1.andThen fun s3 =>
        match (some QUOTA_EXCEEDED_ERROR_CODE : Option Nat) with
        | none => ⟨s3, [], false⟩
        | some code =>
            match s3.buffer with
            | none => ⟨s3, [], true⟩
            | some _ =>
                let s4 :=
                  if code = QUOTA_EXCEEDED_ERROR_CODE then
                    { s3 with criticalBufferLevel := some (getTotalBufferedTime env * 0.8) }
                  else s3
                if code = QUOTA_EXCEEDED_ERROR_CODE ∨ ¬ hasEnoughSpaceToAppend s4 env then
                  (Res.mk s4 [.quotaExceeded s4.criticalBufferLevel] false).andThen fun s5 =>
                    clearBufferOfClearRange s5
                else ⟨s4, [], false⟩).st.criticalBufferLevel
        = some (getTotalBufferedTime env * 0.8) := by
    rintro r1 ⟨ht, hb, -⟩
    simp only [Res.andThen, ht, Bool.false_eq_true, if_false, hb, if_true, true_or,
      clearBufferOfClearRange]
  apply h1
  split
  · exact ⟨rfl, hbuf, hinit⟩
  · split_ifs
    · refine andThen_ok _ _ _ (andThen_ok _ _ _ ?_ ?_) ?_
      · repeat' split
        all_goals first
          | exact ⟨rfl, hbuf, hinit⟩
          | (obtain ⟨a1, a2, a3⟩ := checkIfBufferingCompleted_ok
               { s with maxAppendedIndex := max (by assumption) s.maxAppendedIndex }
             exact ⟨a1, a2.trans hbuf, a3.trans hinit⟩)
      · intro s1 hb hi
        exact updateBufferLevel_ok cfg s1 env sink hb hi
      · intro s2 hb hi
        split <;> exact ⟨rfl, hb, hi⟩
    · exact ⟨rfl, hbuf, hinit⟩

theorem run_append (cfg : Config) (xs ys : List (Env × Event)) :
    ∀ s : State, run cfg s (xs ++ ys)
      = ((run cfg (run cfg s xs).1 ys).1, (run cfg s xs).2 ++ (run cfg (run cfg s xs).1 ys).2) := by
  induction xs with
  | nil => intro s; simp [run]
  | cons x xs ih =>
    intro s
    have := ih (step cfg s x).st
    show run cfg s (x :: (xs ++ ys)) = _
    simp only [run, this, List.append_assoc]

/-- Without a quota error and without `reset`, `criticalBufferLevel` stays
what it was. -/
theorem run_crit (cfg : Config) (evs : List (Env × Event)) :
    ∀ s : State, (∀ x ∈ evs, x.2.isReset = false ∧ x.2.isQuotaError = false) →
      (run cfg s evs).1.criticalBufferLevel = s.criticalBufferLevel := by
  induction evs with
  | nil => intro s _; rfl
  | cons x xs ih =>
    intro s h
    simp only [run]
    rw [ih _ (fun y hy => h y (List.mem_cons_of_mem _ hy))]
    obtain ⟨env, e⟩ := x
    exact step_crit cfg s env e (h _ (List.mem_cons_self _ _)).1 (h _ (List.mem_cons_self _ _)).2

/-- C4: in every reachable state in which the handlers are registered and a
sink exists, an append-completed event that carries an error with the
quota-exceeded code (22) sets `criticalBufferLevel` to exactly 0.8 times the
sum of `end − start` over the sink's buffered ranges at that moment (20 gives
16).  It is `+Infinity` (`none`) after construction and after `reset`, and no
event other than `reset` or another quota error changes it, whatever the
state: before any such error it is still `+Infinity`, and after one it keeps
the value set then however the buffered ranges change later. -/
theorem quota_error_sets_criticalBufferLevel (cfg : Config) (evs later : List (Env × Event))
    (env : Env) (b : Nat) (sink : Sink)
    (hsub : (run cfg State.init evs).1.subscribed = true)
    (hbuf : (run cfg State.init evs).1.buffer = some sink)
    (hlater : ∀ x ∈ later, x.2.isReset = false ∧ x.2.isQuotaError = false) :
    (step cfg (run cfg State.init evs).1 (env, .appendCompleted b (some 22))).st.criticalBufferLevel
      = some (((env.ranges.getD []).map fun r => r.end_ - r.start).sum * 0.8) ∧
    (run cfg (step cfg (run cfg State.init evs).1
        (env, .appendCompleted b (some 22))).st later).1.criticalBufferLevel
      = some (((env.ranges.getD []).map fun r => r.end_ - r.start).sum * 0.8) ∧
    (((env.ranges.getD []).map fun r => r.end_ - r.start).sum = 20 →
      (step cfg (run cfg State.init evs).1
        (env, .appendCompleted b (some 22))).st.criticalBufferLevel = some 16) ∧
    State.init.criticalBufferLevel = none ∧
    (∀ (s : State) (errored : Bool), (reset s errored).st.criticalBufferLevel = none) ∧
    (∀ (s : State) (env' : Env) (e : Event), e.isReset = false → e.isQuotaError = false →
      (step cfg s (env', e)).st.criticalBufferLevel = s.criticalBufferLevel) ∧
    (∀ before : List (Env × Event),
      (∀ x ∈ before, x.2.isQuotaError = false) →
      (run cfg State.init before).1.criticalBufferLevel = none) := by
  have hinit := subscribed_initCache cfg evs State.init (by simp [State.init]) hsub
  have hstep : (step cfg (run cfg State.init evs).1
      (env, .appendCompleted b (some 22))).st.criticalBufferLevel
      = some (((env.ranges.getD []).map fun r => r.end_ - r.start).sum * 0.8) := by
    have := onAppended_quota cfg _ env b sink hbuf hinit
    have htot : getTotalBufferedTime env
        = ((env.ranges.getD []).map fun r => r.end_ - r.start).sum := by
      unfold getTotalBufferedTime
      cases env.ranges <;> simp
    rw [htot] at this
    simpa [step, Event.isSignal, hsub, handle, QUOTA_EXCEEDED_ERROR_CODE] using this
  refine ⟨hstep, ?_, ?_, rfl, ?_, ?_, ?_⟩
  · rw [run_crit cfg later _ hlater, hstep]
  · intro h20
    rw [hstep, h20]
    norm_num
  · intro s errored
    unfold reset
    cases s.buffer <;> rfl
  · intro s env' e h1 h2
    exact step_crit cfg s env' e h1 h2
  · intro before
    induction before using List.reverseRecOn with
    | nil => intro _; rfl
    | append_singleton xs x ih =>
      intro h
      rw [run_append]
      simp only [run, List.append_nil]
      have ihx := ih (fun y hy => h y (List.mem_append_left _ hy))
      have hx := h x (List.mem_append_right _ (List.mem_singleton_self x))
      obtain ⟨env', e⟩ := x
      by_cases hr : e.isReset = true
      · cases e <;> simp [Event.isReset] at hr
        simp only [step, Event.isSignal, Bool.false_eq_true, false_and, if_false, handle, reset]
        split <;> rfl
      · rw [step_crit cfg _ env' e (by simpa using hr) hx, ihx]

/-- C4 for a video controller with one buffered range `(0,20)`: the level becomes 16. -/
theorem quota_error_sets_criticalBufferLevel_witness :
    (step ⟨.video, true⟩
      (run ⟨.video, true⟩ State.init
        [(⟨some [], [], some 0, 100, none, false, fun _ _ => none, 30, 50, 10, false, false⟩,
            .initializeCall true),
         (⟨some [], [], some 0, 100, none, false, fun _ _ => none, 30, 50, 10, false, false⟩,
            .createBuffer true (some 1))]).1
      (⟨some [⟨0, 20⟩], [⟨0, 20⟩], some 0, 100, none, false, fun _ _ => none, 30, 50, 10,
          false, false⟩,
        .appendCompleted 1 (some 22))).st.criticalBufferLevel = some 16 :=
  (quota_error_sets_criticalBufferLevel ⟨.video, true⟩
    [(⟨some [], [], some 0, 100, none, false, fun _ _ => none, 30, 50, 10, false, false⟩,
        .initializeCall true),
     (⟨some [], [], some 0, 100, none, false, fun _ _ => none, 30, 50, 10, false, false⟩,
        .createBuffer true (some 1))] []
    ⟨some [⟨0, 20⟩], [⟨0, 20⟩], some 0, 100, none, false, fun _ _ => none, 30, 50, 10,
      false, false⟩
    1 ⟨1, false⟩
    (by simp [run, step, Event.isSignal, handle, initializeController, createBuffer, State.init])
    (by simp [run, step, Event.isSignal, handle, initializeController, createBuffer, State.init])
    (by simp)).2.2.1 (by norm_num)

end BufferController

namespace BufferController

theorem completions_append (l₁ l₂ : List Output) :
    completions (l₁ ++ l₂) = completions l₁ + completions l₂ := by
  simp [completions, List.filter_append]

theorem andThen_emits (r : Res) (f : State → Res) (n : Nat) (c : Bool)
    (hr : Emits r n c)
    (hf : ∀ s, s.isBufferingCompleted = c → s.seekClearedBufferingCompleted = false →
      Emits (f s) 0 c) :
    Emits (r.andThen f) n c := by
  unfold Res.andThen
  split_ifs
  · exact hr
  · obtain ⟨h1, h2, h3⟩ := hr
    obtain ⟨g1, g2, g3⟩ := hf r.st h2 h3
    exact ⟨by simp only [completions_append, h1, g1, Nat.add_zero], g2, g3⟩

theorem notifyBufferStateChanged_emits (cfg : Config) (s : State) (env : Env)
    (b : BufferState) (hs : s.seekClearedBufferingCompleted = false) :
    Emits (notifyBufferStateChanged cfg s env b) 0 s.isBufferingCompleted := by
  unfold notifyBufferStateChanged
  split_ifs
  all_goals exact ⟨rfl, rfl, hs⟩

theorem checkIfSufficientBuffer_emits (cfg : Config) (s : State) (env : Env)
    (hs : s.seekClearedBufferingCompleted = false) :
    Emits (checkIfSufficientBuffer cfg s env) 0 s.isBufferingCompleted := by
  unfold checkIfSufficientBuffer
  simp only [hs, Bool.false_eq_true, false_and, if_false]
  split
  · exact ⟨rfl, rfl, hs⟩
  · refine andThen_emits _ _ _ _ ⟨rfl, rfl, hs⟩ ?_
    intro s1 hc hk
    repeat' split
    all_goals first
      | exact ⟨rfl, hc, hk⟩
      | exact hc ▸ notifyBufferStateChanged_emits cfg s1 env .BUFFER_EMPTY hk
      | exact hc ▸ notifyBufferStateChanged_emits cfg s1 env .BUFFER_LOADED hk

theorem updateBufferLevel_emits (cfg : Config) (s : State) (env : Env)
    (hs : s.seekClearedBufferingCompleted = false) :
    Emits (updateBufferLevel cfg s env) 0 s.isBufferingCompleted := by
  unfold updateBufferLevel
  repeat' split
  all_goals first | exact ⟨rfl, rfl, hs⟩ | skip
  refine andThen_emits _ _ _ _ ⟨by simp [completions], rfl, hs⟩ ?_
  intro s2 hc hk
  have := checkIfSufficientBuffer_emits cfg s2 env hk
  rw [hc] at this
  exact this

theorem appendToBuffer_emits (s : State) (chunk : Chunk)
    (hs : s.seekClearedBufferingCompleted = false) :
    Emits (appendToBuffer s chunk) 0 s.isBufferingCompleted := by
  unfold appendToBuffer
  cases s.buffer with
  | none => exact ⟨rfl, rfl, hs⟩
  | some sink =>
    refine ⟨?_, rfl, hs⟩
    cases chunk.isVideo <;> simp [completions]

theorem clearBufferOfClearRange_emits (s : State)
    (hs : s.seekClearedBufferingCompleted = false) :
    Emits (clearBufferOfClearRange s) 0 s.isBufferingCompleted := by
  unfold clearBufferOfClearRange
  cases s.buffer <;> exact ⟨rfl, rfl, hs⟩

theorem pruneBuffer_emits (cfg : Config) (s : State) (env : Env)
    (hs : s.seekClearedBufferingCompleted = false) :
    Emits (pruneBuffer cfg s env) 0 s.isBufferingCompleted := by
  unfold pruneBuffer
  cases s.buffer with
  | none => exact ⟨rfl, rfl, hs⟩
  | some b =>
    simp only []
    split_ifs
    all_goals exact ⟨rfl, rfl, hs⟩

theorem createBuffer_emits (s : State) (mediaInfo : Bool) (created : Option Nat)
    (hs : s.seekClearedBufferingCompleted = false) :
    Emits (createBuffer s mediaInfo created) 0 s.isBufferingCompleted := by
  unfold createBuffer
  repeat' split
  all_goals exact ⟨rfl, rfl, hs⟩

theorem dischargeLoop_completions (env : Env) (sink : Nat) :
    ∀ (chunks : List Chunk) (lastInit : Option Chunk),
      completions (dischargeLoop env sink chunks lastInit) = 0 := by
  intro chunks
  induction chunks with
  | nil => intro _; rfl
  | cons c cs ih =>
    intro lastInit
    unfold dischargeLoop
    split
    · rename_i initChunk _
      have h1 := ih lastInit
      have h2 := ih (some initChunk)
      split_ifs
      all_goals first
        | (simpa [completions] using h1)
        | (simpa [completions] using h2)
    · exact ih lastInit

theorem dischargePreBuffer_emits (s : State) (env : Env) (mediaInfo : Bool)
    (created : Option Nat) (chunks : List Chunk)
    (hs : s.seekClearedBufferingCompleted = false) :
    Emits (dischargePreBuffer s env mediaInfo created chunks) 0 s.isBufferingCompleted := by
  unfold dischargePreBuffer
  repeat' split
  all_goals first | exact ⟨rfl, rfl, hs⟩ | skip
  refine andThen_emits _ _ _ _ (createBuffer_emits _ mediaInfo created hs) ?_
  intro s1 hc hk
  split
  · exact ⟨rfl, hc, hk⟩
  · exact ⟨dischargeLoop_completions env _ chunks none, hc, hk⟩

theorem onRemoved_emits (cfg : Config) (s : State) (env : Env) (b : Nat)
    (hs : s.seekClearedBufferingCompleted = false) :
    Emits (onRemoved cfg s env b) 0 s.isBufferingCompleted := by
  unfold onRemoved
  repeat' split
  all_goals first | exact ⟨rfl, rfl, hs⟩ | skip
  refine andThen_emits _ _ _ _
    (updateBufferLevel_emits cfg { s with isPruningInProgress := false } env hs) ?_
  intro s1 hc hk
  exact ⟨by simp [completions], hc, hk⟩

theorem checkIfBufferingCompleted_emits (s : State)
    (hs : s.seekClearedBufferingCompleted = false) :
    Emits (checkIfBufferingCompleted s)
      (if s.isBufferingCompleted = false ∧
          (match s.lastIndex with
           | none => false
           | some l => decide (s.maxAppendedIndex ≥ l - 1)) = true then 1 else 0)
      (s.isBufferingCompleted ||
        (match s.lastIndex with
         | none => false
         | some l => decide (s.maxAppendedIndex ≥ l - 1))) := by
  unfold checkIfBufferingCompleted
  simp only
  generalize (match s.lastIndex with
    | none => false
    | some l => decide (s.maxAppendedIndex ≥ l - 1)) = reached
  cases reached <;> cases hc : s.isBufferingCompleted <;>
    simp [Emits, completions, hs, hc]

theorem onAppended_emits (cfg : Config) (s : State) (env : Env) (b : Nat)
    (error : Option Nat) (hs : s.seekClearedBufferingCompleted = false) :
    Emits (onAppended cfg s env b error)
      (if s.isBufferingCompleted = false ∧
          indexReached { s with subscribed := true } (.appendCompleted b error) = true
        then 1 else 0)
      (s.isBufferingCompleted ||
        indexReached { s with subscribed := true } (.appendCompleted b error)) := by
  have htail : ∀ (r1 : Res) (n : Nat) (c : Bool), Emits r1 n c →
      Emits (r1.andThen fun s3 =>
        match error with
        | none => ⟨s3, [], false⟩
        | some code =>
            match s3.buffer with
            | none => ⟨s3, [], true⟩
            | some _ =>
                let s4 :=
                  if code = QUOTA_EXCEEDED_ERROR_CODE then
                    { s3 with criticalBufferLevel := some (getTotalBufferedTime env * 0.8) }
                  else s3
                if code = QUOTA_EXCEEDED_ERROR_CODE ∨ ¬ hasEnoughSpaceToAppend s4 env then
                  (Res.mk s4 [.quotaExceeded s4.criticalBufferLevel] false).andThen fun s5 =>
                    clearBufferOfClearRange s5
                else ⟨s4, [], false⟩) n c := by
    intro r1 n c h
    refine andThen_emits _ _ _ _ h ?_
    intro s3 hc hk
    cases error with
    | none => exact ⟨rfl, hc, hk⟩
    | some code =>
      simp only []
      cases s3.buffer with
      | none => exact ⟨rfl, hc, hk⟩
      | some sink =>
        simp only []
        split_ifs
        all_goals first
          | exact ⟨rfl, hc, hk⟩
          | (refine andThen_emits _ _ _ _ ⟨rfl, hc, hk⟩ ?_
             intro s5 hc5 hk5
             have := clearBufferOfClearRange_emits s5 hk5
             rw [hc5] at this
             exact this)
  have hmid : ∀ (r0 : Res) (n : Nat) (c : Bool), Emits r0 n c →
      Emits ((r0.andThen fun s1 => onPlaybackProgression cfg s1 env).andThen fun s2 =>
        match s2.appendedBytesInfo with
        | some chunk => ⟨s2, [.bytesAppended chunk], false⟩
        | none => ⟨s2, [], false⟩) n c := by
    intro r0 n c h
    refine andThen_emits _ _ _ _ (andThen_emits _ _ _ _ h ?_) ?_
    · intro s1 hc hk
      have := updateBufferLevel_emits cfg s1 env hk
      rw [hc] at this
      exact this
    · intro s2 hc hk
      cases s2.appendedBytesInfo <;> exact ⟨rfl, hc, hk⟩
  unfold onAppended
  apply htail
  cases hb : s.buffer with
  | none => simp [indexReached, hb, Emits, completions, hs]
  | some sink =>
    simp only []
    by_cases hid : sink.id = b
    · simp only [hid, if_true]
      apply hmid
      cases ha : s.appendedBytesInfo with
      | none => simp [indexReached, hb, ha, Emits, completions, hs]
      | some chunk =>
        simp only []
        cases hi : chunk.index with
        | none =>
          cases hl : s.lastIndex <;> simp [indexReached, hb, ha, hi, hl, Emits, completions, hs]
        | some i =>
          simp only []
          have := checkIfBufferingCompleted_emits
            { s with maxAppendedIndex := max i s.maxAppendedIndex } hs
          cases hl : s.lastIndex with
          | none =>
            simp only [hl] at this
            simpa [indexReached, hb, ha, hi, hl] using this
          | some l =>
            simp only [hl] at this
            simpa [indexReached, hb, ha, hi, hl, hid] using this
    · cases ha : s.appendedBytesInfo <;> cases hl : s.lastIndex <;>
        simp [indexReached, hb, ha, hl, hid, Emits, completions, hs]

/-- One event that is neither a seek nor `reset`, arriving while the flag
`seekClearedBufferingCompleted` is unset, emits `BUFFERING_COMPLETED` exactly
when buffering was not completed yet and the event is a check at which the
maximum appended index is at least `lastIndex − 1`; it then sets the
completion flag, which no such event clears. -/
theorem step_emits (cfg : Config) (s : State) (env : Env) (e : Event)
    (hs : s.seekClearedBufferingCompleted = false) (he : e.isSeekOrReset = false) :
    Emits (step cfg s (env, e))
      (if s.isBufferingCompleted = false ∧ indexReached s e = true then 1 else 0)
      (s.isBufferingCompleted || indexReached s e) := by
  unfold step
  by_cases hdel : e.isSignal = true ∧ ¬ s.subscribed = true
  · simp only [hdel, not_false_eq_true, and_self, if_true]
    have hsub : s.subscribed = false := by simpa using hdel.2
    have : indexReached s e = false := by
      cases e <;> simp [indexReached, hsub]
      rename_i own index
      cases index <;> simp [indexReached, hsub]
    simp [this, Emits, completions, hs]
  · simp only [hdel, if_false]
    have quiet : ∀ r : Res, Emits r 0 s.isBufferingCompleted → indexReached s e = false →
        Emits r (if s.isBufferingCompleted = false ∧ indexReached s e = true then 1 else 0)
          (s.isBufferingCompleted || indexReached s e) := by
      intro r hr hi
      simpa [hi] using hr
    cases e with
    | initializeCall source => exact quiet _ ⟨rfl, rfl, hs⟩ rfl
    | createBuffer mediaInfo created => exact quiet _ (createBuffer_emits s mediaInfo created hs) rfl
    | setMediaSource value mediaInfo created chunks =>
      refine quiet _ ?_ rfl
      simp only [handle, setMediaSource]
      split_ifs
      all_goals first
        | exact ⟨rfl, rfl, hs⟩
        | exact dischargePreBuffer_emits { s with mediaSource := value } env mediaInfo created
            chunks hs
    | setSeekStartTime value => exact quiet _ ⟨rfl, rfl, hs⟩ rfl
    | switchInitData a b =>
      refine quiet _ ?_ rfl
      simp only [handle, switchInitData]
      repeat' split
      all_goals first | exact ⟨rfl, rfl, hs⟩ | exact appendToBuffer_emits s _ hs
    | reset errored => simp [Event.isSeekOrReset] at he
    | initFragmentLoaded own chunk =>
      refine quiet _ ?_ rfl
      simp only [handle, onInitFragmentLoaded]
      split_ifs
      all_goals first
        | exact ⟨rfl, rfl, hs⟩
        | (refine andThen_emits _ _ _ _ ⟨rfl, rfl, hs⟩ ?_
           intro s1 hc hk
           have := appendToBuffer_emits s1 chunk hk
           rw [hc] at this
           exact this)
    | mediaFragmentLoaded own chunk =>
      refine quiet _ ?_ rfl
      simp only [handle, onMediaFragmentLoaded]
      split_ifs
      all_goals first | exact ⟨rfl, rfl, hs⟩ | exact appendToBuffer_emits s _ hs
    | qualityChangeRequested => exact quiet _ ⟨rfl, rfl, hs⟩ rfl
    | dataUpdateCompleted => exact quiet _ ⟨rfl, rfl, hs⟩ rfl
    | streamCompleted own index =>
      have hsub : s.subscribed = true := by
        by_contra hc
        exact hdel ⟨rfl, hc⟩
      simp only [handle, onStreamCompleted]
      cases own with
      | false =>
        cases index <;> simp [indexReached, Emits, completions, hs]
      | true =>
        have := checkIfBufferingCompleted_emits { s with lastIndex := index } hs
        cases index with
        | none => simpa [indexReached] using this
        | some l => simpa [indexReached, hsub] using this
    | playbackProgress => exact quiet _ (updateBufferLevel_emits cfg s env hs) rfl
    | playbackTimeUpdated => exact quiet _ (updateBufferLevel_emits cfg s env hs) rfl
    | playbackRateChanged => exact quiet _ (checkIfSufficientBuffer_emits cfg s env hs) rfl
    | playbackSeeking => simp [Event.isSeekOrReset] at he
    | wallclockTimeUpdated =>
      refine quiet _ ?_ rfl
      simp only [handle, onWallclockTimeUpdated]
      split_ifs
      all_goals first
        | exact ⟨rfl, rfl, hs⟩
        | exact pruneBuffer_emits cfg { s with wallclockTicked := 0 } env hs
    | currentTrackChanged isMatch =>
      refine quiet _ ?_ rfl
      simp only [handle, onCurrentTrackChanged]
      repeat' split
      all_goals first | exact ⟨rfl, rfl, hs⟩ | exact clearBufferOfClearRange_emits s hs
    | appendCompleted b error =>
      have hsub : s.subscribed = true := by
        by_contra hc
        exact hdel ⟨rfl, hc⟩
      have := onAppended_emits cfg s env b error hs
      have hsame : indexReached { s with subscribed := true } (.appendCompleted b error)
          = indexReached s (.appendCompleted b error) := by
        simp [indexReached, hsub]
      rw [hsame] at this
      exact this
    | removeCompleted b => exact quiet _ (onRemoved_emits cfg s env b hs) rfl
    | playbackSeeked =>
      refine quiet _ ?_ rfl
      simp only [handle, onSeeked]
      repeat' split
      all_goals first | exact ⟨rfl, rfl, hs⟩ | skip
      refine ⟨?_, rfl, hs⟩
      simp only [completions, List.length_eq_zero, List.filter_eq_nil_iff, List.mem_map,
        List.mem_filter, beq_iff_eq]
      rintro a ⟨x, -, rfl⟩ h
      cases h

end BufferController

namespace BufferController

/-- Over events that are neither a seek nor `reset`, starting with the flag
`seekClearedBufferingCompleted` unset: at most one `BUFFERING_COMPLETED`, none
when buffering was already completed, and the completion flag is set once one
was emitted. -/
theorem run_emits (cfg : Config) (evs : List (Env × Event)) :
    ∀ s : State, s.seekClearedBufferingCompleted = false →
      (∀ x ∈ evs, x.2.isSeekOrReset = false) →
      completions (run cfg s evs).2 ≤ 1 ∧
      (s.isBufferingCompleted = true → completions (run cfg s evs).2 = 0) ∧
      (completions (run cfg s evs).2 = 1 → (run cfg s evs).1.isBufferingCompleted = true) ∧
      (s.isBufferingCompleted = true → (run cfg s evs).1.isBufferingCompleted = true) ∧
      (run cfg s evs).1.seekClearedBufferingCompleted = false := by
  induction evs with
  | nil =>
    intro s hs _
    exact ⟨by simp [run, completions], fun _ => rfl, fun h => by simp [run, completions] at h,
      fun h => h, hs⟩
  | cons x xs ih =>
    intro s hs hev
    obtain ⟨env, e⟩ := x
    obtain ⟨h1, h2, h3⟩ := step_emits cfg s env e hs (hev _ (List.mem_cons_self _ _))
    obtain ⟨i1, i2, i3, i4, i5⟩ := ih (step cfg s (env, e)).st h3
      (fun y hy => hev y (List.mem_cons_of_mem _ hy))
    simp only [run, completions_append, h1]
    by_cases hc : s.isBufferingCompleted = true
    · have hc' : (step cfg s (env, e)).st.isBufferingCompleted = true := by
        rw [h2, hc]; rfl
      have hz := i2 hc'
      refine ⟨?_, ?_, ?_, ?_, i5⟩
      · simp [hc, hz]
      · intro _; simp [hc, hz]
      · intro _; exact i4 hc'
      · intro _; exact i4 hc'
    · have hcf : s.isBufferingCompleted = false := by simpa using hc
      by_cases hr : indexReached s e = true
      · have hc' : (step cfg s (env, e)).st.isBufferingCompleted = true := by
          rw [h2, hr]; simp
        have hz := i2 hc'
        refine ⟨?_, ?_, ?_, ?_, i5⟩
        · simp [hcf, hr, hz]
        · intro h; exact absurd h hc
        · intro _; exact i4 hc'
        · intro h; exact absurd h hc
      · refine ⟨?_, ?_, ?_, ?_, i5⟩
        · simpa [hr] using i1
        · intro h; exact absurd h hc
        · intro h
          apply i3
          simpa [hr] using h
        · intro h; exact absurd h hc

/-- C5 (as stated) fails: after `initialize` and `createBuffer`, a
stream-completed signal with last index 1 emits `BUFFERING_COMPLETED` (the
maximum appended index 0 is at least `1 − 1`), and a following seek at which
the time to the stream end is below the stall threshold emits it a second
time, without any `reset` in between. -/
theorem bufferingCompleted_twice_after_seek :
    ¬ (∀ (cfg : Config) (evs : List (Env × Event)),
        (∀ x ∈ evs, x.2.isReset = false) → completions (run cfg State.init evs).2 ≤ 1) := by
  intro h
  have h1 := h ⟨.video, true⟩
    [(⟨some [], [], some 0, 100, none, false, fun _ _ => none, 30, 50, 10, false, false⟩,
        .initializeCall true),
     (⟨some [], [], some 0, 100, none, false, fun _ _ => none, 30, 50, 10, false, false⟩,
        .createBuffer true (some 1)),
     (⟨some [], [], some 0, 100, none, false, fun _ _ => none, 30, 50, 10, false, false⟩,
        .streamCompleted true (some 1)),
     (⟨some [], [], some 0, 0, none, false, fun _ _ => none, 30, 50, 10, false, false⟩,
        .playbackSeeking)]
    (by simp [Event.isReset])
  revert h1
  norm_num [run, step, Event.isSignal, handle, initializeController, createBuffer, State.init,
    onStreamCompleted, checkIfBufferingCompleted, onPlaybackSeeking, onPlaybackProgression,
    updateBufferLevel, checkIfSufficientBuffer, Res.andThen, getBufferLength, getRangeAt,
    getRangeAtLoop, getWorkingTime, STALL_THRESHOLD, completions, notifyBufferStateChanged]

/-- C5 (amended): over every sequence of controller events for one stream
that holds no seek and no `reset` (append-completed, stream-completed,
playback progress, and every other event), starting with the flag
`seekClearedBufferingCompleted` unset as it is after construction,
`BUFFERING_COMPLETED` is emitted at most once: it is emitted by the first
check (a delivered append-completed event for a chunk with an index, or a
delivered stream-completed event) at which the maximum appended index is at
least `lastIndex − 1`, not before, and never again for later appended-index
updates in any order. -/
theorem bufferingCompleted_once (cfg : Config) (s : State) (evs : List (Env × Event))
    (hs : s.seekClearedBufferingCompleted = false)
    (hev : ∀ x ∈ evs, x.2.isSeekOrReset = false) :
    completions (run cfg s evs).2 ≤ 1 ∧
    (s.isBufferingCompleted = true → completions (run cfg s evs).2 = 0) ∧
    (completions (run cfg s evs).2 = 1 → (run cfg s evs).1.isBufferingCompleted = true) ∧
    (∀ (env : Env) (e : Event), e.isSeekOrReset = false →
      completions (step cfg s (env, e)).out
        = (if s.isBufferingCompleted = false ∧ indexReached s e = true then 1 else 0) ∧
      (step cfg s (env, e)).st.isBufferingCompleted
        = (s.isBufferingCompleted || indexReached s e)) ∧
    (∀ (pre post : List (Env × Event)) (x : Env × Event), evs = pre ++ x :: post →
      (run cfg s pre).1.isBufferingCompleted = false →
      indexReached (run cfg s pre).1 x.2 = true →
      completions (run cfg s pre).2 = 0 ∧
      completions (step cfg (run cfg s pre).1 x).out = 1 ∧
      completions (run cfg (step cfg (run cfg s pre).1 x).st post).2 = 0) := by
  obtain ⟨a1, a2, a3, -, -⟩ := run_emits cfg evs s hs hev
  refine ⟨a1, a2, a3, ?_, ?_⟩
  · intro env e he
    obtain ⟨h1, h2, -⟩ := step_emits cfg s env e hs he
    exact ⟨h1, h2⟩
  · intro pre post x hsplit hnc hreach
    have hpre : ∀ y ∈ pre, y.2.isSeekOrReset = false := fun y hy =>
      hev y (by rw [hsplit]; exact List.mem_append_left _ hy)
    have hx : x.2.isSeekOrReset = false :=
      hev x (by rw [hsplit]; exact List.mem_append_right _ (List.mem_cons_self _ _))
    have hpost : ∀ y ∈ post, y.2.isSeekOrReset = false := fun y hy =>
      hev y (by rw [hsplit]; exact List.mem_append_right _ (List.mem_cons_of_mem _ hy))
    obtain ⟨b1, -, b3, -, b5⟩ := run_emits cfg pre s hs hpre
    obtain ⟨env, e⟩ := x
    obtain ⟨c1, c2, c3⟩ := step_emits cfg (run cfg s pre).1 env e b5 hx
    have hzero : completions (run cfg s pre).2 = 0 := by
      by_contra hne
      have : completions (run cfg s pre).2 = 1 := by omega
      rw [b3 this] at hnc
      cases hnc
    refine ⟨hzero, ?_, ?_⟩
    · rw [c1]
      simp [hnc, hreach]
    · have hdone : (step cfg (run cfg s pre).1 (env, e)).st.isBufferingCompleted = true := by
        rw [c2]
        simp only [] at hreach
        simp [hreach]
      exact (run_emits cfg post _ c3 hpost).2.1 hdone

/-- The amended C5 for two stream-completed signals in a row: one emission at most. -/
theorem bufferingCompleted_once_witness :
    completions (run ⟨.video, true⟩ State.init
      [(⟨some [], [], some 0, 100, none, false, fun _ _ => none, 30, 50, 10, false, false⟩,
          .initializeCall true),
       (⟨some [], [], some 0, 100, none, false, fun _ _ => none, 30, 50, 10, false, false⟩,
          .streamCompleted true (some 1)),
       (⟨some [], [], some 0, 100, none, false, fun _ _ => none, 30, 50, 10, false, false⟩,
          .streamCompleted true (some 1))]).2 ≤ 1 :=
  (bufferingCompleted_once ⟨.video, true⟩ State.init
    [(⟨some [], [], some 0, 100, none, false, fun _ _ => none, 30, 50, 10, false, false⟩,
        .initializeCall true),
     (⟨some [], [], some 0, 100, none, false, fun _ _ => none, 30, 50, 10, false, false⟩,
        .streamCompleted true (some 1)),
     (⟨some [], [], some 0, 100, none, false, fun _ _ => none, 30, 50, 10, false, false⟩,
        .streamCompleted true (some 1))]
    rfl (by simp [Event.isSeekOrReset])).1

end BufferController

/-! ## Theorems: PlaybackController -/

namespace PlaybackController

/-- The sigmoid `(1 − cpr) + 2·cpr / (1 + pow (−d))` stays within
`[1 − cpr, 1 + cpr]` when `cpr ≥ 0` and `pow` is never negative. -/
theorem sigmoid_bounds (pow : ℚ → ℚ) (hpow : ∀ x, 0 ≤ pow x) (cpr : ℚ) (hcpr : 0 ≤ cpr)
    (d : Num) (v : ℚ)
    (h : ((Num.num 1).sub (.num cpr)).add
        (((Num.num cpr).mul (.num 2)).div ((Num.num 1).add (Num.exp pow d.neg))) = .num v) :
    1 - cpr ≤ v ∧ v ≤ 1 + cpr := by
  cases d with
  | nan => simp [Num.neg, Num.exp, Num.add, Num.div, Num.sub, Num.mul] at h
  | num x =>
    simp only [Num.neg, Num.exp, Num.add, Num.div, Num.sub, Num.mul, Num.num.injEq] at h
    have he := hpow (-x)
    have hden : (0 : ℚ) < 1 + pow (-x) := by linarith
    have h0 : 0 ≤ cpr * 2 / (1 + pow (-x)) := div_nonneg (by linarith) (le_of_lt hden)
    have h1 : cpr * 2 / (1 + pow (-x)) ≤ cpr * 2 :=
      div_le_self (by linarith) (by linarith)
    constructor <;> linarith

/-- C6: for every configured catch-up rate offset `cpr ≥ 0` and every
latency, target delay, buffer level and current rate (numbers or `NaN`), the
new playback rate computed by either policy, when one is returned, lies
within `[1 − cpr, 1 + cpr]`.  `pow` stands for `Math.pow(Math.E, ·)`, of which
only `pow x ≥ 0` is used. -/
theorem catchup_rate_within_bounds (pow : ℚ → ℚ) (hpow : ∀ x, 0 ≤ pow x) (cpr : ℚ)
    (hcpr : 0 ≤ cpr) (playbackStalled : Bool)
    (minPlaybackRateChange currentLiveLatency liveDelay minDrift playbackBufferMin bufferLevel
      currentPlaybackRate : Num) (r : ℚ) :
    ((_calculateNewPlaybackRateDefault pow playbackStalled minPlaybackRateChange (.num cpr)
        currentLiveLatency liveDelay bufferLevel currentPlaybackRate).newRate = some (.num r) →
      1 - cpr ≤ r ∧ r ≤ 1 + cpr) ∧
    ((_calculateNewPlaybackRateLolP pow playbackStalled minPlaybackRateChange (.num cpr)
        currentLiveLatency liveDelay minDrift playbackBufferMin bufferLevel
        currentPlaybackRate).newRate = some (.num r) →
      1 - cpr ≤ r ∧ r ≤ 1 + cpr) := by
  have hone : 1 - cpr ≤ (1 : ℚ) ∧ (1 : ℚ) ≤ 1 + cpr := ⟨by linarith, by linarith⟩
  constructor
  · intro h
    unfold _calculateNewPlaybackRateDefault at h
    simp only [] at h
    split_ifs at h
    all_goals first
      | exact sigmoid_bounds pow hpow cpr hcpr _ r (Option.some.inj h)
      | (have h1 : (1 : ℚ) = r := Num.num.inj (Option.some.inj h)
         rw [← h1]
         exact hone)
  · intro h
    unfold _calculateNewPlaybackRateLolP at h
    simp only [] at h
    split_ifs at h
    all_goals first
      | exact sigmoid_bounds pow hpow cpr hcpr _ r (Option.some.inj h)
      | (have h1 : (1 : ℚ) = r := Num.num.inj (Option.some.inj h)
         rw [← h1]
         exact hone)

/-- C6 for the default policy at `cpr = 0.5` with a constant `pow`: the returned rate 1 is within `[0.5, 1.5]`. -/
theorem catchup_rate_within_bounds_witness :
    (_calculateNewPlaybackRateDefault (fun _ => 1) false (.num 0.02) (.num 0.5)
        (.num 5) (.num 3) (.num 4) (.num 1.5)).newRate = some (.num (1 : ℚ)) ∧
      1 - (0.5 : ℚ) ≤ 1 ∧ (1 : ℚ) ≤ 1 + 0.5 :=
  have h : (_calculateNewPlaybackRateDefault (fun _ => 1) false (.num 0.02) (.num 0.5)
        (.num 5) (.num 3) (.num 4) (.num 1.5)).newRate = some (.num (1 : ℚ)) := by
    norm_num [_calculateNewPlaybackRateDefault, Num.sub, Num.mul, Num.div, Num.add, Num.exp,
      Num.neg, Num.abs, Num.le, abs_of_pos]
  ⟨h, (catchup_rate_within_bounds (fun _ => 1) (fun _ => by norm_num) 0.5 (by norm_num) false
    (.num 0.02) (.num 5) (.num 3) (.num 0.5) (.num 2) (.num 4) (.num 1.5) 1).1 h⟩

/-- While the handlers are registered, the video model is set. -/
theorem subscribed_videoModel (pow : ℚ → ℚ) (evs : List (Env × Event)) :
    ∀ s : State, (s.subscribed = true → s.videoModel = true) →
      ((run pow s evs).1.subscribed = true → (run pow s evs).1.videoModel = true) := by
  induction evs with
  | nil => intro s h; exact h
  | cons x xs ih =>
    intro s h
    simp only [run]
    refine ih _ ?_
    obtain ⟨env, e⟩ := x
    unfold step
    split_ifs with hdel
    · exact h
    · cases e with
      | setConfig v =>
        simp only [setConfig]
        split_ifs
        · intro _; rfl
        · exact h
      | initializeCall dynamic safari =>
        by_cases hv : s.videoModel = true
        · simp [initializeController, hv]
        · have hv' : s.videoModel = false := by simpa using hv
          simp only [initializeController, hv', Bool.false_eq_true, not_false_eq_true, if_true]
          intro hsub
          exact absurd (h hsub) hv
      | reset =>
        by_cases hv : s.videoModel = true
        · simp [reset, hv]
        · have hv' : s.videoModel = false := by simpa using hv
          simp only [reset, hv', Bool.false_eq_true, if_false]
          intro hsub
          exact absurd (h hsub) hv
      | setLiveDelay value useMaxValue =>
        simp only [setLiveDelay]
        split_ifs <;> exact h
      | availabilityStartTime value => exact h
      | seekCall time stick internal =>
        simp only [seek]
        split_ifs <;> exact h
      | videoSeeking => exact h
      | playbackProgress =>
        have hsub : s.subscribed = true := by
          by_contra hc
          exact hdel ⟨rfl, hc⟩
        intro _
        have hv := h hsub
        simp only [onPlaybackProgression, startPlaybackCatchUp, stopPlaybackCatchUp, seekToLive,
          seek]
        repeat' split
        all_goals exact hv
      | playbackTimeUpdated =>
        have hsub : s.subscribed = true := by
          by_contra hc
          exact hdel ⟨rfl, hc⟩
        intro _
        have hv := h hsub
        simp only [onPlaybackProgression, startPlaybackCatchUp, stopPlaybackCatchUp, seekToLive,
          seek]
        repeat' split
        all_goals exact hv
      | bufferLevelStateChanged sameStream bufferEmpty =>
        have hsub : s.subscribed = true := by
          by_contra hc
          exact hdel ⟨rfl, hc⟩
        intro _
        have hv := h hsub
        simp only [onBufferLevelStateChanged, stopPlaybackCatchUp]
        repeat' split
        all_goals exact hv

/-- C7: in every reachable state in which the handlers are registered, for a
dynamic stream with catch-up enabled, a positive catch-up rate, not paused and
not seeking, a playback-progress event at which
`|currentLatency − liveDelay| ≤ minDrift` (and, under the buffer-aware policy,
the buffer level is not below `playbackBufferMin`) sets the playback rate to
exactly `1.0` and does nothing else. -/
theorem progress_within_minDrift_sets_rate_one (pow : ℚ → ℚ) (evs : List (Env × Event))
    (env : Env) (latency delay minDrift : ℚ)
    (hsub : (run pow State.init evs).1.subscribed = true)
    (hdyn : (run pow State.init evs).1.isDynamic = some true)
    (hen : _isCatchupEnabled env = true)
    (hrate : env.settings.playbackRate.gt (.num 0) = true)
    (hpaused : env.isPaused = false) (hseeking : env.isSeeking = false)
    (hlat : getCurrentLiveLatency (run pow State.init evs).1 env = .num latency)
    (hdelay : env.liveDelay = .num delay)
    (hmin : env.settings.minDrift = .num minDrift)
    (hdrift : |latency - delay| ≤ minDrift)
    (hbuf : catchupModeIsLoLP env = true →
      (getBufferLevel env).lt (playbackBufferMin env) = false) :
    step pow (run pow State.init evs).1 (env, .playbackProgress)
      = ⟨(run pow State.init evs).1, [.setPlaybackRate (.num 1)]⟩ := by
  have hv := subscribed_videoModel pow evs State.init (by simp [State.init]) hsub
  have hneed : _needToCatchUp (run pow State.init evs).1 env = false := by
    unfold _needToCatchUp
    split_ifs with h1 h2
    · have hb := hbuf h2
      simp [_lolpNeedToCatchUpCustom, hlat, hdelay, hmin, Num.sub, Num.abs, Num.gt, hb,
        not_lt.mpr hdrift]
    · simp [_defaultNeedToCatchUp, hlat, hdelay, hmin, Num.sub, Num.abs, Num.gt,
        not_lt.mpr hdrift]
    · rfl
  simp [step, Event.isSignal, hsub, onPlaybackProgression, hdyn, hen, hrate, isPaused,
    isSeeking, hpaused, hseeking, hneed, stopPlaybackCatchUp, hv]

/-- C7 for a dynamic stream at latency 3.01 against a live delay of 3 and a minimum drift of 0.05. -/
theorem progress_within_minDrift_sets_rate_one_witness :
    step (fun _ => 1)
      (run (fun _ => 1) State.init
        [(⟨⟨false, true, .num 0.5, .num 0.05, .num 0, none, false⟩, .num 3, .nan, false, false,
            .num 10, .num 1, [4], 13010, 0, none⟩, .setConfig true),
         (⟨⟨false, true, .num 0.5, .num 0.05, .num 0, none, false⟩, .num 3, .nan, false, false,
            .num 10, .num 1, [4], 13010, 0, none⟩, .initializeCall true false)]).1
      (⟨⟨false, true, .num 0.5, .num 0.05, .num 0, none, false⟩, .num 3, .nan, false, false,
          .num 10, .num 1, [4], 13010, 0, none⟩, .playbackProgress)
    = ⟨(run (fun _ => 1) State.init
        [(⟨⟨false, true, .num 0.5, .num 0.05, .num 0, none, false⟩, .num 3, .nan, false, false,
            .num 10, .num 1, [4], 13010, 0, none⟩, .setConfig true),
         (⟨⟨false, true, .num 0.5, .num 0.05, .num 0, none, false⟩, .num 3, .nan, false, false,
            .num 10, .num 1, [4], 13010, 0, none⟩, .initializeCall true false)]).1,
       [.setPlaybackRate (.num 1)]⟩ :=
  progress_within_minDrift_sets_rate_one (fun _ => 1)
    [(⟨⟨false, true, .num 0.5, .num 0.05, .num 0, none, false⟩, .num 3, .nan, false, false,
        .num 10, .num 1, [4], 13010, 0, none⟩, .setConfig true),
     (⟨⟨false, true, .num 0.5, .num 0.05, .num 0, none, false⟩, .num 3, .nan, false, false,
        .num 10, .num 1, [4], 13010, 0, none⟩, .initializeCall true false)]
    ⟨⟨false, true, .num 0.5, .num 0.05, .num 0, none, false⟩, .num 3, .nan, false, false,
      .num 10, .num 1, [4], 13010, 0, none⟩
    3.01 3 0.05
    (by simp [run, step, Event.isSignal, setConfig, initializeController, State.init])
    (by simp [run, step, Event.isSignal, setConfig, initializeController, State.init])
    (by simp [_isCatchupEnabled])
    (by norm_num [Num.gt])
    rfl rfl
    (by norm_num [run, step, Event.isSignal, setConfig, initializeController, State.init,
      getCurrentLiveLatency, getNormalizedTime, getTime, getTimeIsNull, Num.isNaN, Num.div,
      Num.gt, Num.sub, toFixed3])
    rfl rfl
    (by norm_num [abs_of_pos])
    (by simp [catchupModeIsLoLP])

end PlaybackController

/-! ## Theorems: HTTPLoader, the queues -/

namespace HTTPLoader

/-- Removing the entry that `find?` returns lowers a filtered count by what
that entry contributes. -/
theorem filter_eraseP_of_find? {α : Type} (p q : α → Bool) (l : List α) (x : α)
    (h : l.find? p = some x) :
    ((l.eraseP p).filter q).length + (if q x then 1 else 0) = (l.filter q).length := by
  induction l with
  | nil => simp at h
  | cons a as ih =>
    by_cases hp : p a = true
    · simp only [List.find?, hp] at h
      have hax : a = x := Option.some.inj h
      subst hax
      simp only [List.eraseP, hp, cond_true, List.filter_cons]
      by_cases hq : q a = true
      · simp [hq]
      · simp [hq]
    · have hp' : p a = false := by simpa using hp
      simp only [List.find?, hp'] at h
      have := ih h
      simp only [List.eraseP, hp', cond_false, List.filter_cons]
      by_cases hq : q a = true
      · simp only [hq, if_true, List.length_cons]
        omega
      · simp only [hq]
        exact this

theorem queueEntries_scheduleRetry (cfg : Cfg) (s : State) (config c : LoadConfig) (n : Nat)
    (request : Request) :
    queueEntries c (scheduleRetry cfg s config n request).1
      = queueEntries c s + (if config == c then 1 else 0) := by
  by_cases hc : (config == c) = true
  · simp [queueEntries, inFlightOf, delayedOf, retryingOf, scheduleRetry, List.filter_append, hc]
    omega
  · simp [queueEntries, inFlightOf, delayedOf, retryingOf, scheduleRetry, List.filter_append, hc]

theorem queueEntries_internalLoad (cfg : Cfg) (s : State) (config c : LoadConfig) (n : Nat)
    (now : ℚ) (outcome : LoadOutcome) :
    queueEntries c (internalLoad cfg s config n now outcome).1
      ≤ queueEntries c s + (if config == c then 1 else 0) := by
  generalize hk : (if config == c then 1 else 0) = k
  unfold internalLoad
  cases hreq : config.request with
  | none => exact Nat.le_add_right _ _
  | some request =>
    simp only []
    split_ifs with h1 h2
    · subst hk
      by_cases hc : (config == c) = true
      · simp [queueEntries, inFlightOf, delayedOf, retryingOf, List.filter_append, hc]
        omega
      · simp [queueEntries, inFlightOf, delayedOf, retryingOf, List.filter_append, hc]
    · subst hk
      by_cases hc : (config == c) = true
      · simp [queueEntries, inFlightOf, delayedOf, retryingOf, List.filter_append, hc]
        omega
      · simp [queueEntries, inFlightOf, delayedOf, retryingOf, List.filter_append, hc]
    · exact Nat.le_add_right _ _


theorem queueEntries_onloadend (cfg : Cfg) (s : State) (id : Nat) (response : Option Response)
    (c : LoadConfig) :
    queueEntries c (onloadend cfg s id response).1 ≤ queueEntries c s := by
  unfold onloadend
  cases hf : s.requests.find? (fun x => x.id == id) with
  | none => exact le_refl _
  | some httpRequest =>
    have herase := filter_eraseP_of_find? (fun x => x.id == id) (fun x => x.config == c)
      s.requests httpRequest hf
    have h1 : queueEntries c { s with requests := s.requests.eraseP (fun x => x.id == id) }
        + (if httpRequest.config == c then 1 else 0) = queueEntries c s := by
      simp only [queueEntries, inFlightOf, delayedOf, retryingOf]
      simp only [] at herase
      omega
    have hle : queueEntries c { s with requests := s.requests.eraseP (fun x => x.id == id) }
        ≤ queueEntries c s := by omega
    simp only []
    cases response with
    | none =>
      cases hcr : httpRequest.config.request <;> exact hle
    | some resp =>
      cases hcr : httpRequest.config.request with
      | none => exact hle
      | some request =>
        simp only []
        split_ifs
        all_goals first
          | exact hle
          | (rw [queueEntries_scheduleRetry]
             omega)

theorem queueEntries_retryTimerFired (cfg : Cfg) (s : State) (id : Nat) (now : ℚ)
    (outcome : LoadOutcome) (c : LoadConfig) :
    queueEntries c (retryTimerFired cfg s id now outcome).1 ≤ queueEntries c s := by
  unfold retryTimerFired
  cases hf : s.retryRequests.find? (fun x => x.id == id) with
  | none => exact le_refl _
  | some retryRequest =>
    have herase := filter_eraseP_of_find? (fun x => x.id == id) (fun x => x.config == c)
      s.retryRequests retryRequest hf
    have h1 : queueEntries c
        { s with retryRequests := s.retryRequests.eraseP (fun x => x.id == id) }
        + (if retryRequest.config == c then 1 else 0) = queueEntries c s := by
      simp only [queueEntries, inFlightOf, delayedOf, retryingOf]
      simp only [] at herase
      omega
    have h2 := queueEntries_internalLoad cfg
      { s with retryRequests := s.retryRequests.eraseP (fun x => x.id == id) }
      retryRequest.config c retryRequest.remainingAttempts now outcome
    simp only []
    omega

theorem queueEntries_delayTimerFired (cfg : Cfg) (s : State) (id : Nat)
    (outcome : LoadOutcome) (c : LoadConfig) :
    queueEntries c (delayTimerFired cfg s id outcome).1 ≤ queueEntries c s := by
  unfold delayTimerFired
  cases hf : s.delayedRequests.find? (fun x => x.id == id) with
  | none => exact le_refl _
  | some delayedRequest =>
    have herase := filter_eraseP_of_find? (fun x => x.id == id)
      (fun x => x.httpRequest.config == c) s.delayedRequests delayedRequest hf
    have h1 : queueEntries c
        { s with delayedRequests := s.delayedRequests.eraseP (fun x => x.id == id),
                 requests := s.requests ++ [delayedRequest.httpRequest] }
        = queueEntries c s := by
      simp only [queueEntries, inFlightOf, delayedOf, retryingOf, List.filter_append,
        List.length_append, List.filter_cons, List.filter_nil]
      simp only [] at herase
      by_cases hc : (delayedRequest.httpRequest.config == c) = true
      · simp [hc] at herase ⊢
        omega
      · simp [hc] at herase ⊢
        omega
    simp only []
    cases outcome with
    | started => exact le_of_eq h1
    | threw response =>
      have h2 := queueEntries_onloadend cfg
        { s with delayedRequests := s.delayedRequests.eraseP (fun x => x.id == id),
                 requests := s.requests ++ [delayedRequest.httpRequest] }
        delayedRequest.httpRequest.id response c
      simp only []
      omega

end HTTPLoader

namespace HTTPLoader

theorem queueEntries_step (cfg : Cfg) (s : State) (e : Event) (c : LoadConfig) :
    queueEntries c (step cfg s e).1 ≤ queueEntries c s + loadCalls c [e] := by
  cases e with
  | load config now outcome =>
    simp only [step, load, loadCalls, List.filter_cons, List.filter_nil]
    cases hreq : config.request with
    | none => exact Nat.le_add_right _ _
    | some request =>
      have h := queueEntries_internalLoad cfg s config c (cfg.retryAttempts request.type_) now
        outcome
      by_cases hc : (config == c) = true
      · simpa [hc] using h
      · simpa [hc] using h
  | abort => simp [step, abort, queueEntries, inFlightOf, delayedOf, retryingOf]
  | retryTimer id now outcome =>
    exact le_trans (queueEntries_retryTimerFired cfg s id now outcome c) (Nat.le_add_right _ _)
  | delayTimer id outcome =>
    exact le_trans (queueEntries_delayTimerFired cfg s id outcome c) (Nat.le_add_right _ _)
  | loadEnd id response =>
    exact le_trans (queueEntries_onloadend cfg s id response c) (Nat.le_add_right _ _)

theorem loadCalls_cons (c : LoadConfig) (e : Event) (es : List Event) :
    loadCalls c (e :: es) = loadCalls c [e] + loadCalls c es := by
  simp only [loadCalls, List.filter_cons, List.filter_nil]
  split_ifs
  · simp
    omega
  · simp

/-- The entries a config has in the queues never outnumber the calls of
`load` made with it. -/
theorem queueEntries_run (cfg : Cfg) (evs : List Event) (s : State) (c : LoadConfig) :
    queueEntries c (run cfg s evs).1 ≤ queueEntries c s + loadCalls c evs := by
  induction evs generalizing s with
  | nil => simp [run, loadCalls]
  | cons e es ih =>
    have h1 := queueEntries_step cfg s e c
    have h2 := ih (step cfg s e).1
    rw [loadCalls_cons]
    simp only [run]
    omega

theorem inFlightOf_pos (c : LoadConfig) (s : State) (h : ∃ x ∈ s.requests, x.config = c) :
    0 < inFlightOf c s := by
  obtain ⟨x, hx, hc⟩ := h
  exact List.length_pos_of_mem (List.mem_filter.mpr ⟨hx, by simp [hc]⟩)

theorem delayedOf_pos (c : LoadConfig) (s : State)
    (h : ∃ x ∈ s.delayedRequests, x.httpRequest.config = c) : 0 < delayedOf c s := by
  obtain ⟨x, hx, hc⟩ := h
  exact List.length_pos_of_mem (List.mem_filter.mpr ⟨hx, by simp [hc]⟩)

theorem retryingOf_pos (c : LoadConfig) (s : State) (h : ∃ x ∈ s.retryRequests, x.config = c) :
    0 < retryingOf c s := by
  obtain ⟨x, hx, hc⟩ := h
  exact List.length_pos_of_mem (List.mem_filter.mpr ⟨hx, by simp [hc]⟩)

end HTTPLoader

namespace HTTPLoader

theorem filter_length_zero {α : Type} (q : α → Bool) (l : List α) (h : ∀ x ∈ l, q x = false) :
    (l.filter q).length = 0 := by
  rw [List.length_eq_zero, List.filter_eq_nil_iff]
  intro x hx
  simp [h x hx]

theorem filter_eraseP_le {α : Type} (p q : α → Bool) (l : List α) :
    ((l.eraseP p).filter q).length ≤ (l.filter q).length :=
  List.Sublist.length_le (List.Sublist.filter q (List.eraseP_sublist l))

/-- An identity that the supply has not yet handed out stands nowhere. -/
theorem idEntries_fresh (s : State) (h : s.Inv 0) (a : Nat) (ha : s.nextId ≤ a) :
    idEntries a s = 0 := by
  obtain ⟨-, hR, hD, hT⟩ := h
  have h1 := filter_length_zero (fun x : HttpRequest => x.id == a) s.requests (by
    intro x hx
    have := (hR x hx).2
    simp only [beq_eq_false_iff_ne, ne_eq]
    omega)
  have h2 := filter_length_zero (fun x : DelayedRequest => x.id == a) s.delayedRequests (by
    intro x hx
    have := (hD x hx).1.2
    simp only [beq_eq_false_iff_ne, ne_eq]
    omega)
  have h3 := filter_length_zero (fun x : DelayedRequest => x.httpRequest.id == a)
    s.delayedRequests (by
    intro x hx
    have := (hD x hx).2.2
    simp only [beq_eq_false_iff_ne, ne_eq]
    omega)
  have h4 := filter_length_zero (fun x : RetryRequest => x.id == a) s.retryRequests (by
    intro x hx
    have := (hT x hx).2
    simp only [beq_eq_false_iff_ne, ne_eq]
    omega)
  simp only [idEntries, h1, h2, h3, h4]

theorem idEntries_scheduleRetry (cfg : Cfg) (s : State) (config : LoadConfig) (n : Nat)
    (request : Request) (a : Nat) :
    idEntries a (scheduleRetry cfg s config n request).1
      ≤ idEntries a s + (if s.nextId ≤ a then 1 else 0) := by
  by_cases hc : s.nextId = a
  · simp [idEntries, scheduleRetry, List.filter_append, hc]
    omega
  · have : ¬ (s.nextId == a) = true := by simpa using hc
    simp [idEntries, scheduleRetry, List.filter_append, hc]

theorem idEntries_internalLoad (cfg : Cfg) (s : State) (config : LoadConfig) (n : Nat)
    (now : ℚ) (outcome : LoadOutcome) (a : Nat) :
    idEntries a (internalLoad cfg s config n now outcome).1
      ≤ idEntries a s + (if s.nextId ≤ a then 1 else 0) := by
  generalize hk : (if s.nextId ≤ a then 1 else 0) = k
  unfold internalLoad
  cases hreq : config.request with
  | none => exact Nat.le_add_right _ _
  | some request =>
    simp only []
    split_ifs with h1 h2
    · subst hk
      by_cases hc : s.nextId = a
      · simp [idEntries, List.filter_append, hc]
        omega
      · simp [idEntries, List.filter_append, hc]
    · subst hk
      by_cases hc : s.nextId = a
      · simp [idEntries, List.filter_append, hc]
        omega
      · by_cases hc2 : s.nextId + 1 = a
        · have : s.nextId ≤ a := by omega
          simp [idEntries, List.filter_append, hc, hc2, this]
          omega
        · simp [idEntries, List.filter_append, hc, hc2]
    · exact Nat.le_add_right _ _

end HTTPLoader

namespace HTTPLoader

theorem idEntries_onloadend (cfg : Cfg) (s : State) (id : Nat) (response : Option Response)
    (a : Nat) :
    idEntries a (onloadend cfg s id response).1
      ≤ idEntries a s + (if s.nextId ≤ a then 1 else 0) := by
  unfold onloadend
  cases hf : s.requests.find? (fun x => x.id == id) with
  | none => exact Nat.le_add_right _ _
  | some httpRequest =>
    have herase := filter_eraseP_le (fun x : HttpRequest => x.id == id) (fun x => x.id == a)
      s.requests
    have hle : idEntries a { s with requests := s.requests.eraseP (fun x => x.id == id) }
        ≤ idEntries a s := by
      simp only [idEntries]
      omega
    have hsched := fun (n : Nat) (request : Request) => idEntries_scheduleRetry cfg
      { s with requests := s.requests.eraseP (fun x => x.id == id) } httpRequest.config n
      request a
    simp only [] at hsched
    generalize (if s.nextId ≤ a then 1 else 0) = k at hsched ⊢
    simp only []
    cases response with
    | none =>
      cases hcr : httpRequest.config.request <;> exact le_trans hle (Nat.le_add_right _ _)
    | some resp =>
      cases hcr : httpRequest.config.request with
      | none => exact le_trans hle (Nat.le_add_right _ _)
      | some request =>
        simp only []
        split_ifs
        all_goals first
          | exact le_trans hle (Nat.le_add_right _ _)
          | exact le_trans (hsched _ request) (Nat.add_le_add_right hle _)

theorem idEntries_retryTimerFired (cfg : Cfg) (s : State) (id : Nat) (now : ℚ)
    (outcome : LoadOutcome) (a : Nat) :
    idEntries a (retryTimerFired cfg s id now outcome).1
      ≤ idEntries a s + (if s.nextId ≤ a then 1 else 0) := by
  unfold retryTimerFired
  cases hf : s.retryRequests.find? (fun x => x.id == id) with
  | none => exact Nat.le_add_right _ _
  | some retryRequest =>
    have herase := filter_eraseP_le (fun x : RetryRequest => x.id == id) (fun x => x.id == a)
      s.retryRequests
    have hle : idEntries a
        { s with retryRequests := s.retryRequests.eraseP (fun x => x.id == id) }
        ≤ idEntries a s := by
      simp only [idEntries]
      omega
    have h2 := idEntries_internalLoad cfg
      { s with retryRequests := s.retryRequests.eraseP (fun x => x.id == id) }
      retryRequest.config retryRequest.remainingAttempts now outcome a
    simp only [] at h2
    simp only []
    exact le_trans h2 (Nat.add_le_add_right hle _)

theorem idEntries_delayTimerFired (cfg : Cfg) (s : State) (id : Nat)
    (outcome : LoadOutcome) (a : Nat) :
    idEntries a (delayTimerFired cfg s id outcome).1
      ≤ idEntries a s + (if s.nextId ≤ a then 1 else 0) := by
  unfold delayTimerFired
  cases hf : s.delayedRequests.find? (fun x => x.id == id) with
  | none => exact Nat.le_add_right _ _
  | some delayedRequest =>
    have h1 := filter_eraseP_le (fun x : DelayedRequest => x.id == id) (fun x => x.id == a)
      s.delayedRequests
    have h2 := filter_eraseP_of_find? (fun x : DelayedRequest => x.id == id)
      (fun x => x.httpRequest.id == a) s.delayedRequests delayedRequest hf
    have hle : idEntries a
        { s with delayedRequests := s.delayedRequests.eraseP (fun x => x.id == id),
                 requests := s.requests ++ [delayedRequest.httpRequest] }
        ≤ idEntries a s := by
      simp only [idEntries, List.filter_append, List.length_append]
      simp only [] at h2
      by_cases hc : (delayedRequest.httpRequest.id == a) = true
      · simp [hc] at h2 ⊢
        omega
      · simp [hc] at h2 ⊢
        omega
    simp only []
    cases outcome with
    | started => exact le_trans hle (Nat.le_add_right _ _)
    | threw response =>
      have h3 := idEntries_onloadend cfg
        { s with delayedRequests := s.delayedRequests.eraseP (fun x => x.id == id),
                 requests := s.requests ++ [delayedRequest.httpRequest] }
        delayedRequest.httpRequest.id response a
      simp only [] at h3
      simp only []
      exact le_trans h3 (Nat.add_le_add_right hle _)

theorem idEntries_step (cfg : Cfg) (s : State) (e : Event) (a : Nat) :
    idEntries a (step cfg s e).1 ≤ idEntries a s + (if s.nextId ≤ a then 1 else 0) := by
  cases e with
  | load config now outcome =>
    simp only [step, load]
    cases hreq : config.request with
    | none => exact Nat.le_add_right _ _
    | some request => exact idEntries_internalLoad cfg s config _ now outcome a
  | abort => simp [step, abort, idEntries]
  | retryTimer id now outcome => exact idEntries_retryTimerFired cfg s id now outcome a
  | delayTimer id outcome => exact idEntries_delayTimerFired cfg s id outcome a
  | loadEnd id response => exact idEntries_onloadend cfg s id response a

/-- No identity stands at two places of the queues, in any state reached from
one of which this is true. -/
theorem idEntries_run (cfg : Cfg) (evs : List Event) (s : State) (hInv : s.Inv 0)
    (h : ∀ a, idEntries a s ≤ 1) : ∀ a, idEntries a (run cfg s evs).1 ≤ 1 := by
  induction evs generalizing s with
  | nil => exact h
  | cons e es ih =>
    simp only [run]
    refine ih (step cfg s e).1 (inv_step cfg 0 s e hInv) ?_
    intro a
    have h1 := idEntries_step cfg s e a
    by_cases ha : s.nextId ≤ a
    · have h0 := idEntries_fresh s hInv a ha
      simp only [ha, if_true] at h1
      omega
    · have := h a
      simp only [ha, if_false] at h1
      omega

theorem count_map_eq_filter {α : Type} (f : α → Nat) (a : Nat) (l : List α) :
    (l.map f).count a = (l.filter fun x => f x == a).length := by
  induction l with
  | nil => rfl
  | cons x xs ih =>
    simp only [List.map_cons, List.count_cons, List.filter_cons, ih]
    split_ifs <;> simp

theorem count_outstanding (a : Nat) (s : State) : s.outstanding.count a = idEntries a s := by
  simp only [State.outstanding, List.count_append, count_map_eq_filter, idEntries]

end HTTPLoader

namespace HTTPLoader

/-- C11: in every state reachable through `load`, timer firings, transport
completions and `abort`, the entries that a request (the object `config`
handed to `load`) has in the in-flight set, the delay queue and the retry queue
together never outnumber the calls of `load` made with it.  A request handed
to `load` once therefore has at most one entry, and is in at most one of the
three queues.  Besides, no object created by the loader stands at two places
of the queues. -/
theorem request_in_at_most_one_queue (cfg : Cfg) (evs : List Event) (config : LoadConfig)
    (hload : loadCalls config evs ≤ 1) :
    queueEntries config (run cfg State.init evs).1 ≤ loadCalls config evs ∧
    inFlightOf config (run cfg State.init evs).1 + delayedOf config (run cfg State.init evs).1
      + retryingOf config (run cfg State.init evs).1 ≤ 1 ∧
    ¬ ((∃ x ∈ (run cfg State.init evs).1.requests, x.config = config) ∧
        (∃ x ∈ (run cfg State.init evs).1.delayedRequests, x.httpRequest.config = config)) ∧
    ¬ ((∃ x ∈ (run cfg State.init evs).1.requests, x.config = config) ∧
        (∃ x ∈ (run cfg State.init evs).1.retryRequests, x.config = config)) ∧
    ¬ ((∃ x ∈ (run cfg State.init evs).1.delayedRequests, x.httpRequest.config = config) ∧
        (∃ x ∈ (run cfg State.init evs).1.retryRequests, x.config = config)) ∧
    (run cfg State.init evs).1.outstanding.Nodup := by
  have h := queueEntries_run cfg evs State.init config
  have h0 : queueEntries config State.init = 0 := by
    simp [queueEntries, inFlightOf, delayedOf, retryingOf, State.init]
  rw [h0, Nat.zero_add] at h
  have hsum : inFlightOf config (run cfg State.init evs).1
      + delayedOf config (run cfg State.init evs).1
      + retryingOf config (run cfg State.init evs).1 ≤ 1 := le_trans h hload
  refine ⟨h, hsum, ?_, ?_, ?_, ?_⟩
  · rintro ⟨h1, h2⟩
    have := inFlightOf_pos config _ h1
    have := delayedOf_pos config _ h2
    omega
  · rintro ⟨h1, h2⟩
    have := inFlightOf_pos config _ h1
    have := retryingOf_pos config _ h2
    omega
  · rintro ⟨h1, h2⟩
    have := delayedOf_pos config _ h1
    have := retryingOf_pos config _ h2
    omega
  · rw [List.nodup_iff_count_le_one]
    intro a
    rw [count_outstanding]
    exact idEntries_run cfg evs State.init inv_init (fun b => by simp [idEntries, State.init]) a

/-- C11 for a request that was loaded once, failed with status 500 and waits
for its retry: it is in the retry queue only. -/
theorem request_in_at_most_one_queue_witness :
    loadCalls ⟨0, some ⟨.MEDIA_SEGMENT_TYPE, none⟩, true, true, true, true⟩
        [.load ⟨0, some ⟨.MEDIA_SEGMENT_TYPE, none⟩, true, true, true, true⟩ 0 .started,
         .loadEnd 0 (some ⟨500, none, false, false, .absent⟩)] ≤ 1 ∧
    retryingOf ⟨0, some ⟨.MEDIA_SEGMENT_TYPE, none⟩, true, true, true, true⟩
        (run ⟨true, fun _ => 3, fun _ => 1000⟩ State.init
          [.load ⟨0, some ⟨.MEDIA_SEGMENT_TYPE, none⟩, true, true, true, true⟩ 0 .started,
           .loadEnd 0 (some ⟨500, none, false, false, .absent⟩)]).1 = 1 ∧
    inFlightOf ⟨0, some ⟨.MEDIA_SEGMENT_TYPE, none⟩, true, true, true, true⟩
        (run ⟨true, fun _ => 3, fun _ => 1000⟩ State.init
          [.load ⟨0, some ⟨.MEDIA_SEGMENT_TYPE, none⟩, true, true, true, true⟩ 0 .started,
           .loadEnd 0 (some ⟨500, none, false, false, .absent⟩)]).1
      + delayedOf ⟨0, some ⟨.MEDIA_SEGMENT_TYPE, none⟩, true, true, true, true⟩
        (run ⟨true, fun _ => 3, fun _ => 1000⟩ State.init
          [.load ⟨0, some ⟨.MEDIA_SEGMENT_TYPE, none⟩, true, true, true, true⟩ 0 .started,
           .loadEnd 0 (some ⟨500, none, false, false, .absent⟩)]).1
      + retryingOf ⟨0, some ⟨.MEDIA_SEGMENT_TYPE, none⟩, true, true, true, true⟩
        (run ⟨true, fun _ => 3, fun _ => 1000⟩ State.init
          [.load ⟨0, some ⟨.MEDIA_SEGMENT_TYPE, none⟩, true, true, true, true⟩ 0 .started,
           .loadEnd 0 (some ⟨500, none, false, false, .absent⟩)]).1 ≤ 1 :=
  ⟨by simp [loadCalls],
   by simp [run, step, load, internalLoad, onloadend, scheduleRetry, State.init, retryingOf],
   (request_in_at_most_one_queue ⟨true, fun _ => 3, fun _ => 1000⟩
      [.load ⟨0, some ⟨.MEDIA_SEGMENT_TYPE, none⟩, true, true, true, true⟩ 0 .started,
       .loadEnd 0 (some ⟨500, none, false, false, .absent⟩)]
      ⟨0, some ⟨.MEDIA_SEGMENT_TYPE, none⟩, true, true, true, true⟩
      (by simp [loadCalls])).2.1⟩

end HTTPLoader

/-! ## Theorems: BufferController, replay, buffer state, pruning, init data -/

namespace BufferController

/-- The loop of `dischargePreBuffer`, started with `lastInit`, makes the
appends of `replayBlock` for each staged chunk with a cached init chunk. -/
theorem dischargeLoop_eq_blocks (env : Env) (sink : Nat) (chunks : List Chunk)
    (lastInit : Option Chunk) :
    dischargeLoop env sink chunks lastInit
      = (List.zipWith (replayBlock sink)
          (lastInit :: (replayable env chunks).map fun p => some p.1)
          (replayable env chunks)).flatten := by
  induction chunks generalizing lastInit with
  | nil => simp [dischargeLoop, replayable]
  | cons chunk rest ih =>
    cases hx : env.initCacheExtract chunk.streamId chunk.representationId with
    | none =>
      simp only [dischargeLoop, hx, replayable, List.filterMap_cons, Option.map_none']
      exact ih lastInit
    | some initChunk =>
      simp only [dischargeLoop, hx, replayable, List.filterMap_cons, Option.map_some',
        List.map_cons, List.zipWith_cons_cons, List.flatten_cons]
      by_cases hl : lastInit = some initChunk
      · simp only [hl, ne_eq, not_true_eq_false, if_false, replayBlock, if_true,
          List.singleton_append, List.cons.injEq, true_and]
        have := ih (some initChunk)
        simp only [replayable] at this
        exact this
      · simp only [hl, ne_eq, not_false_eq_true, if_true, replayBlock, if_false,
          List.cons_append, List.nil_append, List.cons.injEq, true_and]
        have := ih (some initChunk)
        simp only [replayable] at this
        exact this

end BufferController

namespace BufferController

/-- C12: for every list of staged chunks, `dischargePreBuffer` (with a
pre-buffer sink held, a media source set and the new sink `created`
made) appends to the new sink exactly the replay of `replaySpec`: every staged
chunk whose init chunk is cached, in the original staged order, each preceded
by its init chunk except when the init chunk appended last is the very same
object; staged chunks without a cached init chunk are dropped.  The new sink
becomes the buffer.  For staged media A1, A2 (representation 0) and B1
(representation 1) these are 5 sink appends: init A, A1, A2, init B, B1. -/
theorem dischargePreBuffer_replays (s : State) (env : Env) (created : Nat)
    (chunks : List Chunk) (preBuffer : Sink)
    (hbuf : s.buffer = some preBuffer) (hpre : preBuffer.isPreBuffer = true)
    (hms : s.mediaSource = true) (hinit : s.initCache = true) :
    (dischargePreBuffer s env true (some created) chunks).out = replaySpec env created chunks ∧
    (dischargePreBuffer s env true (some created) chunks).st.buffer = some ⟨created, false⟩ ∧
    (dischargePreBuffer s env true (some created) chunks).threw = false ∧
    (∀ (initA initB A1 A2 B1 : Chunk),
      A1.streamId = 0 → A1.representationId = 0 → A2.streamId = 0 → A2.representationId = 0 →
      B1.streamId = 0 → B1.representationId = 1 → initA ≠ initB →
      env.initCacheExtract 0 0 = some initA → env.initCacheExtract 0 1 = some initB →
      chunks = [A1, A2, B1] →
      (dischargePreBuffer s env true (some created) chunks).out
        = [.sinkAppend created initA, .sinkAppend created A1, .sinkAppend created A2,
           .sinkAppend created initB, .sinkAppend created B1]) := by
  have hout : (dischargePreBuffer s env true (some created) chunks).out
      = dischargeLoop env created chunks none := by
    simp [dischargePreBuffer, hbuf, hpre, hms, hinit, createBuffer, Res.andThen]
  refine ⟨?_, ?_, ?_, ?_⟩
  · rw [hout, dischargeLoop_eq_blocks]
    rfl
  · simp [dischargePreBuffer, hbuf, hpre, hms, hinit, createBuffer, Res.andThen]
  · simp [dischargePreBuffer, hbuf, hpre, hms, hinit, createBuffer, Res.andThen]
  · intro initA initB A1 A2 B1 h1 h2 h3 h4 h5 h6 hne hA hB hch
    rw [hout, hch]
    have hne' : initB ≠ initA := fun h => hne h.symm
    simp [dischargeLoop, h1, h2, h3, h4, h5, h6, hA, hB, hne, hne']

end BufferController

namespace BufferController

/-- C12 for the staged chunks A1, A2 of representation 0 and B1 of
representation 1 with both init chunks cached: five appends to the new
sink 2. -/
theorem dischargePreBuffer_replays_witness :
    (dischargePreBuffer
        { State.init with buffer := some ⟨1, true⟩, mediaSource := true, initCache := true }
        ⟨some [], [], some 0, 100, none, false,
          fun _ r => if r = 0 then some ⟨10, 0, 0, none, true⟩
            else if r = 1 then some ⟨11, 0, 1, none, true⟩ else none,
          30, 50, 10, false, false⟩
        true (some 2)
        [⟨1, 0, 0, some 1, true⟩, ⟨2, 0, 0, some 2, true⟩, ⟨3, 0, 1, some 3, true⟩]).out
      = [.sinkAppend 2 ⟨10, 0, 0, none, true⟩, .sinkAppend 2 ⟨1, 0, 0, some 1, true⟩,
         .sinkAppend 2 ⟨2, 0, 0, some 2, true⟩, .sinkAppend 2 ⟨11, 0, 1, none, true⟩,
         .sinkAppend 2 ⟨3, 0, 1, some 3, true⟩] :=
  (dischargePreBuffer_replays
    { State.init with buffer := some ⟨1, true⟩, mediaSource := true, initCache := true }
    ⟨some [], [], some 0, 100, none, false,
      fun _ r => if r = 0 then some ⟨10, 0, 0, none, true⟩
        else if r = 1 then some ⟨11, 0, 1, none, true⟩ else none,
      30, 50, 10, false, false⟩
    2 [⟨1, 0, 0, some 1, true⟩, ⟨2, 0, 0, some 2, true⟩, ⟨3, 0, 1, some 3, true⟩] ⟨1, true⟩
    rfl rfl rfl rfl).2.2.2
    ⟨10, 0, 0, none, true⟩ ⟨11, 0, 1, none, true⟩ ⟨1, 0, 0, some 1, true⟩
    ⟨2, 0, 0, some 2, true⟩ ⟨3, 0, 1, some 3, true⟩ rfl rfl rfl rfl rfl rfl (by decide)
    rfl rfl rfl

end BufferController

namespace BufferController

theorem andThen_level (r : Res) (f : State → Res) (c : ℚ)
    (hr : r.st.bufferLevel = c) (hf : ∀ s, s.bufferLevel = c → (f s).st.bufferLevel = c) :
    (r.andThen f).st.bufferLevel = c := by
  unfold Res.andThen
  split_ifs
  · exact hr
  · exact hf _ hr

theorem notifyBufferStateChanged_level (cfg : Config) (s : State) (env : Env) (b : BufferState) :
    (notifyBufferStateChanged cfg s env b).st.bufferLevel = s.bufferLevel := by
  unfold notifyBufferStateChanged
  split_ifs <;> rfl

/-- `checkIfSufficientBuffer` does not change the buffer level. -/
theorem checkIfSufficientBuffer_level (cfg : Config) (s : State) (env : Env) :
    (checkIfSufficientBuffer cfg s env).st.bufferLevel = s.bufferLevel := by
  unfold checkIfSufficientBuffer
  simp only
  split
  · rfl
  · refine andThen_level _ _ _ (by split <;> rfl) ?_
    intro s1 h1
    repeat' split
    all_goals first | exact h1 | (rw [notifyBufferStateChanged_level]; exact h1)

end BufferController

namespace BufferController

/-- For a controller that is not a text controller `notifyBufferStateChanged`
leaves the given state in `bufferState` and touches nothing else. -/
theorem notifyBufferStateChanged_state (cfg : Config) (s : State) (env : Env) (b : BufferState)
    (ht : cfg.type_ ≠ .fragmentedText) :
    (notifyBufferStateChanged cfg s env b).threw = false ∧
    (notifyBufferStateChanged cfg s env b).st.bufferLevel = s.bufferLevel ∧
    (notifyBufferStateChanged cfg s env b).st.isBufferingCompleted = s.isBufferingCompleted ∧
    (notifyBufferStateChanged cfg s env b).st.bufferState = b := by
  unfold notifyBufferStateChanged
  by_cases h : s.bufferState = b
  · simp [h]
  · simp [h, ht]

/-- What `checkIfSufficientBuffer` leaves in `bufferState` for an audio or
video controller that has run `initialize`, when the level it reads is below
the stall threshold, buffering is not completed afterwards and the video
element exists. -/
theorem checkIfSufficientBuffer_below (cfg : Config) (s : State) (env : Env) (v : VideoElement)
    (htype : cfg.type_ = .audio ∨ cfg.type_ = .video) (hinit : s.initCache = true)
    (hv : env.videoElement = some v) (hlevel : s.bufferLevel < STALL_THRESHOLD)
    (hdone : (checkIfSufficientBuffer cfg s env).st.isBufferingCompleted = false) :
    (checkIfSufficientBuffer cfg s env).threw = false ∧
    (checkIfSufficientBuffer cfg s env).st.bufferLevel = s.bufferLevel ∧
    (checkIfSufficientBuffer cfg s env).st.bufferState
      = (if v.duration = none ∨ ∃ d, v.duration = some d ∧ d - v.currentTime > STALL_THRESHOLD
         then .BUFFER_EMPTY else .BUFFER_LOADED) := by
  have ht1 : ¬ (cfg.type_ ≠ .audio ∧ cfg.type_ ≠ .video) := by
    rcases htype with h | h <;> simp [h]
  have ht2 : cfg.type_ ≠ .fragmentedText := by
    rcases htype with h | h <;> simp [h]
  have hE := notifyBufferStateChanged_state cfg s env .BUFFER_EMPTY ht2
  have hL := notifyBufferStateChanged_state cfg s env .BUFFER_LOADED ht2
  generalize hrhs : (if v.duration = none ∨
      ∃ d, v.duration = some d ∧ d - v.currentTime > STALL_THRESHOLD
      then BufferState.BUFFER_EMPTY else BufferState.BUFFER_LOADED) = target
  revert hdone
  unfold checkIfSufficientBuffer
  simp only [ht1, if_false]
  by_cases hseek : s.seekClearedBufferingCompleted = true ∧ ¬ s.isBufferingCompleted = true ∧
      cfg.hasPlaybackController = true ∧ env.timeToStreamEnd - s.bufferLevel < STALL_THRESHOLD
  · simp [hseek, Res.andThen]
  · simp only [hseek, if_false, Res.andThen, Bool.false_eq_true, if_false, List.nil_append]
    by_cases hc : s.isBufferingCompleted = true
    · simp [hc]
    · simp only [hlevel, hc, not_false_eq_true, and_self, if_true, hinit, not_true_eq_false,
        if_false, hv]
      intro _
      cases hd : v.duration with
      | none =>
        have : target = .BUFFER_EMPTY := by rw [← hrhs]; simp [hd]
        simp only [if_true, this]
        exact ⟨hE.1, hE.2.1, hE.2.2.2⟩
      | some d =>
        by_cases hgt : d - v.currentTime > STALL_THRESHOLD
        · have : target = .BUFFER_EMPTY := by rw [← hrhs]; simp [hd, hgt]
          simp only [hgt, decide_True, if_true, this]
          exact ⟨hE.1, hE.2.1, hE.2.2.2⟩
        · have : target = .BUFFER_LOADED := by rw [← hrhs]; simp [hd, hgt]
          simp only [hgt, decide_False, Bool.false_eq_true, if_false, this]
          exact ⟨hL.1, hL.2.1, hL.2.2.2⟩

end BufferController

namespace BufferController

/-- C13: the code at a buffer level at or above the stall threshold.
`checkIfSufficientBuffer` notifies `BUFFER_LOADED` only inside the block for a
level below the threshold, so at any level at or above it the buffer state
stays what it was and no state change is signalled.  For a video controller
after `initialize` and `createBuffer`, with the buffered range `(0,20)` at
time 0, a seek publishes the level 20 and nothing else, and the state is
still Empty (`bufferStalled`), where the unit test of lines 422-433 expects a
state change to `bufferLoaded`. -/
theorem bufferState_stalled_at_sufficient_level :
    (∀ (cfg : Config) (s : State) (env : Env) (level : ℚ),
      (checkIfSufficientBuffer cfg { s with bufferLevel := max level STALL_THRESHOLD }
          env).st.bufferState = s.bufferState ∧
      ∀ b, Output.bufferLevelStateChanged b ∉
        (checkIfSufficientBuffer cfg { s with bufferLevel := max level STALL_THRESHOLD }
          env).out) ∧
    (run ⟨.video, true⟩ State.init
        [(⟨some [], [], some 0, 100, none, false, fun _ _ => none, 30, 50, 10, false, false⟩,
            .initializeCall true),
         (⟨some [], [], some 0, 100, none, false, fun _ _ => none, 30, 50, 10, false, false⟩,
            .createBuffer true (some 1))]).1.bufferState = .BUFFER_EMPTY ∧
    (step ⟨.video, true⟩
      (run ⟨.video, true⟩ State.init
        [(⟨some [], [], some 0, 100, none, false, fun _ _ => none, 30, 50, 10, false, false⟩,
            .initializeCall true),
         (⟨some [], [], some 0, 100, none, false, fun _ _ => none, 30, 50, 10, false, false⟩,
            .createBuffer true (some 1))]).1
      (⟨some [⟨0, 20⟩], [⟨0, 20⟩], some 0, 100, some ⟨0, some 100⟩, false, fun _ _ => none,
          30, 50, 10, false, false⟩,
        .playbackSeeking)).out = [.bufferLevelUpdated 20] ∧
    (step ⟨.video, true⟩
      (run ⟨.video, true⟩ State.init
        [(⟨some [], [], some 0, 100, none, false, fun _ _ => none, 30, 50, 10, false, false⟩,
            .initializeCall true),
         (⟨some [], [], some 0, 100, none, false, fun _ _ => none, 30, 50, 10, false, false⟩,
            .createBuffer true (some 1))]).1
      (⟨some [⟨0, 20⟩], [⟨0, 20⟩], some 0, 100, some ⟨0, some 100⟩, false, fun _ _ => none,
          30, 50, 10, false, false⟩,
        .playbackSeeking)).st.bufferState = .BUFFER_EMPTY := by
  refine ⟨?_, ?_, ?_, ?_⟩
  · intro cfg s env level
    have hge : ¬ max level STALL_THRESHOLD < STALL_THRESHOLD :=
      not_lt.mpr (le_max_right _ _)
    unfold checkIfSufficientBuffer
    simp only []
    split_ifs
    all_goals simp [Res.andThen, hge]
  · norm_num [run, step, handle, Event.isSignal, initializeController, createBuffer,
      State.init]
  · norm_num [run, step, handle, Event.isSignal, initializeController, createBuffer,
      onPlaybackSeeking, onPlaybackProgression, updateBufferLevel, checkIfSufficientBuffer,
      Res.andThen, getBufferLength, getRangeAt, getRangeAtLoop, effectiveTolerance,
      getWorkingTime, State.init, STALL_THRESHOLD]
  · norm_num [run, step, handle, Event.isSignal, initializeController, createBuffer,
      onPlaybackSeeking, onPlaybackProgression, updateBufferLevel, checkIfSufficientBuffer,
      Res.andThen, getBufferLength, getRangeAt, getRangeAtLoop, effectiveTolerance,
      getWorkingTime, State.init, STALL_THRESHOLD]

/-- Below the stall threshold: after every buffer-level update of an audio or
video controller (playback controller supplied, sink present, `initialize`
run) the level is the buffer length at the working time; and when that level
is below
the 0.5 s stall threshold, buffering is not completed and the video element
exists, the buffer state is Empty (`bufferStalled`) if the duration of the
element is `NaN` or more than 0.5 s beyond its current time, and Loaded
(`bufferLoaded`) otherwise. -/
theorem bufferState_after_level_update (cfg : Config) (s : State) (env : Env) (sink : Sink)
    (v : VideoElement)
    (htype : cfg.type_ = .audio ∨ cfg.type_ = .video) (hpc : cfg.hasPlaybackController = true)
    (hbuf : s.buffer = some sink) (hinit : s.initCache = true)
    (hv : env.videoElement = some v)
    (hlevel : (updateBufferLevel cfg s env).st.bufferLevel < STALL_THRESHOLD)
    (hdone : (updateBufferLevel cfg s env).st.isBufferingCompleted = false) :
    (updateBufferLevel cfg s env).threw = false ∧
    (updateBufferLevel cfg s env).st.bufferLevel
      = getBufferLength env.ranges ((getWorkingTime s env).getD 0) none ∧
    (updateBufferLevel cfg s env).st.bufferState
      = (if v.duration = none ∨ ∃ d, v.duration = some d ∧ d - v.currentTime > STALL_THRESHOLD
         then .BUFFER_EMPTY else .BUFFER_LOADED) := by
  have hupd : updateBufferLevel cfg s env
      = ⟨(checkIfSufficientBuffer cfg
            { s with bufferLevel :=
                getBufferLength env.ranges ((getWorkingTime s env).getD 0) none } env).st,
          .bufferLevelUpdated (getBufferLength env.ranges ((getWorkingTime s env).getD 0) none)
            :: (checkIfSufficientBuffer cfg
            { s with bufferLevel :=
                getBufferLength env.ranges ((getWorkingTime s env).getD 0) none } env).out,
          (checkIfSufficientBuffer cfg
            { s with bufferLevel :=
                getBufferLength env.ranges ((getWorkingTime s env).getD 0) none } env).threw⟩ := by
    simp [updateBufferLevel, hpc, hbuf, Res.andThen]
  rw [hupd] at hlevel hdone ⊢
  simp only [] at hlevel hdone ⊢
  have hlev0 : (checkIfSufficientBuffer cfg
      { s with bufferLevel :=
          getBufferLength env.ranges ((getWorkingTime s env).getD 0) none } env).st.bufferLevel
      = getBufferLength env.ranges ((getWorkingTime s env).getD 0) none := by
    have := checkIfSufficientBuffer_level cfg
      { s with bufferLevel :=
          getBufferLength env.ranges ((getWorkingTime s env).getD 0) none } env
    exact this
  rw [hlev0] at hlevel
  obtain ⟨h1, h2, h3⟩ := checkIfSufficientBuffer_below cfg
    { s with bufferLevel := getBufferLength env.ranges ((getWorkingTime s env).getD 0) none }
    env v htype hinit hv hlevel hdone
  exact ⟨h1, hlev0, h3⟩

end BufferController

namespace BufferController

/-- A video controller in state Loaded with the buffered range `(0,0.4)` at
time 0 and the video element at 0 of 10 seconds: the level is 0.4 and the
state becomes Empty. -/
theorem bufferState_after_level_update_witness :
    (updateBufferLevel ⟨.video, true⟩
        { State.init with buffer := some ⟨1, false⟩, initCache := true, subscribed := true,
                          bufferState := .BUFFER_LOADED }
        ⟨some [⟨0, 0.4⟩], [⟨0, 0.4⟩], some 0, 100, some ⟨0, some 10⟩, false, fun _ _ => none,
          30, 50, 10, false, false⟩).st.bufferLevel = 0.4 ∧
    (updateBufferLevel ⟨.video, true⟩
        { State.init with buffer := some ⟨1, false⟩, initCache := true, subscribed := true,
                          bufferState := .BUFFER_LOADED }
        ⟨some [⟨0, 0.4⟩], [⟨0, 0.4⟩], some 0, 100, some ⟨0, some 10⟩, false, fun _ _ => none,
          30, 50, 10, false, false⟩).st.bufferState = .BUFFER_EMPTY := by
  have hne : ¬ BufferState.BUFFER_LOADED = BufferState.BUFFER_EMPTY := by decide
  have hlevel : (updateBufferLevel ⟨.video, true⟩
        { State.init with buffer := some ⟨1, false⟩, initCache := true, subscribed := true,
                          bufferState := .BUFFER_LOADED }
        ⟨some [⟨0, 0.4⟩], [⟨0, 0.4⟩], some 0, 100, some ⟨0, some 10⟩, false, fun _ _ => none,
          30, 50, 10, false, false⟩).st.bufferLevel = 0.4 := by
    norm_num [updateBufferLevel, checkIfSufficientBuffer, notifyBufferStateChanged, Res.andThen,
      getBufferLength, getRangeAt, getRangeAtLoop, effectiveTolerance, getWorkingTime,
      State.init, STALL_THRESHOLD, hne]
  have h := bufferState_after_level_update ⟨.video, true⟩
    { State.init with buffer := some ⟨1, false⟩, initCache := true, subscribed := true,
                      bufferState := .BUFFER_LOADED }
    ⟨some [⟨0, 0.4⟩], [⟨0, 0.4⟩], some 0, 100, some ⟨0, some 10⟩, false, fun _ _ => none,
      30, 50, 10, false, false⟩
    ⟨1, false⟩ ⟨0, some 10⟩ (Or.inr rfl) rfl rfl rfl rfl
    (by rw [hlevel]; norm_num [STALL_THRESHOLD])
    (by
      norm_num [updateBufferLevel, checkIfSufficientBuffer, notifyBufferStateChanged,
        Res.andThen, getBufferLength, getRangeAt, getRangeAtLoop, effectiveTolerance,
        getWorkingTime, State.init, STALL_THRESHOLD, hne])
  refine ⟨hlevel, ?_⟩
  rw [h.2.2]
  norm_num [STALL_THRESHOLD]

end BufferController

namespace BufferController

/-- With a sink held, `clearBuffer(getClearRange(threshold))` asks the sink
for nothing and ends in an exception. -/
theorem clearBufferOfClearRange_throws (s : State) (sink : Sink) (h : s.buffer = some sink) :
    (clearBufferOfClearRange s).out = [] ∧ (clearBufferOfClearRange s).threw = true := by
  simp [clearBufferOfClearRange, h]

end BufferController

namespace BufferController

/-- C14: the code at a quota-exceeded append error.  A video controller with
the sink 1, the buffered range `(0,20)` and playback time 10 receives the
append-completed event of a media chunk with error code 22: it publishes the
buffer level 10 and `BYTES_APPENDED`, sets `criticalBufferLevel` to 16, emits
`QUOTA_EXCEEDED`, and then `getClearRange` throws at line 443 before any range
is returned: the handler ends in an exception and the sink is asked to remove
nothing, whereas the claim has it asked to remove the range from 0 to the
start time of the executed request at time 10. -/
theorem quota_error_removes_nothing :
    (step ⟨.video, true⟩
      (run ⟨.video, true⟩ State.init
        [(⟨some [], [], some 0, 100, none, false, fun _ _ => none, 30, 50, 10, false, false⟩,
            .initializeCall true),
         (⟨some [], [], some 0, 100, none, false, fun _ _ => none, 30, 50, 10, false, false⟩,
            .createBuffer true (some 1)),
         (⟨some [], [], some 0, 100, none, false, fun _ _ => none, 30, 50, 10, false, false⟩,
            .mediaFragmentLoaded true ⟨7, 0, 0, some 3, false⟩)]).1
      (⟨some [⟨0, 20⟩], [⟨0, 20⟩], some 10, 100, some ⟨10, some 100⟩, false, fun _ _ => none,
          30, 50, 10, false, false⟩,
        .appendCompleted 1 (some 22)))
      = ⟨{ State.init with
            subscribed := true, initCache := true, mediaSource := true,
            buffer := some ⟨1, false⟩, criticalBufferLevel := some 16, maxAppendedIndex := 3,
            appendedBytesInfo := some ⟨7, 0, 0, some 3, false⟩, isAppendingInProgress := true,
            bufferLevel := 10 },
         [.bufferLevelUpdated 10, .bytesAppended ⟨7, 0, 0, some 3, false⟩,
          .quotaExceeded (some 16)],
         true⟩ := by
  norm_num [run, step, handle, Event.isSignal, initializeController, createBuffer,
    onMediaFragmentLoaded, appendToBuffer, onAppended, checkIfBufferingCompleted,
    onPlaybackProgression, updateBufferLevel, checkIfSufficientBuffer, Res.andThen,
    getBufferLength, getRangeAt, getRangeAtLoop, effectiveTolerance, getWorkingTime,
    getTotalBufferedTime, hasEnoughSpaceToAppend, clearBufferOfClearRange, State.init,
    STALL_THRESHOLD, QUOTA_EXCEEDED_ERROR_CODE]

end BufferController

namespace BufferController

/-- `Math.round` returns the integer nearest to its argument, the upper one
at a tie. -/
theorem jsRound_nearest (x : ℚ) :
    ∃ n : ℤ, jsRound x = n ∧ (n : ℚ) - 1 / 2 ≤ x ∧ x < n + 1 / 2 := by
  refine ⟨⌊x + 1 / 2⌋, rfl, ?_, ?_⟩
  · have := Int.floor_le (x + 1 / 2)
    linarith
  · have := Int.lt_floor_add_one (x + 1 / 2)
    linarith

end BufferController

namespace BufferController

/-- C15 (as stated) fails: with playback position 10.3, first buffered start
0 and keep-window 5 the excess is 5.3 and `pruneBuffer` asks the sink to remove
`[0, 5]`, not `[0, 5.3]`: the end of the range is rounded to an integer. -/
theorem pruneBuffer_end_not_exact :
    ¬ (∀ (cfg : Config) (s : State) (env : Env) (sink : Sink),
        cfg.type_ ≠ .fragmentedText → cfg.hasPlaybackController = true →
        s.buffer = some sink → 0 < pruneExcess env →
        (pruneBuffer cfg s env).out
          = [.sinkRemove sink.id 0 (firstBufferedStart env + pruneExcess env)]) := by
  intro h
  have h1 := h ⟨.video, true⟩ { State.init with buffer := some ⟨1, false⟩ }
    ⟨some [⟨0, 20⟩], [⟨0, 20⟩], some 10.3, 100, none, false, fun _ _ => none, 5, 50, 10,
      false, false⟩
    ⟨1, false⟩ (by decide) rfl rfl (by norm_num [pruneExcess, firstBufferedStart])
  have hne : ¬ MediaType.video = MediaType.fragmentedText := by decide
  norm_num [pruneBuffer, jsRound, pruneExcess, firstBufferedStart, State.init, hne] at h1

end BufferController

namespace BufferController

/-- C15 (amended): for a buffer that is not fragmented text (sink held,
playback controller supplied), with first buffered start `s`, playback
position `p` and keep-window `k`, `pruneBuffer` asks the sink to remove exactly
the range `[0, Math.round(s + excess)]` with `excess = p − s − k` when
`excess > 0`, the end being the integer nearest to `s + excess` (the upper one
at a tie), and sets the pruning flag; it removes nothing and changes nothing
when `excess ≤ 0`, and likewise when the buffer type is fragmented text. -/
theorem pruneBuffer_range (cfg : Config) (s : State) (env : Env) (sink : Sink)
    (hbuf : s.buffer = some sink) (hpc : cfg.hasPlaybackController = true) :
    (cfg.type_ ≠ .fragmentedText → 0 < pruneExcess env →
      (pruneBuffer cfg s env).out
          = [.sinkRemove sink.id 0 (jsRound (firstBufferedStart env + pruneExcess env))] ∧
        (pruneBuffer cfg s env).st = { s with isPruningInProgress := true } ∧
        (pruneBuffer cfg s env).threw = false ∧
        ∃ n : ℤ, jsRound (firstBufferedStart env + pruneExcess env) = n ∧
          (n : ℚ) - 1 / 2 ≤ firstBufferedStart env + pruneExcess env ∧
          firstBufferedStart env + pruneExcess env < n + 1 / 2) ∧
    (cfg.type_ ≠ .fragmentedText → pruneExcess env ≤ 0 →
      pruneBuffer cfg s env = ⟨s, [], false⟩) ∧
    (cfg.type_ = .fragmentedText → pruneBuffer cfg s env = ⟨s, [], false⟩) := by
  have key : cfg.type_ ≠ .fragmentedText → pruneBuffer cfg s env
      = if pruneExcess env > 0 then
          ⟨{ s with isPruningInProgress := true },
           [.sinkRemove sink.id 0 (jsRound (firstBufferedStart env + pruneExcess env))], false⟩
        else ⟨s, [], false⟩ := by
    intro ht
    unfold pruneBuffer
    split
    · rename_i h
      rw [hbuf] at h
      cases h
    · rename_i sink1 h
      rw [hbuf] at h
      cases h
      simp only [ht, if_false, hpc, not_true_eq_false]
      rfl
  refine ⟨?_, ?_, ?_⟩
  · intro ht hex
    rw [key ht, if_pos hex]
    exact ⟨rfl, rfl, rfl, jsRound_nearest _⟩
  · intro ht hex
    rw [key ht, if_neg (not_lt.mpr hex)]
  · intro ht
    unfold pruneBuffer
    split
    · rfl
    · simp only [ht, if_true]

/-- The amended C15 at playback position 10.3, first buffered start 0 and
keep-window 5: the sink is asked to remove `[0, 5]`. -/
theorem pruneBuffer_range_witness :
    (pruneBuffer ⟨.video, true⟩ { State.init with buffer := some ⟨1, false⟩ }
        ⟨some [⟨0, 20⟩], [⟨0, 20⟩], some 10.3, 100, none, false, fun _ _ => none, 5, 50, 10,
          false, false⟩).out = [.sinkRemove 1 0 5] := by
  have h := (pruneBuffer_range ⟨.video, true⟩ { State.init with buffer := some ⟨1, false⟩ }
    ⟨some [⟨0, 20⟩], [⟨0, 20⟩], some 10.3, 100, none, false, fun _ _ => none, 5, 50, 10,
      false, false⟩
    ⟨1, false⟩ rfl rfl).1 (by decide) (by norm_num [pruneExcess, firstBufferedStart])
  rw [h.1]
  norm_num [jsRound, pruneExcess, firstBufferedStart]

end BufferController

namespace BufferController

/-- C19: for a controller that has run `initialize`,
`switchInitData(streamId, representationId)` appends the cached init chunk for
that identity to the sink (and to nothing else) and emits no `INIT_REQUESTED`
when the init cache holds one, and emits `INIT_REQUESTED`, appends nothing and
changes nothing when it holds none. -/
theorem switchInitData_cached_or_requested (s : State) (env : Env)
    (streamId representationId : Nat) (hinit : s.initCache = true) :
    (∀ chunk sink, env.initCacheExtract streamId representationId = some chunk →
      s.buffer = some sink →
      (switchInitData s env streamId representationId).out
          = .sinkAppend sink.id chunk ::
              (if chunk.isVideo then [.videoChunkReceived chunk] else []) ∧
        Output.initRequested ∉ (switchInitData s env streamId representationId).out ∧
        (switchInitData s env streamId representationId).threw = false ∧
        (switchInitData s env streamId representationId).st.appendedBytesInfo = some chunk) ∧
    (env.initCacheExtract streamId representationId = none →
      switchInitData s env streamId representationId = ⟨s, [.initRequested], false⟩ ∧
      ∀ sink chunk,
        Output.sinkAppend sink chunk ∉ (switchInitData s env streamId representationId).out) := by
  refine ⟨?_, ?_⟩
  · intro chunk sink hc hb
    have hsw : switchInitData s env streamId representationId
        = ⟨{ s with isAppendingInProgress := true, appendedBytesInfo := some chunk },
            .sinkAppend sink.id chunk ::
              (if chunk.isVideo then [.videoChunkReceived chunk] else []), false⟩ := by
      simp only [switchInitData, hinit, hc, appendToBuffer, hb, not_true_eq_false, if_false]
    rw [hsw]
    refine ⟨rfl, ?_, rfl, rfl⟩
    cases chunk.isVideo <;> simp
  · intro hc
    simp [switchInitData, hinit, hc]

/-- C19 for the unit test: after `initialize` and `createBuffer`, with the
init chunk of `('streamId', 'representationId')` cached, the chunk is appended
to the sink. -/
theorem switchInitData_cached_or_requested_witness :
    (switchInitData
        (run ⟨.video, true⟩ State.init
          [(⟨some [], [], some 0, 100, none, false, fun _ _ => none, 30, 50, 10, false,
              false⟩, .initializeCall true),
           (⟨some [], [], some 0, 100, none, false, fun _ _ => none, 30, 50, 10, false,
              false⟩, .createBuffer true (some 1))]).1
        ⟨some [], [], some 0, 100, none, false, fun _ _ => some ⟨5, 0, 0, none, true⟩,
          30, 50, 10, false, false⟩ 0 0).out
      = [.sinkAppend 1 ⟨5, 0, 0, none, true⟩, .videoChunkReceived ⟨5, 0, 0, none, true⟩] :=
  ((switchInitData_cached_or_requested
      (run ⟨.video, true⟩ State.init
        [(⟨some [], [], some 0, 100, none, false, fun _ _ => none, 30, 50, 10, false,
            false⟩, .initializeCall true),
         (⟨some [], [], some 0, 100, none, false, fun _ _ => none, 30, 50, 10, false,
            false⟩, .createBuffer true (some 1))]).1
      ⟨some [], [], some 0, 100, none, false, fun _ _ => some ⟨5, 0, 0, none, true⟩,
        30, 50, 10, false, false⟩ 0 0
      (by simp [run, step, Event.isSignal, handle, initializeController, createBuffer,
        State.init])).1
    ⟨5, 0, 0, none, true⟩ ⟨1, false⟩ rfl
    (by simp [run, step, Event.isSignal, handle, initializeController, createBuffer,
      State.init])).1

end BufferController

/-! ## Theorems: PlaybackController, live delay and presentation time -/

namespace PlaybackController

/-- With `streamInfo` set, the delay chosen by the code is the first present
candidate of the priority list. -/
theorem chosenDelay_eq_firstPresent (s : State) (env : LiveDelayEnv) (fragmentDuration : ExtNum)
    (minBufferTime : Num) (hs : s.streamInfo = true) :
    chosenDelay s env fragmentDuration minBufferTime
      = firstPresent (delayCandidates env fragmentDuration minBufferTime) := by
  unfold chosenDelay delayCandidates
  by_cases h1 : env.lowLatencyEnabled = true
  · simp [h1, firstPresent]
  by_cases h2 : env.userLiveDelay.truthy = true
  · simp [h1, h2, firstPresent]
  simp only [h1, h2, Bool.false_eq_true, if_false, firstPresent, hs, if_true]
  by_cases hu : env.useSuggestedPresentationDelay = true <;>
  cases fragmentDuration <;> rcases hc : env.liveDelayFragmentCount with _ | (_ | c) <;>
    rcases hp : env.suggestedPresentationDelay with _ | (_ | p) <;> cases minBufferTime <;>
    simp [adjustedFragmentDuration, Num.isNaN, Num.mul, Num.gt, firstPresent, hu]
  all_goals (split_ifs <;> simp_all [firstPresent])

end PlaybackController

namespace PlaybackController

/-- Once a delay is chosen, `computeAndSetLiveDelay` returns it, capped when
the DVR window size is positive, and stores what it returns in `liveDelay`. -/
theorem computeAndSetLiveDelay_of_chosen (s : State) (env : LiveDelayEnv)
    (fragmentDuration : ExtNum) (dvrWindowSize minBufferTime delay : Num)
    (hd : chosenDelay s env fragmentDuration minBufferTime = some delay) :
    ∃ st, computeAndSetLiveDelay s env fragmentDuration dvrWindowSize minBufferTime
        = some (st,
            if dvrWindowSize.gt (.num 0) then
              Num.min delay (Num.max (dvrWindowSize.sub (.num 10)) (dvrWindowSize.div (.num 2)))
            else delay) ∧
      getLiveDelay st
        = (if dvrWindowSize.gt (.num 0) then
              Num.min delay (Num.max (dvrWindowSize.sub (.num 10)) (dvrWindowSize.div (.num 2)))
            else delay) := by
  simp only [computeAndSetLiveDelay, hd]
  exact ⟨_, rfl, rfl⟩

end PlaybackController

namespace PlaybackController

/-- C16: with the controller initialised (`streamInfo` set),
`computeAndSetLiveDelay` chooses the delay, before capping, as the first
present candidate of the priority list `delayCandidates`: `0` if low-latency
mode is enabled; else the user-configured live delay; else `fragmentDuration ×
liveDelayFragmentCount` when both are numbers; else the suggested presentation
delay of the manifest when its use is enabled and it is positive; else
`fragmentDuration × 4` when the fragment duration is a finite number; else
`minBufferTime × 4` (the argument when it is a number, else the value of the
manifest).  A delay is always chosen, the call returns it (capped when the DVR
window size is positive), and `getLiveDelay()` afterwards returns the value
the call returned. -/
theorem liveDelay_priority (s : State) (env : LiveDelayEnv) (fragmentDuration : ExtNum)
    (dvrWindowSize minBufferTime : Num) (hs : s.streamInfo = true) :
    chosenDelay s env fragmentDuration minBufferTime
      = firstPresent (delayCandidates env fragmentDuration minBufferTime) ∧
    ∃ delay st ret,
      firstPresent (delayCandidates env fragmentDuration minBufferTime) = some delay ∧
      computeAndSetLiveDelay s env fragmentDuration dvrWindowSize minBufferTime
        = some (st, ret) ∧
      getLiveDelay st = ret ∧
      (dvrWindowSize.gt (.num 0) = false → ret = delay) := by
  have h := chosenDelay_eq_firstPresent s env fragmentDuration minBufferTime hs
  refine ⟨h, ?_⟩
  have hsome : ∃ delay, chosenDelay s env fragmentDuration minBufferTime = some delay := by
    unfold chosenDelay
    simp only [hs, if_true]
    split_ifs <;> exact ⟨_, rfl⟩
  obtain ⟨delay, hd⟩ := hsome
  obtain ⟨st, h1, h2⟩ := computeAndSetLiveDelay_of_chosen s env fragmentDuration dvrWindowSize
    minBufferTime delay hd
  refine ⟨delay, st, _, h ▸ hd, h1, h2, ?_⟩
  intro hw
  simp [hw]

/-- C16 for a fragment duration of 2 s with no other setting in force (the
suggested presentation delay of 30 s is not enabled): the delay is 8 s and
stays 8 s under the cap of a DVR window of 100 s. -/
theorem liveDelay_priority_witness :
    firstPresent (delayCandidates ⟨false, .nan, some .nan, false, some (.num 30), .num 12, none⟩
        (.num 2) .nan) = some (.num 8) ∧
    chosenDelay { State.init with streamInfo := true }
        ⟨false, .nan, some .nan, false, some (.num 30), .num 12, none⟩ (.num 2) .nan
      = some (.num 8) := by
  have h1 : firstPresent (delayCandidates
      ⟨false, .nan, some .nan, false, some (.num 30), .num 12, none⟩ (.num 2) .nan)
      = some (.num 8) := by
    norm_num [delayCandidates, firstPresent, Num.truthy]
  exact ⟨h1, ((liveDelay_priority { State.init with streamInfo := true }
    ⟨false, .nan, some .nan, false, some (.num 30), .num 12, none⟩ (.num 2) (.num 100) .nan
    rfl).1).trans h1⟩

/-- C17: for every DVR window size `w > 0` and every chosen delay `d`,
`computeAndSetLiveDelay` returns `Math.min(d, Math.max(w − 10, w / 2))`, which
for a number `d` is `min d (max (w − 10) (w / 2))`, so the live delay never
exceeds `max (w − 10) (w / 2)`; when `w` is not positive (or `NaN`) it returns
`d` uncapped.  In both cases `getLiveDelay()` returns the same value
afterwards. -/
theorem liveDelay_capped (s : State) (env : LiveDelayEnv) (fragmentDuration : ExtNum)
    (dvrWindowSize minBufferTime delay : Num)
    (hd : chosenDelay s env fragmentDuration minBufferTime = some delay) :
    (∀ w : ℚ, dvrWindowSize = .num w → 0 < w →
      (∃ st, computeAndSetLiveDelay s env fragmentDuration dvrWindowSize minBufferTime
          = some (st, Num.min delay (.num (max (w - 10) (w / 2)))) ∧
        getLiveDelay st = Num.min delay (.num (max (w - 10) (w / 2)))) ∧
      ∀ d : ℚ, delay = .num d →
        Num.min delay (.num (max (w - 10) (w / 2))) = .num (min d (max (w - 10) (w / 2))) ∧
        min d (max (w - 10) (w / 2)) ≤ max (w - 10) (w / 2)) ∧
    ((dvrWindowSize = .nan ∨ ∃ w : ℚ, dvrWindowSize = .num w ∧ w ≤ 0) →
      ∃ st, computeAndSetLiveDelay s env fragmentDuration dvrWindowSize minBufferTime
          = some (st, delay) ∧ getLiveDelay st = delay) := by
  obtain ⟨st, h1, h2⟩ := computeAndSetLiveDelay_of_chosen s env fragmentDuration dvrWindowSize
    minBufferTime delay hd
  refine ⟨?_, ?_⟩
  · intro w hw hpos
    subst hw
    have hgt : (Num.num w).gt (.num 0) = true := by simp [Num.gt, hpos]
    simp only [hgt, if_true, Num.sub, Num.div, Num.max] at h1 h2
    refine ⟨⟨st, h1, h2⟩, ?_⟩
    intro d hdd
    subst hdd
    exact ⟨rfl, min_le_right _ _⟩
  · intro hw
    have hgt : dvrWindowSize.gt (.num 0) = false := by
      rcases hw with rfl | ⟨w, rfl, hle⟩
      · rfl
      · simp [Num.gt, not_lt.mpr hle]
    simp only [hgt, Bool.false_eq_true, if_false] at h1 h2
    exact ⟨st, h1, h2⟩

/-- C17 for a user-configured live delay of 60 s and a DVR window of 30 s:
the call returns `min 60 (max 20 15) = 20`. -/
theorem liveDelay_capped_witness :
    chosenDelay State.init ⟨false, .num 60, none, false, none, .nan, none⟩ .nan .nan
      = some (.num 60) ∧
    ∃ st, computeAndSetLiveDelay State.init ⟨false, .num 60, none, false, none, .nan, none⟩
        .nan (.num 30) .nan = some (st, .num 20) ∧ getLiveDelay st = .num 20 := by
  have hd : chosenDelay State.init ⟨false, .num 60, none, false, none, .nan, none⟩ .nan .nan
      = some (.num 60) := by
    norm_num [chosenDelay, Num.truthy]
  have h := ((liveDelay_capped State.init ⟨false, .num 60, none, false, none, .nan, none⟩
    .nan (.num 30) .nan (.num 60) hd).1 30 rfl (by norm_num)).1
  have hmin : Num.min (.num 60) (.num (max ((30 : ℚ) - 10) (30 / 2))) = .num 20 := by
    norm_num [Num.min]
  rw [hmin] at h
  exact ⟨hd, h⟩

end PlaybackController

namespace PlaybackController

/-- C18 (as stated) fails: for the DVR window `(10, 100)` and current time
`0`, which trails the window start by 10 s (more than 0.25 s and less than
315360000 s), `getActualPresentationTime` returns `0`, not the window start:
the clamp to the window start is made for a positive current time only. -/
theorem presentationTime_zero_not_clamped :
    ¬ (∀ (s : State) (env : Env) (start end_ liveDelay t : ℚ),
        env.dvrWindow = some ⟨.num start, .num end_⟩ → s.liveDelay = .num liveDelay →
        getActualPresentationTime s env (.num t)
          = .num (if t > end_ then max (end_ - liveDelay) start
                  else if 0.25 < start - t ∧ start - t < 315360000 then start
                  else t)) := by
  intro h
  have h1 := h State.init
    ⟨⟨false, false, .num 0, .num 0, .num 0, none, false⟩, .nan, .nan, false, false, .num 0,
      .num 1, [], 0, 0, some ⟨.num 10, .num 100⟩⟩
    10 100 0 0 rfl rfl
  norm_num [getActualPresentationTime, Num.gt, Num.lt, Num.add, Num.sub, Num.abs] at h1

/-- C18 (amended): for every DVR window `(start, end)` and current time `t`,
`getActualPresentationTime(t)` returns `max(end − liveDelay, start)` if
`t > end`; returns `start` if `t > 0` and `t` trails `start` by more than
0.25 s and by less than 315360000 s; and returns `t` unchanged in every other
case, in particular for `t ≤ 0`. -/
theorem presentationTime_clamped (s : State) (env : Env) (start end_ liveDelay t : ℚ)
    (hw : env.dvrWindow = some ⟨.num start, .num end_⟩) (hl : s.liveDelay = .num liveDelay) :
    getActualPresentationTime s env (.num t)
      = .num (if t > end_ then max (end_ - liveDelay) start
              else if 0 < t ∧ 0.25 < start - t ∧ start - t < 315360000 then start
              else t) := by
  simp only [getActualPresentationTime, hw, hl, Num.gt, Num.lt, Num.add, Num.sub, Num.abs,
    Num.max, decide_eq_true_eq]
  by_cases h1 : t > end_
  · simp [h1]
  · simp only [h1, if_false]
    by_cases h2 : t + 0.250 < start
    · have habs : |t - start| = start - t := by
        rw [abs_of_neg (by linarith)]
        ring
      have h3 : (0.25 : ℚ) < start - t := by linarith
      simp only [h2, habs, h3, true_and]
      split_ifs <;> rfl
    · have h3 : ¬ (0.25 : ℚ) < start - t := by
        intro h
        apply h2
        linarith
      simp [h2, h3]

/-- The amended C18 for the window `(10, 100)`: the time 5 is clamped to the
window start 10. -/
theorem presentationTime_clamped_witness :
    getActualPresentationTime State.init
        ⟨⟨false, false, .num 0, .num 0, .num 0, none, false⟩, .nan, .nan, false, false, .num 0,
          .num 1, [], 0, 0, some ⟨.num 10, .num 100⟩⟩ (.num 5) = .num 10 := by
  have h := presentationTime_clamped State.init
    ⟨⟨false, false, .num 0, .num 0, .num 0, none, false⟩, .nan, .nan, false, false, .num 0,
      .num 1, [], 0, 0, some ⟨.num 10, .num 100⟩⟩
    10 100 0 5 rfl rfl
  rw [h]
  norm_num

end PlaybackController

/-! ## Theorems: MediaPlayerModel -/

namespace MediaPlayerModel

theorem findIndexFrom_none (n : String) (rules : List Rule) (i : Nat) :
    findIndexFrom (.str n) rules i = none ↔ ∀ r ∈ rules, r.rulename ≠ n := by
  induction rules generalizing i with
  | nil => simp [findIndexFrom]
  | cons r rest ih =>
    by_cases h : r.rulename = n
    · simp [findIndexFrom, h]
    · simp [findIndexFrom, h, ih]

theorem findIndexFrom_other (b : Bool) (rules : List Rule) (i : Nat) :
    findIndexFrom (.other b) rules i = none := by
  induction rules generalizing i with
  | nil => rfl
  | cons r rest ih => simp [findIndexFrom, ih]

/-- Where `findIndexFrom` finds the name, started at `i`: at `i + k` with the
first `k` rules of other names and the rule number `k` of that name. -/
theorem findIndexFrom_some (n : String) (rules : List Rule) (i j : Nat)
    (h : findIndexFrom (.str n) rules i = some j) :
    ∃ pre r post, rules = pre ++ r :: post ∧ r.rulename = n ∧ (∀ x ∈ pre, x.rulename ≠ n) ∧
      j = i + pre.length := by
  induction rules generalizing i with
  | nil => simp [findIndexFrom] at h
  | cons r rest ih =>
    by_cases hr : r.rulename = n
    · simp only [findIndexFrom, hr, if_true, Option.some.injEq] at h
      exact ⟨[], r, rest, rfl, hr, by simp, by simp [h]⟩
    · simp only [findIndexFrom, Value.str.injEq, hr, if_false] at h
      obtain ⟨pre, x, post, hrest, hx, hpre, hj⟩ := ih (i + 1) h
      refine ⟨r :: pre, x, post, by simp [hrest], hx, ?_, by simp [hj]; omega⟩
      intro y hy
      rcases List.mem_cons.mp hy with rfl | hy
      · exact hr
      · exact hpre y hy

theorem updateAt_append (t : String) (rule : Nat) (pre : List Rule) (r : Rule)
    (post : List Rule) :
    updateAt t rule (pre ++ r :: post) pre.length
      = pre ++ { r with type_ := t, rule := rule } :: post := by
  induction pre with
  | nil => rfl
  | cons x xs ih => simp [updateAt, ih]

theorem eraseIdx_append (pre : List Rule) (r : Rule) (post : List Rule) :
    (pre ++ r :: post).eraseIdx pre.length = pre ++ post := by
  induction pre with
  | nil => rfl
  | cons x xs ih => simp [List.eraseIdx, ih]

end MediaPlayerModel

namespace MediaPlayerModel

/-- Adding under a name not yet present appends one entry of that name. -/
theorem addABRCustomRule_fresh (types : RuleTypes) (rules : List Rule) (t n : String)
    (rule : Nat)
    (ht : t = types.ABANDON_FRAGMENT_RULES ∨ t = types.QUALITY_SWITCH_RULES)
    (hn : ∀ r ∈ rules, r.rulename ≠ n) :
    addABRCustomRule types rules (.str t) (.str n) rule = some (rules ++ [⟨t, n, rule⟩]) := by
  have hguard : ¬ (t ≠ types.ABANDON_FRAGMENT_RULES ∧ t ≠ types.QUALITY_SWITCH_RULES) := by
    rintro ⟨h1, h2⟩
    rcases ht with h | h
    · exact h1 h
    · exact h2 h
  have hfind : findABRCustomRuleIndex rules (.str n) = none :=
    (findIndexFrom_none n rules 0).mpr hn
  simp only [addABRCustomRule, hguard, if_false, hfind]

/-- Adding under a name that is present replaces the type and the rule of the
entry of that name and leaves every name where it is. -/
theorem addABRCustomRule_existing (types : RuleTypes) (rules : List Rule) (t n : String)
    (rule : Nat)
    (ht : t = types.ABANDON_FRAGMENT_RULES ∨ t = types.QUALITY_SWITCH_RULES)
    (hn : ∃ r ∈ rules, r.rulename = n) :
    ∃ pre r post, rules = pre ++ r :: post ∧ r.rulename = n ∧
      addABRCustomRule types rules (.str t) (.str n) rule
        = some (pre ++ ⟨t, n, rule⟩ :: post) := by
  have hguard : ¬ (t ≠ types.ABANDON_FRAGMENT_RULES ∧ t ≠ types.QUALITY_SWITCH_RULES) := by
    rintro ⟨h1, h2⟩
    rcases ht with h | h
    · exact h1 h
    · exact h2 h
  cases hfind : findABRCustomRuleIndex rules (.str n) with
  | none =>
    obtain ⟨r, hr, hrn⟩ := hn
    exact absurd hrn ((findIndexFrom_none n rules 0).mp hfind r hr)
  | some j =>
    obtain ⟨pre, r, post, hrules, hr, -, hj⟩ := findIndexFrom_some n rules 0 j hfind
    refine ⟨pre, r, post, hrules, hr, ?_⟩
    simp only [addABRCustomRule, hguard, if_false, hfind]
    have hj' : j = pre.length := by omega
    rw [hj', hrules, updateAt_append, ← hr]

/-- Anything but a string type that is one of the two rule types, with a string
name, is refused. -/
theorem addABRCustomRule_refused (types : RuleTypes) (rules : List Rule) (type_ rulename : Value)
    (rule : Nat)
    (h : ¬ ∃ t n, type_ = .str t ∧ rulename = .str n ∧
      (t = types.ABANDON_FRAGMENT_RULES ∨ t = types.QUALITY_SWITCH_RULES)) :
    addABRCustomRule types rules type_ rulename rule = none := by
  cases type_ with
  | other b => rfl
  | str t =>
    cases rulename with
    | other b => rfl
    | str n =>
      have hguard : t ≠ types.ABANDON_FRAGMENT_RULES ∧ t ≠ types.QUALITY_SWITCH_RULES := by
        constructor
        · intro h1
          exact h ⟨t, n, rfl, rfl, Or.inl h1⟩
        · intro h1
          exact h ⟨t, n, rfl, rfl, Or.inr h1⟩
      simp only [addABRCustomRule]
      rw [if_pos hguard]

/-- With unique names, removing a non-empty name leaves exactly the entries of
the other names. -/
theorem removeABRCustomRule_named (rules : List Rule) (n : String) (hne : n ≠ "")
    (hnodup : (rules.map fun r => r.rulename).Nodup) :
    removeABRCustomRule rules (.str n) = rules.filter fun r => decide (r.rulename ≠ n) := by
  have htruthy : (Value.str n).truthy = true := by simp [Value.truthy, hne]
  simp only [removeABRCustomRule, htruthy, if_true]
  cases hfind : findABRCustomRuleIndex rules (.str n) with
  | none =>
    have hall := (findIndexFrom_none n rules 0).mp hfind
    simp only []
    symm
    rw [List.filter_eq_self]
    intro r hr
    simp [hall r hr]
  | some j =>
    obtain ⟨pre, r, post, hrules, hr, hpre, hj⟩ := findIndexFrom_some n rules 0 j hfind
    have hj' : j = pre.length := by omega
    simp only []
    rw [hj', hrules, eraseIdx_append]
    rw [hrules] at hnodup
    simp only [List.map_append, List.map_cons] at hnodup
    have hpost : ∀ x ∈ post, x.rulename ≠ n := by
      intro x hx hxn
      have h1 := (List.nodup_append.mp hnodup).2.1
      have h2 := (List.nodup_cons.mp h1).1
      apply h2
      rw [hr, ← hxn]
      exact List.mem_map_of_mem _ hx
    rw [List.filter_append, List.filter_cons]
    have e1 : pre.filter (fun r => !decide (r.rulename = n)) = pre := by
      rw [List.filter_eq_self]
      intro x hx
      simp [hpre x hx]
    have e2 : post.filter (fun r => !decide (r.rulename = n)) = post := by
      rw [List.filter_eq_self]
      intro x hx
      simp [hpost x hx]
    simp [e1, e2, hr]

theorem step_names_nodup (types : RuleTypes) (rules : List Rule) (c : Call)
    (h : (rules.map fun r => r.rulename).Nodup) :
    ((step types rules c).map fun r => r.rulename).Nodup := by
  cases c with
  | add type_ rulename rule =>
    simp only [step]
    by_cases hv : ∃ t n, type_ = .str t ∧ rulename = .str n ∧
        (t = types.ABANDON_FRAGMENT_RULES ∨ t = types.QUALITY_SWITCH_RULES)
    · obtain ⟨t, n, rfl, rfl, ht⟩ := hv
      by_cases hn : ∃ r ∈ rules, r.rulename = n
      · obtain ⟨pre, r, post, hrules, hr, hadd⟩ :=
          addABRCustomRule_existing types rules t n rule ht hn
        rw [hadd]
        simp only [Option.getD_some]
        rw [hrules] at h
        simpa [hr] using h
      · have hn' : ∀ r ∈ rules, r.rulename ≠ n := by
          intro r hr hrn
          exact hn ⟨r, hr, hrn⟩
        rw [addABRCustomRule_fresh types rules t n rule ht hn']
        simp only [Option.getD_some, List.map_append, List.map_cons, List.map_nil]
        rw [List.nodup_append]
        refine ⟨h, by simp, ?_⟩
        intro a ha hb
        simp only [List.mem_singleton] at hb
        subst hb
        obtain ⟨r, hr, hra⟩ := List.mem_map.mp ha
        exact hn' r hr hra
    · rw [addABRCustomRule_refused types rules type_ rulename rule hv]
      exact h
  | remove rulename =>
    simp only [step, removeABRCustomRule]
    split_ifs
    · cases hfind : findABRCustomRuleIndex rules rulename with
      | none => exact h
      | some j =>
        simp only []
        exact List.Nodup.sublist (List.Sublist.map _ (List.eraseIdx_sublist rules j)) h
    · simp

/-- Rule names stay unique through every sequence of calls. -/
theorem foldl_names_nodup (types : RuleTypes) (calls : List Call) (rules : List Rule)
    (h : (rules.map fun r => r.rulename).Nodup) :
    ((calls.foldl (step types) rules).map fun r => r.rulename).Nodup := by
  induction calls generalizing rules with
  | nil => exact h
  | cons c cs ih => exact ih _ (step_names_nodup types rules c h)

end MediaPlayerModel

namespace MediaPlayerModel

/-- C20 (as stated) fails: `addABRCustomRule` checks the rule type first.
With the rule types `abandonFragmentRules` and `qualitySwitchRules`, adding
type `custom` under the name `testRule` to the empty list (the call of the
unit test) throws `BAD_ARGUMENT_ERROR` and the list stays empty; and whatever
the two rule types are, some type is refused. -/
theorem addABRCustomRule_type_refused :
    ¬ (∀ (types : RuleTypes) (rules : List Rule) (t n : String) (rule : Nat),
        (∀ r ∈ rules, r.rulename ≠ n) →
        ∃ rules', addABRCustomRule types rules (.str t) (.str n) rule = some rules' ∧
          (getABRCustomRules rules').length = (getABRCustomRules rules).length + 1) ∧
    (∀ types : RuleTypes, ∃ t : String,
      addABRCustomRule types [] (.str t) (.str "testRule") 0 = none) := by
  refine ⟨?_, ?_⟩
  · intro h
    obtain ⟨rules', h1, -⟩ := h ⟨"abandonFragmentRules", "qualitySwitchRules"⟩ [] "custom"
      "testRule" 0 (by simp)
    have hguard : ("custom" : String) ≠ "abandonFragmentRules" ∧
        ("custom" : String) ≠ "qualitySwitchRules" := by decide
    simp only [addABRCustomRule] at h1
    rw [if_pos hguard] at h1
    cases h1
  · intro types
    have hab : ("a" : String) ≠ "b" := by decide
    have hac : ("a" : String) ≠ "c" := by decide
    have hbc : ("b" : String) ≠ "c" := by decide
    by_cases ha : ("a" : String) ≠ types.ABANDON_FRAGMENT_RULES ∧
        ("a" : String) ≠ types.QUALITY_SWITCH_RULES
    · refine ⟨"a", ?_⟩
      simp only [addABRCustomRule]
      rw [if_pos ha]
    by_cases hb : ("b" : String) ≠ types.ABANDON_FRAGMENT_RULES ∧
        ("b" : String) ≠ types.QUALITY_SWITCH_RULES
    · refine ⟨"b", ?_⟩
      simp only [addABRCustomRule]
      rw [if_pos hb]
    have hc : ("c" : String) ≠ types.ABANDON_FRAGMENT_RULES ∧
        ("c" : String) ≠ types.QUALITY_SWITCH_RULES := by
      constructor
      · intro h
        apply ha
        constructor
        · intro h'
          exact hac (h'.trans h.symm)
        · intro h'
          apply hb
          constructor
          · intro h''
            exact hbc (h''.trans h.symm)
          · intro h''
            exact hab (h'.trans h''.symm)
      · intro h
        apply ha
        constructor
        · intro h'
          apply hb
          constructor
          · intro h''
            exact hab (h'.trans h''.symm)
          · intro h''
            exact hbc (h''.trans h.symm)
        · intro h'
          exact hac (h'.trans h.symm)
    refine ⟨"c", ?_⟩
    simp only [addABRCustomRule]
    rw [if_pos hc]

/-- C20 (amended): in the list `customABRRule` reached by any sequence of
calls, rule names are unique, and
* adding a rule whose type is one of the two ABR rule types, under a string
  name not yet present, grows the list returned by `getABRCustomRules` by
  exactly one entry, carrying that name, at its end;
* adding such a rule under a name that is present changes no length and no
  name: the type and the rule of the entry of that name are replaced;
* adding with any other type, or with a type or name that is not a string,
  throws and changes nothing;
* `removeABRCustomRule(name)` with a non-empty name removes exactly the entry
  of that name, and removal without a name (any falsy value, the empty string
  included) empties the list. -/
theorem customABRRules_managed (types : RuleTypes) (calls : List Call) :
    ((getABRCustomRules (run types calls)).map fun r => r.rulename).Nodup ∧
    (∀ (t n : String) (rule : Nat),
      (t = types.ABANDON_FRAGMENT_RULES ∨ t = types.QUALITY_SWITCH_RULES) →
      (∀ r ∈ run types calls, r.rulename ≠ n) →
      getABRCustomRules (step types (run types calls) (.add (.str t) (.str n) rule))
          = getABRCustomRules (run types calls) ++ [⟨t, n, rule⟩] ∧
        (getABRCustomRules (step types (run types calls) (.add (.str t) (.str n) rule))).length
          = (getABRCustomRules (run types calls)).length + 1) ∧
    (∀ (t n : String) (rule : Nat),
      (t = types.ABANDON_FRAGMENT_RULES ∨ t = types.QUALITY_SWITCH_RULES) →
      (∃ r ∈ run types calls, r.rulename = n) →
      (getABRCustomRules (step types (run types calls) (.add (.str t) (.str n) rule))).length
          = (getABRCustomRules (run types calls)).length ∧
        (getABRCustomRules (step types (run types calls) (.add (.str t) (.str n) rule))).map
            (fun r => r.rulename)
          = (getABRCustomRules (run types calls)).map (fun r => r.rulename) ∧
        ⟨t, n, rule⟩ ∈ getABRCustomRules
          (step types (run types calls) (.add (.str t) (.str n) rule))) ∧
    (∀ (type_ rulename : Value) (rule : Nat),
      (¬ ∃ t n, type_ = .str t ∧ rulename = .str n ∧
        (t = types.ABANDON_FRAGMENT_RULES ∨ t = types.QUALITY_SWITCH_RULES)) →
      addABRCustomRule types (run types calls) type_ rulename rule = none ∧
        step types (run types calls) (.add type_ rulename rule) = run types calls) ∧
    (∀ n : String, n ≠ "" →
      getABRCustomRules (step types (run types calls) (.remove (.str n)))
        = (getABRCustomRules (run types calls)).filter fun r => decide (r.rulename ≠ n)) ∧
    (∀ v : Value, v.truthy = false →
      getABRCustomRules (step types (run types calls) (.remove v)) = []) := by
  have hnodup : ((run types calls).map fun r => r.rulename).Nodup :=
    foldl_names_nodup types calls [] (by simp)
  refine ⟨hnodup, ?_, ?_, ?_, ?_, ?_⟩
  · intro t n rule ht hn
    simp only [getABRCustomRules, step, addABRCustomRule_fresh types _ t n rule ht hn,
      Option.getD_some, List.length_append, List.length_singleton, and_self]
  · intro t n rule ht hn
    obtain ⟨pre, r, post, hrules, hr, hadd⟩ :=
      addABRCustomRule_existing types _ t n rule ht hn
    simp only [getABRCustomRules, step, hadd, Option.getD_some]
    rw [hrules]
    simp [hr]
  · intro type_ rulename rule h
    have := addABRCustomRule_refused types (run types calls) type_ rulename rule h
    simp [step, this]
  · intro n hne
    simp only [getABRCustomRules, step]
    exact removeABRCustomRule_named _ n hne hnodup
  · intro v hv
    simp [getABRCustomRules, step, removeABRCustomRule, hv]

/-- The amended C20 on the calls of the unit test, made with the rule type
`qualitySwitchRules`: three rules are added, `testRule` is removed and two
remain; removal without a name leaves none. -/
theorem customABRRules_managed_witness :
    (getABRCustomRules (step ⟨"abandonFragmentRules", "qualitySwitchRules"⟩
        (run ⟨"abandonFragmentRules", "qualitySwitchRules"⟩
          [.add (.str "qualitySwitchRules") (.str "testRule") 0,
           .add (.str "qualitySwitchRules") (.str "testRule2") 1,
           .add (.str "qualitySwitchRules") (.str "testRule3") 2])
        (.remove (.str "testRule")))).length = 2 ∧
    getABRCustomRules (step ⟨"abandonFragmentRules", "qualitySwitchRules"⟩
        (run ⟨"abandonFragmentRules", "qualitySwitchRules"⟩
          [.add (.str "qualitySwitchRules") (.str "testRule") 0,
           .add (.str "qualitySwitchRules") (.str "testRule2") 1,
           .add (.str "qualitySwitchRules") (.str "testRule3") 2])
        (.remove (.other false))) = [] := by
  have h := customABRRules_managed ⟨"abandonFragmentRules", "qualitySwitchRules"⟩
    [.add (.str "qualitySwitchRules") (.str "testRule") 0,
     .add (.str "qualitySwitchRules") (.str "testRule2") 1,
     .add (.str "qualitySwitchRules") (.str "testRule3") 2]
  refine ⟨?_, h.2.2.2.2.2 (.other false) rfl⟩
  rw [h.2.2.2.2.1 "testRule" (by decide)]
  decide

end MediaPlayerModel

/-! ## Theorems: the UTC timing sources -/

namespace MediaPlayerModel

/-- On a list without repetition, keeping the entries other than `x` is
erasing `x`. -/
theorem filter_ne_eq_erase (l : List UTCTiming) (x : UTCTiming) (hnd : l.Nodup) :
    l.filter (fun e => decide (e ≠ x)) = l.erase x := by
  rw [List.Nodup.erase_eq_filter hnd]
  congr 1
  funext e
  by_cases h : e = x <;> simp [h]

/-- On a list without repetition, with no match among the entries already
visited, the `forEach` of `removeUTCTimingSource` leaves the entries other
than `(schemeIdUri, value)`, in their order. -/
theorem removeLoop_filter (s v : String) :
    ∀ (n k : Nat) (arr : List UTCTiming), arr.Nodup → arr.length ≤ k + n →
      (⟨s, v⟩ : UTCTiming) ∉ arr.take k →
      removeLoop s v n k arr = arr.filter (fun e => decide (e ≠ ⟨s, v⟩)) := by
  intro n
  induction n with
  | zero =>
    intro k arr _ hlen hnot
    rw [List.take_of_length_le (by omega)] at hnot
    simp only [removeLoop]
    symm
    rw [List.filter_eq_self]
    intro a ha
    simp only [ne_eq, decide_not, Bool.not_eq_true', decide_eq_false_iff_not]
    intro h
    exact hnot (h ▸ ha)
  | succ n ih =>
    intro k arr hnd hlen hnot
    simp only [removeLoop]
    cases hk : arr[k]? with
    | none =>
      have hle : arr.length ≤ k := List.getElem?_eq_none_iff.mp hk
      simp only []
      refine ih (k + 1) arr hnd (by omega) ?_
      rw [List.take_of_length_le (by omega)]
      rw [List.take_of_length_le hle] at hnot
      exact hnot
    | some obj =>
      have hlt : k < arr.length := by
        by_contra hc
        rw [List.getElem?_eq_none_iff.mpr (by omega)] at hk
        cases hk
      have hobj : arr[k] = obj := by
        rw [List.getElem?_eq_getElem hlt] at hk
        exact Option.some.inj hk
      simp only []
      split_ifs with hm
      · have hx : obj = ⟨s, v⟩ := by
          cases obj
          simp only [UTCTiming.mk.injEq]
          exact hm
        have herase : arr.eraseIdx k = arr.erase ⟨s, v⟩ := by
          rw [← hx, ← hobj]
          exact (List.Nodup.erase_getElem hnd k hlt).symm
        have hfil : arr.filter (fun e => decide (e ≠ ⟨s, v⟩)) = arr.erase ⟨s, v⟩ :=
          filter_ne_eq_erase arr _ hnd
        have hnotin : (⟨s, v⟩ : UTCTiming) ∉ arr.erase ⟨s, v⟩ := hnd.not_mem_erase
        rw [ih (k + 1) (arr.eraseIdx k) (List.Nodup.sublist (List.eraseIdx_sublist _ _) hnd)
          (by rw [List.length_eraseIdx]; split_ifs; omega)
          (by
            rw [herase]
            intro h
            exact hnotin (List.mem_of_mem_take h))]
        rw [hfil, herase]
        rw [List.filter_eq_self]
        intro a ha
        simp only [ne_eq, decide_not, Bool.not_eq_true', decide_eq_false_iff_not]
        intro h
        exact hnotin (h ▸ ha)
      · refine ih (k + 1) arr hnd (by omega) ?_
        rw [List.take_succ, hk]
        simp only [Option.toList, List.mem_append, List.mem_singleton, not_or]
        refine ⟨hnot, ?_⟩
        intro h
        apply hm
        rw [← h]
        exact ⟨rfl, rfl⟩

/-- On a list without repetition `removeUTCTimingSource` is the filter. -/
theorem removeUTCTimingSource_filter (sources : List UTCTiming) (s v : String)
    (hnd : sources.Nodup) :
    removeUTCTimingSource sources s v = sources.filter (fun e => decide (e ≠ ⟨s, v⟩)) :=
  removeLoop_filter s v sources.length 0 sources hnd (by omega) (by simp)

/-- Adding keeps the list without repetition. -/
theorem addUTCTimingSource_nodup (sources : List UTCTiming) (s v : String)
    (hnd : sources.Nodup) : (addUTCTimingSource sources s v).Nodup := by
  unfold addUTCTimingSource
  rw [removeUTCTimingSource_filter sources s v hnd]
  rw [List.nodup_append]
  refine ⟨hnd.filter _, List.nodup_singleton _, ?_⟩
  intro a ha hb
  rw [List.mem_singleton] at hb
  subst hb
  simp at ha

/-- Every call keeps the list without repetition. -/
theorem stepUTC_nodup (d : UTCTiming) (sources : List UTCTiming) (c : UTCCall)
    (hnd : sources.Nodup) : (stepUTC d sources c).Nodup := by
  cases c with
  | add s v => exact addUTCTimingSource_nodup sources s v hnd
  | remove s v =>
    show (removeUTCTimingSource sources s v).Nodup
    rw [removeUTCTimingSource_filter sources s v hnd]
    exact hnd.filter _
  | clear => exact List.nodup_nil
  | restore => exact addUTCTimingSource_nodup sources _ _ hnd

theorem foldl_stepUTC_nodup (d : UTCTiming) (calls : List UTCCall) :
    ∀ sources : List UTCTiming, sources.Nodup → (calls.foldl (stepUTC d) sources).Nodup := by
  induction calls with
  | nil => intro sources h; exact h
  | cons c cs ih =>
    intro sources h
    exact ih _ (stepUTC_nodup d sources c h)

/-- C21: in the list of UTC timing sources reached by any sequence of
`addUTCTimingSource`, `removeUTCTimingSource`, `clearDefaultUTCTimingSources`
and `restoreDefaultUTCTimingSources`, no two entries have the same
`(schemeIdUri, value)`; adding a pair that is absent grows the list by one,
adding a pair that is present leaves its length unchanged, and
`removeUTCTimingSource(s, v)` leaves exactly the entries other than `(s, v)`,
in their order. -/
theorem utcTimingSources_managed (d : UTCTiming) (calls : List UTCCall) (s v : String) :
    (getUTCTimingSources (runUTC d calls)).Nodup ∧
    ((⟨s, v⟩ : UTCTiming) ∉ runUTC d calls →
      (getUTCTimingSources (stepUTC d (runUTC d calls) (.add s v))).length
        = (getUTCTimingSources (runUTC d calls)).length + 1) ∧
    ((⟨s, v⟩ : UTCTiming) ∈ runUTC d calls →
      (getUTCTimingSources (stepUTC d (runUTC d calls) (.add s v))).length
        = (getUTCTimingSources (runUTC d calls)).length) ∧
    (⟨s, v⟩ : UTCTiming) ∈ getUTCTimingSources (stepUTC d (runUTC d calls) (.add s v)) ∧
    (⟨s, v⟩ : UTCTiming) ∉ getUTCTimingSources (stepUTC d (runUTC d calls) (.remove s v)) ∧
    getUTCTimingSources (stepUTC d (runUTC d calls) (.remove s v))
      = (getUTCTimingSources (runUTC d calls)).filter (fun e => decide (e ≠ ⟨s, v⟩)) := by
  have hnd : (runUTC d calls).Nodup := foldl_stepUTC_nodup d calls [] List.nodup_nil
  have hrem := removeUTCTimingSource_filter (runUTC d calls) s v hnd
  simp only [getUTCTimingSources, stepUTC, addUTCTimingSource, hrem, List.length_append,
    List.length_singleton]
  refine ⟨hnd, ?_, ?_, by simp, by simp, trivial⟩
  · intro hnot
    rw [List.filter_eq_self.mpr]
    intro a ha
    simp only [ne_eq, decide_not, Bool.not_eq_true', decide_eq_false_iff_not]
    intro h
    exact hnot (h ▸ ha)
  · intro hmem
    rw [filter_ne_eq_erase _ _ hnd, List.length_erase_of_mem hmem]
    have hpos : 0 < (runUTC d calls).length := List.length_pos_of_mem hmem
    omega

/-- C21 on the calls of the unit test: two sources are added, one is removed
and one remains; adding the remaining one again leaves one. -/
theorem utcTimingSources_managed_witness :
    (getUTCTimingSources (stepUTC ⟨"urn:mpeg:dash:utc:http-xsdate:2014", "http://time.example"⟩
        (runUTC ⟨"urn:mpeg:dash:utc:http-xsdate:2014", "http://time.example"⟩
          [.clear, .add "urn:mpeg:dash:utc:http-head:2014" "http://time.akamai.com",
           .add "urn:mpeg:dash:utc:http-iso:2014" "http://time.akamai.com/?iso"])
        (.remove "urn:mpeg:dash:utc:http-head:2014" "http://time.akamai.com"))).length = 1 ∧
    (getUTCTimingSources (stepUTC ⟨"urn:mpeg:dash:utc:http-xsdate:2014", "http://time.example"⟩
        (runUTC ⟨"urn:mpeg:dash:utc:http-xsdate:2014", "http://time.example"⟩
          [.clear, .add "urn:mpeg:dash:utc:http-head:2014" "http://time.akamai.com",
           .add "urn:mpeg:dash:utc:http-iso:2014" "http://time.akamai.com/?iso"])
        (.add "urn:mpeg:dash:utc:http-head:2014" "http://time.akamai.com"))).length
      = (getUTCTimingSources
          (runUTC ⟨"urn:mpeg:dash:utc:http-xsdate:2014", "http://time.example"⟩
            [.clear, .add "urn:mpeg:dash:utc:http-head:2014" "http://time.akamai.com",
             .add "urn:mpeg:dash:utc:http-iso:2014" "http://time.akamai.com/?iso"])).length := by
  have h := utcTimingSources_managed
    ⟨"urn:mpeg:dash:utc:http-xsdate:2014", "http://time.example"⟩
    [.clear, .add "urn:mpeg:dash:utc:http-head:2014" "http://time.akamai.com",
     .add "urn:mpeg:dash:utc:http-iso:2014" "http://time.akamai.com/?iso"]
    "urn:mpeg:dash:utc:http-head:2014" "http://time.akamai.com"
  refine ⟨?_, h.2.2.1 (by decide)⟩
  rw [h.2.2.2.2.2]
  decide

end MediaPlayerModel

/-! ## Theorems: PlaybackController, start time, catch-up rates and live delay -/

namespace PlaybackController

/-- C22 (as stated) fails: for a dynamic stream without seek time, with the
live start time 100, the URI time 80, the DVR window start 10 and the
presentation duration 50 (an ended live stream), the start time is the window
start 10, not `max(min(100, 80), 10) = 80`. -/
theorem streamStartTime_ended_livestream :
    ¬ (∀ (x : StreamStart) (L u ws : ℚ) (we : Num),
        x.streamSwitch = false → x.streamSeekTime = .nan → x.isDynamic = true →
        x.dvrWindow = some ⟨.num ws, we⟩ → x.liveStartTime = .num L →
        x.startTimeFromUri = .num u →
        streamStartTime x = some (.num (max (min L u) ws))) := by
  intro h
  have h1 := h ⟨false, .nan, true, .num 100, some ⟨.num 10, .num 120⟩, .num 80, .num 50,
    .num 0, .num 0⟩ 100 80 10 (.num 120) rfl rfl rfl rfl rfl rfl
  norm_num [streamStartTime, Num.isNaN, Num.max, Num.min, Num.truthy, Num.lt] at h1

/-- C22 (amended): an explicit seek time is the start time, whatever the URI
time; a period switch without seek time sets no start time.  Otherwise, with a
URI time `u`: for a dynamic stream with a DVR window the start time is
`max(min(liveStartTime, u), window start)`, unless the presentation duration
is set and below that value, in which case it is the window start; for a
static stream it is `max(period start, u)` when `u < period start + duration`
and the period start otherwise, which for a positive period duration lies in
`[period start, period start + duration)`. -/
theorem streamStartTime_clamped (sw dyn : Bool) (t L u ws ps d : ℚ) (we live uri dur pd : Num)
    (w : Option DVRWindow) (hd : 0 < d) :
    streamStartTime ⟨sw, .num t, dyn, live, w, uri, dur, .num ps, pd⟩ = some (.num t) ∧
    streamStartTime ⟨true, .nan, dyn, live, w, uri, dur, .num ps, pd⟩ = none ∧
    streamStartTime ⟨false, .nan, true, .num L, some ⟨.num ws, we⟩, .num u, dur, .num ps, pd⟩
      = some (.num (if dur.truthy ∧ dur.lt (.num (max (min L u) ws)) then ws
                    else max (min L u) ws)) ∧
    streamStartTime ⟨false, .nan, false, live, w, .num u, dur, .num ps, .num d⟩
      = some (.num (if u < ps + d then max ps u else ps)) ∧
    ps ≤ (if u < ps + d then max ps u else ps) ∧
    (if u < ps + d then max ps u else ps) < ps + d := by
  refine ⟨?_, ?_, ?_, ?_, ?_, ?_⟩
  · simp [streamStartTime, Num.isNaN]
  · simp [streamStartTime, Num.isNaN]
  · simp only [streamStartTime, Num.isNaN, Num.max, Num.min]
    simp only [Bool.false_eq_true, false_and, if_false, if_true, not_false_eq_true]
    split_ifs <;> rfl
  · simp only [streamStartTime, Num.isNaN, Num.max, Num.lt, Num.add, decide_eq_true_eq]
    simp only [Bool.false_eq_true, false_and, if_false, if_true, not_false_eq_true, true_and]
    split_ifs <;> rfl
  · split_ifs
    · exact le_max_left _ _
    · exact le_refl _
  · split_ifs with h
    · exact max_lt (by linarith) h
    · linarith

/-- The amended C22 at concrete inputs: seek time 5; live start 100, URI
time 80, window start 10; period start 20 of duration 30. -/
theorem streamStartTime_clamped_witness :
    streamStartTime ⟨false, .num 5, true, .num 100, some ⟨.num 10, .num 120⟩, .num 80, .nan,
        .num 20, .num 30⟩ = some (.num 5) ∧
    streamStartTime ⟨true, .nan, true, .num 100, some ⟨.num 10, .num 120⟩, .num 80, .nan,
        .num 20, .num 30⟩ = none ∧
    streamStartTime ⟨false, .nan, true, .num 100, some ⟨.num 10, .num 120⟩, .num 80, .nan,
        .num 20, .num 30⟩
      = some (.num (if Num.nan.truthy ∧ Num.nan.lt (.num (max (min 100 80) 10)) then 10
                    else max (min 100 80) 10)) ∧
    streamStartTime ⟨false, .nan, false, .num 100, some ⟨.num 10, .num 120⟩, .num 80, .nan,
        .num 20, .num 30⟩
      = some (.num (if (80 : ℚ) < 20 + 30 then max 20 80 else 20)) ∧
    (20 : ℚ) ≤ (if (80 : ℚ) < 20 + 30 then max 20 80 else 20) ∧
    (if (80 : ℚ) < 20 + 30 then max 20 80 else 20) < (20 : ℚ) + 30 :=
  streamStartTime_clamped false true 5 100 80 10 20 30 (.num 120) (.num 100) (.num 80) .nan
    (.num 30) (some ⟨.num 10, .num 120⟩) (by norm_num)

end PlaybackController

namespace PlaybackController

/-- The result of `_calculateNewPlaybackRateDefault` in terms of the rate it
computed: no rate when that is within `minPlaybackRateChange` of the current
rate, the computed rate otherwise. -/
theorem calculateDefault_newRate (pow : ℚ → ℚ) (playbackStalled : Bool)
    (minPlaybackRateChange cpr lat ld b cur : Num) :
    (_calculateNewPlaybackRateDefault pow playbackStalled minPlaybackRateChange cpr lat ld b
        cur).newRate
      = if ((cur.sub (computedRateDefault pow playbackStalled cpr lat ld b)).abs).le
            minPlaybackRateChange then none
        else some (computedRateDefault pow playbackStalled cpr lat ld b) := by
  unfold _calculateNewPlaybackRateDefault computedRateDefault
  simp only []
  split_ifs <;> rfl

/-- The result of `_calculateNewPlaybackRateLolP` in terms of the rate it
computed. -/
theorem calculateLolP_newRate (pow : ℚ → ℚ) (playbackStalled : Bool)
    (minPlaybackRateChange cpr lat ld minDrift m b cur : Num) :
    (_calculateNewPlaybackRateLolP pow playbackStalled minPlaybackRateChange cpr lat ld minDrift
        m b cur).newRate
      = if ((cur.sub (computedRateLolP pow cpr lat ld m b)).abs).le minPlaybackRateChange
        then none
        else some (computedRateLolP pow cpr lat ld m b) := by
  unfold _calculateNewPlaybackRateLolP computedRateLolP
  simp only []
  split_ifs <;> rfl

/-- The sigmoid as the code computes it is the sigmoid of the specification. -/
theorem sigmoid_code (pow : ℚ → ℚ) (cpr x y : ℚ) :
    ((Num.num 1).sub (.num cpr)).add
        (((Num.num cpr).mul (.num 2)).div
          ((Num.num 1).add (Num.exp pow (((Num.num x).sub (.num y)).mul (.num 5)).neg)))
      = .num (sigmoidRate pow cpr (x - y)) := by
  simp only [Num.sub, Num.mul, Num.neg, Num.exp, Num.add, Num.div, sigmoidRate, Num.num.injEq]
  rw [mul_comm (x - y) 5, mul_comm cpr 2]

/-- The rate computed by the buffer-aware policy, by cases. -/
theorem computedRateLolP_num (pow : ℚ → ℚ) (cpr lat ld m b : ℚ) :
    computedRateLolP pow (.num cpr) (.num lat) (.num ld) (.num m) (.num b)
      = .num (if b < m then sigmoidRate pow cpr (b - m)
              else if |lat - ld| ≤ 0.02 * ld then 1
              else sigmoidRate pow cpr (lat - ld)) := by
  unfold computedRateLolP
  simp only [sigmoid_code]
  simp only [Num.lt, Num.le, Num.sub, Num.abs, Num.mul, decide_eq_true_eq]
  split_ifs <;> rfl

/-- C23: under the buffer-aware policy with numeric arguments, the rate
computed is `sigmoidRate cpr (b − m)`, from the buffer deficit alone, when the
buffer level `b` is below `playbackBufferMin` `m`, and that value is strictly
below 1 for `cpr > 0`; when `b ≥ m` it is exactly 1 if
`|currentLatency − liveDelay| ≤ 0.02 × liveDelay` and `sigmoidRate cpr
(currentLatency − liveDelay)` otherwise.  The policy returns the computed rate
unless it is within `minPlaybackRateChange` of the current rate.  `pow` stands
for `Math.pow(Math.E, ·)`, which exceeds 1 at positive arguments. -/
theorem lolp_rate_formula (pow : ℚ → ℚ) (hpow : ∀ x, 0 < x → 1 < pow x)
    (playbackStalled : Bool) (step cpr lat ld minDrift m b cur : ℚ) :
    (_calculateNewPlaybackRateLolP pow playbackStalled (.num step) (.num cpr) (.num lat)
        (.num ld) (.num minDrift) (.num m) (.num b) (.num cur)).newRate
      = (if |cur - (if b < m then sigmoidRate pow cpr (b - m)
                    else if |lat - ld| ≤ 0.02 * ld then 1
                    else sigmoidRate pow cpr (lat - ld))| ≤ step then none
         else some (.num (if b < m then sigmoidRate pow cpr (b - m)
                          else if |lat - ld| ≤ 0.02 * ld then 1
                          else sigmoidRate pow cpr (lat - ld)))) ∧
    (b < m → 0 < cpr → sigmoidRate pow cpr (b - m) < 1) := by
  constructor
  · rw [calculateLolP_newRate, computedRateLolP_num]
    simp only [Num.sub, Num.abs, Num.le, decide_eq_true_eq]
  · intro hb hcpr
    have hx : 0 < -(5 * (b - m)) := by linarith
    have hp := hpow _ hx
    unfold sigmoidRate
    have hden : (0 : ℚ) < 1 + pow (-(5 * (b - m))) := by linarith
    have hlt : 2 * cpr / (1 + pow (-(5 * (b - m)))) < cpr := by
      rw [div_lt_iff₀ hden]
      nlinarith
    linarith

/-- C23 at a concrete input: catch-up rate 0.5, buffer level 0.2 below
`playbackBufferMin` 0.5, with a function that exceeds 1 at positive
arguments in the place of the exponential. -/
theorem lolp_rate_formula_witness :
    ((_calculateNewPlaybackRateLolP (fun x => if x ≤ 0 then 1 / (1 - x) else 1 + x) false
        (.num 0.02) (.num 0.5) (.num 3) (.num 3) (.num 0.05) (.num 0.5) (.num 0.2)
        (.num 1)).newRate
      = (if |(1 : ℚ) - (if (0.2 : ℚ) < 0.5 then
              sigmoidRate (fun x => if x ≤ 0 then 1 / (1 - x) else 1 + x) 0.5 (0.2 - 0.5)
            else if |(3 : ℚ) - 3| ≤ 0.02 * 3 then 1
            else sigmoidRate (fun x => if x ≤ 0 then 1 / (1 - x) else 1 + x) 0.5 (3 - 3))|
            ≤ 0.02 then none
         else some (.num (if (0.2 : ℚ) < 0.5 then
              sigmoidRate (fun x => if x ≤ 0 then 1 / (1 - x) else 1 + x) 0.5 (0.2 - 0.5)
            else if |(3 : ℚ) - 3| ≤ 0.02 * 3 then 1
            else sigmoidRate (fun x => if x ≤ 0 then 1 / (1 - x) else 1 + x) 0.5 (3 - 3))))) ∧
    ((0.2 : ℚ) < 0.5 → (0 : ℚ) < 0.5 →
      sigmoidRate (fun x => if x ≤ 0 then 1 / (1 - x) else 1 + x) 0.5 (0.2 - 0.5) < 1) :=
  lolp_rate_formula (fun x => if x ≤ 0 then 1 / (1 - x) else 1 + x)
    (by
      intro x hx
      show (1 : ℚ) < if x ≤ 0 then 1 / (1 - x) else 1 + x
      rw [if_neg (not_le.mpr hx)]
      linarith)
    false 0.02 0.5 3 3 0.05 0.5 0.2 1

end PlaybackController

namespace PlaybackController

/-- The `newRate` that `startPlaybackCatchUp` obtains from the policy in
force, in terms of the rate computed. -/
theorem policy_newRate (pow : ℚ → ℚ) (s : State) (env : Env) :
    (if catchupModeIsLoLP env then
        _calculateNewPlaybackRateLolP pow s.playbackStalled s.minPlaybackRateChange
          env.settings.playbackRate (getCurrentLiveLatency s env) env.liveDelay
          env.settings.minDrift (playbackBufferMin env) (getBufferLevel env) env.playbackRate
      else
        _calculateNewPlaybackRateDefault pow s.playbackStalled s.minPlaybackRateChange
          env.settings.playbackRate (getCurrentLiveLatency s env) env.liveDelay
          (getBufferLevel env) env.playbackRate).newRate
      = if ((env.playbackRate.sub (computedRate pow s env)).abs).le s.minPlaybackRateChange
        then none
        else some (computedRate pow s env) := by
  unfold computedRate
  by_cases hm : catchupModeIsLoLP env = true
  · simp only [hm, if_true]
    exact calculateLolP_newRate _ _ _ _ _ _ _ _ _ _
  · simp only [hm, if_false]
    exact calculateDefault_newRate _ _ _ _ _ _ _ _

/-- No seek sets the playback rate. -/
theorem seekToLive_no_setRate (s : State) (env : Env) (r : Num) :
    Effect.setPlaybackRate r ∉ (seekToLive s env).out := by
  unfold seekToLive
  cases env.dvrWindow with
  | none => simp
  | some w =>
    simp only [seek]
    split_ifs <;> simp

/-- The effects of applying a policy result (lines 772-775). -/
theorem mem_rate_effects (newRate : Option Num) (r : Num)
    (h : Effect.setPlaybackRate r ∈
      (match newRate with
       | some n => if n.truthy then [Effect.setPlaybackRate n] else []
       | none => [])) :
    newRate = some r ∧ r.truthy = true := by
  cases newRate with
  | none => simp at h
  | some n =>
    simp only [] at h
    split_ifs at h with ht
    · have hr : r = n := by simpa using h
      subst hr
      exact ⟨rfl, ht⟩
    · simp at h

/-- A playback rate set by `startPlaybackCatchUp` is the rate computed by the
policy in force; it is truthy and not within `minPlaybackRateChange` of the
current rate. -/
theorem startPlaybackCatchUp_setRate (pow : ℚ → ℚ) (s : State) (env : Env) (r : Num)
    (h : Effect.setPlaybackRate r ∈ (startPlaybackCatchUp pow s env).out) :
    r = computedRate pow s env ∧ r.truthy = true ∧
      ((env.playbackRate.sub r).abs).le s.minPlaybackRateChange = false := by
  have hn := policy_newRate pow s env
  unfold startPlaybackCatchUp at h
  simp only [] at h
  generalize (if catchupModeIsLoLP env then
        _calculateNewPlaybackRateLolP pow s.playbackStalled s.minPlaybackRateChange
          env.settings.playbackRate (getCurrentLiveLatency s env) env.liveDelay
          env.settings.minDrift (playbackBufferMin env) (getBufferLevel env) env.playbackRate
      else
        _calculateNewPlaybackRateDefault pow s.playbackStalled s.minPlaybackRateChange
          env.settings.playbackRate (getCurrentLiveLatency s env) env.liveDelay
          (getBufferLevel env) env.playbackRate) = results at hn h
  have key : results.newRate = some r ∧ r.truthy = true := by
    by_cases hv : s.videoModel = true
    · rw [if_pos hv] at h
      split at h
      · rcases List.mem_append.mp h with h1 | h1
        · exact mem_rate_effects _ _ h1
        · exact absurd h1 (seekToLive_no_setRate _ _ _)
      · exact mem_rate_effects _ _ h
    · rw [if_neg hv] at h
      simp at h
  obtain ⟨hk, ht⟩ := key
  rw [hk] at hn
  by_cases hle : ((env.playbackRate.sub (computedRate pow s env)).abs).le
      s.minPlaybackRateChange = true
  · rw [if_pos hle] at hn
    cases hn
  · rw [if_neg hle] at hn
    have hr : r = computedRate pow s env := Option.some.inj hn
    subst hr
    exact ⟨rfl, ht, by simpa using hle⟩

/-- A seek leaves the registration of the handlers and
`minPlaybackRateChange` as they are. -/
theorem seek_frame (s : State) (env : Env) (time : Num) (stick internal : Bool) :
    (seek s env time stick internal).st.subscribed = s.subscribed ∧
      (seek s env time stick internal).st.minPlaybackRateChange = s.minPlaybackRateChange := by
  unfold seek
  simp only []
  split_ifs <;> exact ⟨rfl, rfl⟩

theorem seekToLive_frame (s : State) (env : Env) :
    (seekToLive s env).st.subscribed = s.subscribed ∧
      (seekToLive s env).st.minPlaybackRateChange = s.minPlaybackRateChange := by
  unfold seekToLive
  cases env.dvrWindow with
  | none => exact ⟨rfl, rfl⟩
  | some w => exact seek_frame _ _ _ _ _

theorem startPlaybackCatchUp_frame (pow : ℚ → ℚ) (s : State) (env : Env) :
    (startPlaybackCatchUp pow s env).st.subscribed = s.subscribed ∧
      (startPlaybackCatchUp pow s env).st.minPlaybackRateChange = s.minPlaybackRateChange := by
  unfold startPlaybackCatchUp
  simp only []
  generalize (if catchupModeIsLoLP env then
        _calculateNewPlaybackRateLolP pow s.playbackStalled s.minPlaybackRateChange
          env.settings.playbackRate (getCurrentLiveLatency s env) env.liveDelay
          env.settings.minDrift (playbackBufferMin env) (getBufferLevel env) env.playbackRate
      else
        _calculateNewPlaybackRateDefault pow s.playbackStalled s.minPlaybackRateChange
          env.settings.playbackRate (getCurrentLiveLatency s env) env.liveDelay
          (getBufferLevel env) env.playbackRate) = results
  by_cases hv : s.videoModel = true
  · rw [if_pos hv]
    split
    · exact seekToLive_frame _ _
    · exact ⟨rfl, rfl⟩
  · rw [if_neg hv]
    exact ⟨rfl, rfl⟩

theorem onPlaybackProgression_frame (pow : ℚ → ℚ) (s : State) (env : Env) :
    (onPlaybackProgression pow s env).st.subscribed = s.subscribed ∧
      (onPlaybackProgression pow s env).st.minPlaybackRateChange
        = s.minPlaybackRateChange := by
  unfold onPlaybackProgression
  split
  · split
    · exact startPlaybackCatchUp_frame pow s env
    · unfold stopPlaybackCatchUp
      split <;> exact ⟨rfl, rfl⟩
  · exact ⟨rfl, rfl⟩

/-- While the handlers are registered, `minPlaybackRateChange` holds one of
the two values that `initialize` gives it. -/
theorem subscribed_minPlaybackRateChange (pow : ℚ → ℚ) (evs : List (Env × Event)) :
    ∀ s : State,
      (s.subscribed = true →
        s.minPlaybackRateChange = .num 0.25 ∨ s.minPlaybackRateChange = .num 0.02) →
      ((run pow s evs).1.subscribed = true →
        (run pow s evs).1.minPlaybackRateChange = .num 0.25 ∨
          (run pow s evs).1.minPlaybackRateChange = .num 0.02) := by
  induction evs with
  | nil => intro s h; exact h
  | cons x xs ih =>
    intro s h
    simp only [run]
    refine ih _ ?_
    obtain ⟨env, e⟩ := x
    unfold step
    split_ifs with hdel
    · exact h
    · cases e with
      | setConfig v =>
        simp only [setConfig]
        split_ifs <;> exact h
      | initializeCall dynamic safari =>
        simp only [initializeController]
        split_ifs
        all_goals first
          | exact h
          | (intro _; left; rfl)
          | (intro _; right; rfl)
      | reset =>
        simp only [reset]
        split_ifs
        · intro hc; exact absurd hc (by simp)
        · exact h
      | setLiveDelay value useMaxValue =>
        simp only [setLiveDelay]
        split_ifs <;> exact h
      | availabilityStartTime value => exact h
      | seekCall time stick internal =>
        simp only [seek]
        split_ifs <;> exact h
      | videoSeeking => exact h
      | playbackProgress =>
        have hf := onPlaybackProgression_frame pow s env
        intro hs
        rw [hf.1] at hs
        have h2 := h hs
        rw [← hf.2] at h2
        exact h2
      | playbackTimeUpdated =>
        have hf := onPlaybackProgression_frame pow s env
        intro hs
        rw [hf.1] at hs
        have h2 := h hs
        rw [← hf.2] at h2
        exact h2
      | bufferLevelStateChanged sameStream bufferEmpty =>
        simp only [onBufferLevelStateChanged, stopPlaybackCatchUp]
        repeat' split
        all_goals exact h

end PlaybackController

namespace PlaybackController

/-- C24: in every state reached from construction in which the handlers are
registered, `minPlaybackRateChange` is the minimum step, 0.25 or 0.02 (set by
`initialize`: 0.25 on Safari, 0.02 otherwise).  With a numeric current
playback rate `cur`: when the rate computed by the policy in force is within
the step of `cur`, `startPlaybackCatchUp` sets no playback rate, and both
policies return no new rate for a computed rate within the step; and every
rate that `startPlaybackCatchUp` sets is a number further than the step from
`cur`. -/
theorem rate_set_exceeds_minimum_step (pow : ℚ → ℚ) (evs : List (Env × Event)) (env : Env)
    (cur : ℚ) (hcur : env.playbackRate = .num cur)
    (hsub : (run pow State.init evs).1.subscribed = true) :
    (∃ step : ℚ, (step = 0.25 ∨ step = 0.02) ∧
      (run pow State.init evs).1.minPlaybackRateChange = .num step ∧
      (∀ R : ℚ, computedRate pow (run pow State.init evs).1 env = .num R → |cur - R| ≤ step →
        ∀ r, Effect.setPlaybackRate r ∉
          (startPlaybackCatchUp pow (run pow State.init evs).1 env).out) ∧
      (∀ r, Effect.setPlaybackRate r ∈
          (startPlaybackCatchUp pow (run pow State.init evs).1 env).out →
        ∃ q : ℚ, r = .num q ∧ step < |cur - q|) ∧
      (∀ (stalled : Bool) (cpr lat ld b : Num) (R : ℚ),
        computedRateDefault pow stalled cpr lat ld b = .num R → |cur - R| ≤ step →
        (_calculateNewPlaybackRateDefault pow stalled (.num step) cpr lat ld b
          (.num cur)).newRate = none) ∧
      (∀ (stalled : Bool) (cpr lat ld minDrift m b : Num) (R : ℚ),
        computedRateLolP pow cpr lat ld m b = .num R → |cur - R| ≤ step →
        (_calculateNewPlaybackRateLolP pow stalled (.num step) cpr lat ld minDrift m b
          (.num cur)).newRate = none)) ∧
    (∀ (s : State) (dynamic safari : Bool),
      (initializeController { s with videoModel := true } dynamic
          safari).st.minPlaybackRateChange
        = .num (if safari then 0.25 else 0.02)) := by
  constructor
  · have hinv := subscribed_minPlaybackRateChange pow evs State.init
      (fun h => absurd h (by simp [State.init])) hsub
    have hstep : ∃ step : ℚ, (step = 0.25 ∨ step = 0.02) ∧
        (run pow State.init evs).1.minPlaybackRateChange = .num step := by
      rcases hinv with h | h
      · exact ⟨0.25, Or.inl rfl, h⟩
      · exact ⟨0.02, Or.inr rfl, h⟩
    obtain ⟨step, hs, hmin⟩ := hstep
    refine ⟨step, hs, hmin, ?_, ?_, ?_, ?_⟩
    · intro R hR hle r hmem
      obtain ⟨hr, _, hfalse⟩ := startPlaybackCatchUp_setRate pow _ env r hmem
      rw [hr, hR, hcur, hmin] at hfalse
      simp only [Num.sub, Num.abs, Num.le, decide_eq_false_iff_not] at hfalse
      exact hfalse hle
    · intro r hmem
      obtain ⟨_, ht, hfalse⟩ := startPlaybackCatchUp_setRate pow _ env r hmem
      cases r with
      | nan => simp [Num.truthy] at ht
      | num q =>
        rw [hcur, hmin] at hfalse
        simp only [Num.sub, Num.abs, Num.le, decide_eq_false_iff_not] at hfalse
        exact ⟨q, rfl, lt_of_not_le hfalse⟩
    · intro stalled cpr lat ld b R hR hle
      rw [calculateDefault_newRate, hR]
      simp only [Num.sub, Num.abs, Num.le, decide_eq_true_eq, hle, if_true]
    · intro stalled cpr lat ld minDrift m b R hR hle
      rw [calculateLolP_newRate, hR]
      simp only [Num.sub, Num.abs, Num.le, decide_eq_true_eq, hle, if_true]
  · intro s dynamic safari
    simp [initializeController]

/-- C24 after `setConfig` with a video model and `initialize` on a browser
other than Safari, for the current playback rate 1. -/
theorem rate_set_exceeds_minimum_step_witness :
    (∃ step : ℚ, (step = 0.25 ∨ step = 0.02) ∧
      (run (fun _ => 1) State.init
        [(⟨⟨false, true, .num 0.5, .num 0.02, .num 0, none, false⟩, .num 3, .nan, false,
            false, .num 10, .num 1, [2], 20000, 0, some ⟨.num 0, .num 20⟩⟩, .setConfig true),
         (⟨⟨false, true, .num 0.5, .num 0.02, .num 0, none, false⟩, .num 3, .nan, false,
            false, .num 10, .num 1, [2], 20000, 0, some ⟨.num 0, .num 20⟩⟩,
            .initializeCall true false)]).1.minPlaybackRateChange = .num step ∧
      (∀ R : ℚ, computedRate (fun _ => 1) (run (fun _ => 1) State.init
        [(⟨⟨false, true, .num 0.5, .num 0.02, .num 0, none, false⟩, .num 3, .nan, false,
            false, .num 10, .num 1, [2], 20000, 0, some ⟨.num 0, .num 20⟩⟩, .setConfig true),
         (⟨⟨false, true, .num 0.5, .num 0.02, .num 0, none, false⟩, .num 3, .nan, false,
            false, .num 10, .num 1, [2], 20000, 0, some ⟨.num 0, .num 20⟩⟩,
            .initializeCall true false)]).1
          ⟨⟨false, true, .num 0.5, .num 0.02, .num 0, none, false⟩, .num 3, .nan, false,
            false, .num 10, .num 1, [2], 20000, 0, some ⟨.num 0, .num 20⟩⟩ = .num R →
        |1 - R| ≤ step →
        ∀ r, Effect.setPlaybackRate r ∉
          (startPlaybackCatchUp (fun _ => 1) (run (fun _ => 1) State.init
        [(⟨⟨false, true, .num 0.5, .num 0.02, .num 0, none, false⟩, .num 3, .nan, false,
            false, .num 10, .num 1, [2], 20000, 0, some ⟨.num 0, .num 20⟩⟩, .setConfig true),
         (⟨⟨false, true, .num 0.5, .num 0.02, .num 0, none, false⟩, .num 3, .nan, false,
            false, .num 10, .num 1, [2], 20000, 0, some ⟨.num 0, .num 20⟩⟩,
            .initializeCall true false)]).1
          ⟨⟨false, true, .num 0.5, .num 0.02, .num 0, none, false⟩, .num 3, .nan, false,
            false, .num 10, .num 1, [2], 20000, 0, some ⟨.num 0, .num 20⟩⟩).out) ∧
      (∀ r, Effect.setPlaybackRate r ∈
          (startPlaybackCatchUp (fun _ => 1) (run (fun _ => 1) State.init
        [(⟨⟨false, true, .num 0.5, .num 0.02, .num 0, none, false⟩, .num 3, .nan, false,
            false, .num 10, .num 1, [2], 20000, 0, some ⟨.num 0, .num 20⟩⟩, .setConfig true),
         (⟨⟨false, true, .num 0.5, .num 0.02, .num 0, none, false⟩, .num 3, .nan, false,
            false, .num 10, .num 1, [2], 20000, 0, some ⟨.num 0, .num 20⟩⟩,
            .initializeCall true false)]).1
          ⟨⟨false, true, .num 0.5, .num 0.02, .num 0, none, false⟩, .num 3, .nan, false,
            false, .num 10, .num 1, [2], 20000, 0, some ⟨.num 0, .num 20⟩⟩).out →
        ∃ q : ℚ, r = .num q ∧ step < |1 - q|) ∧
      (∀ (stalled : Bool) (cpr lat ld b : Num) (R : ℚ),
        computedRateDefault (fun _ => 1) stalled cpr lat ld b = .num R → |1 - R| ≤ step →
        (_calculateNewPlaybackRateDefault (fun _ => 1) stalled (.num step) cpr lat ld b
          (.num 1)).newRate = none) ∧
      (∀ (stalled : Bool) (cpr lat ld minDrift m b : Num) (R : ℚ),
        computedRateLolP (fun _ => 1) cpr lat ld m b = .num R → |1 - R| ≤ step →
        (_calculateNewPlaybackRateLolP (fun _ => 1) stalled (.num step) cpr lat ld minDrift m b
          (.num 1)).newRate = none)) ∧
    (∀ (s : State) (dynamic safari : Bool),
      (initializeController { s with videoModel := true } dynamic
          safari).st.minPlaybackRateChange
        = .num (if safari then 0.25 else 0.02)) :=
  rate_set_exceeds_minimum_step (fun _ => 1)
    [(⟨⟨false, true, .num 0.5, .num 0.02, .num 0, none, false⟩, .num 3, .nan, false,
        false, .num 10, .num 1, [2], 20000, 0, some ⟨.num 0, .num 20⟩⟩, .setConfig true),
     (⟨⟨false, true, .num 0.5, .num 0.02, .num 0, none, false⟩, .num 3, .nan, false,
        false, .num 10, .num 1, [2], 20000, 0, some ⟨.num 0, .num 20⟩⟩,
        .initializeCall true false)]
    ⟨⟨false, true, .num 0.5, .num 0.02, .num 0, none, false⟩, .num 3, .nan, false,
      false, .num 10, .num 1, [2], 20000, 0, some ⟨.num 0, .num 20⟩⟩
    1 rfl (by simp [run, step, Event.isSignal, setConfig, initializeController, State.init])

end PlaybackController

namespace PlaybackController

/-- What `startPlaybackCatchUp` does with a video model, by the two branches
of the drift test (lines 777-785). -/
theorem startPlaybackCatchUp_eq (pow : ℚ → ℚ) (s : State) (env : Env)
    (hv : s.videoModel = true) :
    ∃ stalled : Bool,
      startPlaybackCatchUp pow s env
        = if env.settings.maxDrift.gt (.num 0) ∧ ¬ s.isLowLatencySeekingInProgress ∧
              ((getCurrentLiveLatency s env).sub env.liveDelay).gt env.settings.maxDrift then
            ⟨(seekToLive { s with playbackStalled := stalled,
                                  isLowLatencySeekingInProgress := true } env).st,
             (if ((env.playbackRate.sub (computedRate pow s env)).abs).le
                    s.minPlaybackRateChange = false ∧ (computedRate pow s env).truthy = true
              then [Effect.setPlaybackRate (computedRate pow s env)] else [])
              ++ (seekToLive { s with playbackStalled := stalled,
                                      isLowLatencySeekingInProgress := true } env).out⟩
          else
            ⟨{ s with playbackStalled := stalled, isLowLatencySeekingInProgress := false },
             if ((env.playbackRate.sub (computedRate pow s env)).abs).le
                    s.minPlaybackRateChange = false ∧ (computedRate pow s env).truthy = true
              then [Effect.setPlaybackRate (computedRate pow s env)] else []⟩ := by
  have hn := policy_newRate pow s env
  unfold startPlaybackCatchUp
  simp only []
  generalize (if catchupModeIsLoLP env then
        _calculateNewPlaybackRateLolP pow s.playbackStalled s.minPlaybackRateChange
          env.settings.playbackRate (getCurrentLiveLatency s env) env.liveDelay
          env.settings.minDrift (playbackBufferMin env) (getBufferLevel env) env.playbackRate
      else
        _calculateNewPlaybackRateDefault pow s.playbackStalled s.minPlaybackRateChange
          env.settings.playbackRate (getCurrentLiveLatency s env) env.liveDelay
          (getBufferLevel env) env.playbackRate) = results at hn
  refine ⟨results.playbackStalled, ?_⟩
  rw [if_pos hv, hn]
  by_cases hle : ((env.playbackRate.sub (computedRate pow s env)).abs).le
      s.minPlaybackRateChange = true
  · simp [hle]
  · have hle2 : ((env.playbackRate.sub (computedRate pow s env)).abs).le
        s.minPlaybackRateChange = false := by simpa using hle
    simp [hle2]

/-- C25 (as stated) fails: a controller with a video model that handled one
playback-progress signal at latency 10 against the live delay 3 and the
maximum drift 5 has sought to the live edge and marked the seek as in
progress; on the next progress signal, with the same latency, drift and DVR
window `(0, 20)`, `startPlaybackCatchUp` issues no seek at all and clears the
mark. -/
theorem catchup_seek_skipped_while_in_progress :
    ¬ (∀ (pow : ℚ → ℚ) (s : State) (env : Env) (w : DVRWindow),
        s.videoModel = true → s.streamInfo = true → env.dvrWindow = some w →
        env.settings.maxDrift.gt (.num 0) = true →
        ((getCurrentLiveLatency s env).sub env.liveDelay).gt env.settings.maxDrift = true →
        Effect.setCurrentTime (w.end_.sub env.liveDelay) true
            ∈ (startPlaybackCatchUp pow s env).out ∧
          ∀ r, Effect.setPlaybackRate r ∉ (startPlaybackCatchUp pow s env).out) := by
  intro h
  have h1 := h (fun _ => 1)
    (run (fun _ => 1) State.init
      [(⟨⟨false, true, .num 0.5, .num 0.02, .num 5, none, false⟩, .num 3, .nan, false,
          false, .num 10, .num 1, [2], 20000, 0, some ⟨.num 0, .num 20⟩⟩, .setConfig true),
       (⟨⟨false, true, .num 0.5, .num 0.02, .num 5, none, false⟩, .num 3, .nan, false,
          false, .num 10, .num 1, [2], 20000, 0, some ⟨.num 0, .num 20⟩⟩,
          .initializeCall true false),
       (⟨⟨false, true, .num 0.5, .num 0.02, .num 5, none, false⟩, .num 3, .nan, false,
          false, .num 10, .num 1, [2], 20000, 0, some ⟨.num 0, .num 20⟩⟩,
          .playbackProgress)]).1
    ⟨⟨false, true, .num 0.5, .num 0.02, .num 5, none, false⟩, .num 3, .nan, false,
      false, .num 10, .num 1, [2], 20000, 0, some ⟨.num 0, .num 20⟩⟩
    ⟨.num 0, .num 20⟩
  norm_num [run, step, Event.isSignal, setConfig, initializeController, State.init,
    onPlaybackProgression, _isCatchupEnabled, isPaused, isSeeking, _needToCatchUp, getTime,
    getCurrentLiveLatency, getNormalizedTime, getTimeIsNull, toFixed3, catchupModeIsLoLP,
    _defaultNeedToCatchUp, startPlaybackCatchUp, _calculateNewPlaybackRateDefault, getBufferLevel,
    seekToLive, seek, Num.gt, Num.lt, Num.le, Num.sub, Num.add, Num.mul, Num.div, Num.abs,
    Num.neg, Num.exp, Num.isNaN, Num.truthy] at h1

end PlaybackController

namespace PlaybackController

/-- C25 (amended): when `startPlaybackCatchUp` runs with the video model and
stream info set, a DVR window, `maxDrift > 0` and
`currentLatency − liveDelay > maxDrift`, it first applies the rate computed by
the policy in force (when that is truthy and further than
`minPlaybackRateChange` from the current rate).  Then, if no low-latency seek
is marked as in progress, it marks one and seeks to the live edge, DVR window
end − live delay (no seek when that is the current seek target or time
already); if one is marked, it issues no seek and clears the mark. -/
theorem catchup_seek_to_live (pow : ℚ → ℚ) (s : State) (env : Env) (w : DVRWindow)
    (hv : s.videoModel = true) (hsi : s.streamInfo = true) (hw : env.dvrWindow = some w)
    (hmax : env.settings.maxDrift.gt (.num 0) = true)
    (hdrift : ((getCurrentLiveLatency s env).sub env.liveDelay).gt env.settings.maxDrift
      = true) :
    (s.isLowLatencySeekingInProgress = false →
      (startPlaybackCatchUp pow s env).out
        = (if ((env.playbackRate.sub (computedRate pow s env)).abs).le
                s.minPlaybackRateChange = false ∧ (computedRate pow s env).truthy = true
            then [Effect.setPlaybackRate (computedRate pow s env)] else [])
          ++ (if ¬ (w.end_.sub env.liveDelay).isNaN ∧
                  w.end_.sub env.liveDelay
                    = (if ¬ s.seekTarget.isNaN then s.seekTarget else env.time)
              then []
              else [Effect.seekAsked, Effect.setCurrentTime (w.end_.sub env.liveDelay) true]) ∧
      (startPlaybackCatchUp pow s env).st.isLowLatencySeekingInProgress = true) ∧
    (s.isLowLatencySeekingInProgress = true →
      (startPlaybackCatchUp pow s env).out
        = (if ((env.playbackRate.sub (computedRate pow s env)).abs).le
                s.minPlaybackRateChange = false ∧ (computedRate pow s env).truthy = true
            then [Effect.setPlaybackRate (computedRate pow s env)] else []) ∧
      (startPlaybackCatchUp pow s env).st.isLowLatencySeekingInProgress = false) := by
  obtain ⟨stalled, heq⟩ := startPlaybackCatchUp_eq pow s env hv
  rw [heq]
  constructor
  · intro hflag
    have hcond : env.settings.maxDrift.gt (.num 0) ∧ ¬ s.isLowLatencySeekingInProgress ∧
        ((getCurrentLiveLatency s env).sub env.liveDelay).gt env.settings.maxDrift :=
      ⟨hmax, by simp [hflag], hdrift⟩
    rw [if_pos hcond]
    simp only [seekToLive, hw, seek, hsi, hv, not_true_eq_false, or_self, if_false,
      Bool.false_eq_true]
    split_ifs <;> exact ⟨rfl, rfl⟩
  · intro hflag
    have hcond : ¬ (env.settings.maxDrift.gt (.num 0) ∧ ¬ s.isLowLatencySeekingInProgress ∧
        ((getCurrentLiveLatency s env).sub env.liveDelay).gt env.settings.maxDrift) := by
      intro hc
      exact hc.2.1 hflag
    rw [if_neg hcond]
    exact ⟨rfl, rfl⟩

/-- The amended C25 after `setConfig` and `initialize`, at latency 10 against
the live delay 3 and the maximum drift 5, with the DVR window `(0, 20)`. -/
theorem catchup_seek_to_live_witness :
    (startPlaybackCatchUp (fun _ => 1)
        (run (fun _ => 1) State.init
          [(⟨⟨false, true, .num 0.5, .num 0.02, .num 5, none, false⟩, .num 3, .nan, false,
              false, .num 10, .num 1, [2], 20000, 0, some ⟨.num 0, .num 20⟩⟩, .setConfig true),
           (⟨⟨false, true, .num 0.5, .num 0.02, .num 5, none, false⟩, .num 3, .nan, false,
              false, .num 10, .num 1, [2], 20000, 0, some ⟨.num 0, .num 20⟩⟩,
              .initializeCall true false)]).1
        ⟨⟨false, true, .num 0.5, .num 0.02, .num 5, none, false⟩, .num 3, .nan, false,
          false, .num 10, .num 1, [2], 20000, 0, some ⟨.num 0, .num 20⟩⟩).out
      = [.seekAsked, .setCurrentTime (.num 17) true] := by
  have h := (catchup_seek_to_live (fun _ => 1)
    (run (fun _ => 1) State.init
      [(⟨⟨false, true, .num 0.5, .num 0.02, .num 5, none, false⟩, .num 3, .nan, false,
          false, .num 10, .num 1, [2], 20000, 0, some ⟨.num 0, .num 20⟩⟩, .setConfig true),
       (⟨⟨false, true, .num 0.5, .num 0.02, .num 5, none, false⟩, .num 3, .nan, false,
          false, .num 10, .num 1, [2], 20000, 0, some ⟨.num 0, .num 20⟩⟩,
          .initializeCall true false)]).1
    ⟨⟨false, true, .num 0.5, .num 0.02, .num 5, none, false⟩, .num 3, .nan, false,
      false, .num 10, .num 1, [2], 20000, 0, some ⟨.num 0, .num 20⟩⟩
    ⟨.num 0, .num 20⟩
    (by simp [run, step, Event.isSignal, setConfig, initializeController, State.init])
    (by simp [run, step, Event.isSignal, setConfig, initializeController, State.init])
    rfl
    (by norm_num [Num.gt])
    (by norm_num [run, step, Event.isSignal, setConfig, initializeController, State.init,
          getCurrentLiveLatency, getNormalizedTime, getTime, getTimeIsNull, toFixed3, Num.gt,
          Num.sub, Num.div, Num.isNaN])).1
    (by simp [run, step, Event.isSignal, setConfig, initializeController, State.init])
  rw [h.1]
  norm_num [run, step, Event.isSignal, setConfig, initializeController, State.init,
    computedRate, computedRateDefault, catchupModeIsLoLP, getCurrentLiveLatency,
    getNormalizedTime, getTime, getTimeIsNull, toFixed3, getBufferLevel, Num.gt, Num.lt, Num.le,
    Num.sub, Num.add, Num.mul, Num.div, Num.abs, Num.neg, Num.exp, Num.isNaN, Num.truthy]

end PlaybackController

namespace PlaybackController

/-- The three branches of `getActualPresentationTime` for a numeric window,
live delay and current time. -/
theorem getActualPresentationTime_num (s : State) (env : Env) (start end_ liveDelay t : ℚ)
    (hw : env.dvrWindow = some ⟨.num start, .num end_⟩) (hl : s.liveDelay = .num liveDelay) :
    (end_ < t ∧ getActualPresentationTime s env (.num t) = .num (max (end_ - liveDelay) start)) ∨
    (¬ end_ < t ∧ t + 0.25 < start ∧ getActualPresentationTime s env (.num t) = .num start) ∨
    getActualPresentationTime s env (.num t) = .num t := by
  simp only [getActualPresentationTime, hw, hl, Num.gt, Num.lt, Num.add, Num.sub, Num.abs,
    Num.max, decide_eq_true_eq]
  by_cases h1 : t > end_
  · left
    exact ⟨h1, by simp [h1]⟩
  · right
    simp only [h1, if_false]
    split_ifs with h2
    · left
      refine ⟨not_false, ?_, rfl⟩
      have h3 := h2.2.1
      norm_num at h3 ⊢
      exact h3
    · right
      rfl

/-- C29: for a DVR window `(start, end)` with `start ≤ end` and a live delay
`≥ 0`, a result of `getActualPresentationTime` that differs from the current
time handed in is a number within `[start, end]`, and applying
`getActualPresentationTime` to its own result returns that result. -/
theorem presentationTime_within_window_idempotent (s : State) (env : Env)
    (start end_ liveDelay : ℚ) (t : Num)
    (hw : env.dvrWindow = some ⟨.num start, .num end_⟩) (hl : s.liveDelay = .num liveDelay)
    (hse : start ≤ end_) (hld : 0 ≤ liveDelay) :
    (getActualPresentationTime s env t ≠ t →
      ∃ r : ℚ, getActualPresentationTime s env t = .num r ∧ start ≤ r ∧ r ≤ end_) ∧
    getActualPresentationTime s env (getActualPresentationTime s env t)
      = getActualPresentationTime s env t := by
  cases t with
  | nan =>
    have hnan : getActualPresentationTime s env .nan = .nan := by
      simp [getActualPresentationTime, hw, Num.gt, Num.lt, Num.add, Num.sub, Num.abs]
    rw [hnan, hnan]
    exact ⟨fun h => absurd rfl h, rfl⟩
  | num t =>
    rcases getActualPresentationTime_num s env start end_ liveDelay t hw hl with
      ⟨_, h⟩ | ⟨_, _, h⟩ | h
    · rw [h]
      have hle : max (end_ - liveDelay) start ≤ end_ := max_le (by linarith) hse
      refine ⟨fun _ => ⟨_, rfl, le_max_right _ _, hle⟩, ?_⟩
      rcases getActualPresentationTime_num s env start end_ liveDelay
          (max (end_ - liveDelay) start) hw hl with ⟨h1, _⟩ | ⟨_, h2, _⟩ | h3
      · exact absurd h1 (not_lt.mpr hle)
      · have := le_max_right (end_ - liveDelay) start
        norm_num at h2
        linarith
      · exact h3
    · rw [h]
      refine ⟨fun _ => ⟨_, rfl, le_refl _, hse⟩, ?_⟩
      rcases getActualPresentationTime_num s env start end_ liveDelay start hw hl with
        ⟨h1, _⟩ | ⟨_, h2, _⟩ | h3
      · exact absurd h1 (not_lt.mpr hse)
      · norm_num at h2
      · exact h3
    · rw [h]
      exact ⟨fun hne => absurd rfl hne, h⟩

/-- C29 for the window `(10, 100)` and the live delay 20: the time 150, past
the window end, is moved to 80, which lies in the window and is returned
unchanged when handed in again. -/
theorem presentationTime_within_window_idempotent_witness :
    (getActualPresentationTime { State.init with liveDelay := .num 20 }
        ⟨⟨false, false, .num 0, .num 0, .num 0, none, false⟩, .nan, .nan, false, false, .num 0,
          .num 1, [], 0, 0, some ⟨.num 10, .num 100⟩⟩ (.num 150) ≠ .num 150 →
      ∃ r : ℚ, getActualPresentationTime { State.init with liveDelay := .num 20 }
        ⟨⟨false, false, .num 0, .num 0, .num 0, none, false⟩, .nan, .nan, false, false, .num 0,
          .num 1, [], 0, 0, some ⟨.num 10, .num 100⟩⟩ (.num 150) = .num r ∧
        (10 : ℚ) ≤ r ∧ r ≤ 100) ∧
    getActualPresentationTime { State.init with liveDelay := .num 20 }
        ⟨⟨false, false, .num 0, .num 0, .num 0, none, false⟩, .nan, .nan, false, false, .num 0,
          .num 1, [], 0, 0, some ⟨.num 10, .num 100⟩⟩
        (getActualPresentationTime { State.init with liveDelay := .num 20 }
          ⟨⟨false, false, .num 0, .num 0, .num 0, none, false⟩, .nan, .nan, false, false, .num 0,
            .num 1, [], 0, 0, some ⟨.num 10, .num 100⟩⟩ (.num 150))
      = getActualPresentationTime { State.init with liveDelay := .num 20 }
        ⟨⟨false, false, .num 0, .num 0, .num 0, none, false⟩, .nan, .nan, false, false, .num 0,
          .num 1, [], 0, 0, some ⟨.num 10, .num 100⟩⟩ (.num 150) :=
  presentationTime_within_window_idempotent { State.init with liveDelay := .num 20 }
    ⟨⟨false, false, .num 0, .num 0, .num 0, none, false⟩, .nan, .nan, false, false, .num 0,
      .num 1, [], 0, 0, some ⟨.num 10, .num 100⟩⟩
    10 100 20 (.num 150) rfl rfl (by norm_num) (by norm_num)

end PlaybackController

namespace PlaybackController

/-- C30: with a numeric live delay `p` in force, `setLiveDelay(v, true)`
leaves `getLiveDelay()` at `max(p, v)`, which is not below `p`; and
`setLiveDelay(value)` without the flag leaves it at `value`, whatever the
live delay was. -/
theorem setLiveDelay_max (s : State) (p v : ℚ) (value : Num) (hp : s.liveDelay = .num p) :
    getLiveDelay (setLiveDelay s (.num v) true).st = .num (max p v) ∧
    p ≤ max p v ∧
    getLiveDelay (setLiveDelay s value false).st = value := by
  refine ⟨?_, le_max_left _ _, ?_⟩
  · unfold setLiveDelay getLiveDelay
    simp only [hp, Num.lt, decide_eq_true_eq, true_and]
    split_ifs with h
    · show s.liveDelay = _
      rw [hp, max_eq_left (le_of_lt h)]
    · show Num.num v = _
      rw [max_eq_right (not_lt.mp h)]
  · simp [setLiveDelay, getLiveDelay]

/-- C30 for the live delay 4: `setLiveDelay(2, true)` leaves it at 4, and
`setLiveDelay(2)` sets it to 2. -/
theorem setLiveDelay_max_witness :
    getLiveDelay (setLiveDelay { State.init with liveDelay := .num 4 } (.num 2) true).st
      = .num (max 4 2) ∧
    (4 : ℚ) ≤ max 4 2 ∧
    getLiveDelay (setLiveDelay { State.init with liveDelay := .num 4 } (.num 2) false).st
      = .num 2 :=
  setLiveDelay_max { State.init with liveDelay := .num 4 } 4 2 (.num 2) rfl

end PlaybackController

/-! ## Theorems: BufferController, buffer length and pruning after an append -/

namespace BufferController

/-- In an ordered list of non-empty, non-overlapping ranges the end of the
last range is not before the end of any range in the list. -/
theorem getLast_end_ge (hd : TimeRange) (run : List TimeRange)
    (hne : ∀ r ∈ hd :: run, r.start < r.end_)
    (hch : List.Chain (fun a b => a.end_ ≤ b.start) hd run) :
    ∀ r ∈ hd :: run, r.end_ ≤ ((hd :: run).getLast (List.cons_ne_nil hd run)).end_ := by
  induction run generalizing hd with
  | nil =>
    intro r hr
    simp only [List.mem_singleton] at hr
    subst hr
    simp
  | cons x xs ih =>
    have hx := ih x (fun r hr => hne r (List.mem_cons_of_mem _ hr))
      (List.chain_cons.mp hch).2
    intro r hr
    rw [List.getLast_cons (List.cons_ne_nil x xs)]
    rcases List.mem_cons.mp hr with rfl | hr
    · have h1 : r.end_ ≤ x.start := (List.chain_cons.mp hch).1
      have h2 : x.start < x.end_ := hne x (by simp)
      have h3 := hx x (List.mem_cons_self _ _)
      linarith
    · exact hx r hr

end BufferController

namespace BufferController

/-- In an ordered list of non-empty, non-overlapping ranges every range ends
before every later one starts. -/
theorem orderedDisjoint_pairwise (l : List TimeRange) (h : OrderedDisjoint l) :
    l.Pairwise (fun a b => a.end_ ≤ b.start) := by
  induction l with
  | nil => exact List.Pairwise.nil
  | cons a rest ih =>
    obtain ⟨hne, hch⟩ := h
    have hrest : OrderedDisjoint rest :=
      ⟨fun r hr => hne r (List.mem_cons_of_mem _ hr), List.Chain'.tail hch⟩
    have hp := ih hrest
    refine List.Pairwise.cons ?_ hp
    intro b hb
    cases rest with
    | nil => simp at hb
    | cons b0 rest1 =>
      have h0 : a.end_ ≤ b0.start := (List.chain'_cons.mp hch).1
      rcases List.mem_cons.mp hb with rfl | hb
      · exact h0
      · have h1 : b0.end_ ≤ b.start := (List.pairwise_cons.mp hp).1 b hb
        have h2 : b0.start < b0.end_ := hne b0 (by simp)
        linarith

/-- The end of the range returned by `getRangeAt` lies after `time` when the
opening range contains `time`, and after `time − toler` otherwise; it lies
after `time` as soon as some range contains `time`. -/
theorem getRangeAtLoop_end (time toler : ℚ) (ranges : List TimeRange)
    (hord : OrderedDisjoint ranges) (res : TimeRange)
    (hres : getRangeAtLoop time toler ranges none = some res) :
    (time < res.end_ ∨ (0 ≤ toler ∧ time - toler < res.end_)) ∧
    ((∃ r ∈ ranges, r.start ≤ time ∧ time < r.end_) → time < res.end_) := by
  rcases getRangeAtLoop_closed time toler ranges with
    ⟨hnone, -⟩ | ⟨pre, hd, run, post, hrs, hpre, hhd, hch, hloop, hpost⟩
  · rw [hnone] at hres
    cases hres
  · rw [hloop] at hres
    have hres' : res.end_ = ((hd :: run).getLast (List.cons_ne_nil hd run)).end_ := by
      cases hres
      rfl
    have hpw := orderedDisjoint_pairwise ranges hord
    rw [hrs] at hpw
    have hpw2 : ((hd :: run) ++ post).Pairwise (fun a b => a.end_ ≤ b.start) := by
      have := (List.pairwise_append.mp (by simpa using hpw :
        (pre ++ ((hd :: run) ++ post)).Pairwise (fun a b => a.end_ ≤ b.start))).2.1
      exact this
    obtain ⟨hpwrun, hpwpost, hcross⟩ := List.pairwise_append.mp hpw2
    have hne : ∀ r ∈ ranges, r.start < r.end_ := hord.1
    have hnerun : ∀ r ∈ hd :: run, r.start < r.end_ := by
      intro r hr
      apply hne
      rw [hrs]
      simp only [List.mem_append, List.mem_cons] at hr ⊢
      rcases hr with h | h
      · exact Or.inl (Or.inr (Or.inl h))
      · exact Or.inl (Or.inr (Or.inr h))
    have hchain : List.Chain (fun a b => a.end_ ≤ b.start) hd run :=
      List.Pairwise.chain hpwrun
    have hlast := getLast_end_ge hd run hnerun hchain
    have hhdlast := hlast hd (List.mem_cons_self _ _)
    have hhdne := hnerun hd (List.mem_cons_self _ _)
    have hfirst : time < res.end_ ∨ (0 ≤ toler ∧ time - toler < res.end_) := by
      rcases hhd with hin | hnear
      · left
        rw [hres']
        linarith [hin.2]
      · right
        have h1 := abs_le.mp hnear
        have h2 : 0 ≤ toler := le_trans (abs_nonneg _) hnear
        refine ⟨h2, ?_⟩
        rw [hres']
        linarith [h1.1]
    refine ⟨hfirst, ?_⟩
    rintro ⟨c, hc, hcin⟩
    rw [hrs] at hc
    have hc' : c ∈ pre ∨ c ∈ hd :: run ∨ c ∈ post := by
      simp only [List.mem_append, List.mem_cons] at hc ⊢
      tauto
    rcases hc' with hc | hc | hc
    · exact absurd (Or.inl hcin) (hpre c hc)
    · rw [hres']
      linarith [hlast c hc, hcin.2]
    · exfalso
      cases post with
      | nil => simp at hc
      | cons b post1 =>
        have hgap : toler < b.start - res.end_ := by
          rw [hres']
          exact hpost b (by simp)
        have hbc : b.start ≤ c.start := by
          rcases List.mem_cons.mp hc with rfl | hc1
          · exact le_refl _
          · have h1 : b.end_ ≤ c.start := (List.pairwise_cons.mp hpwpost).1 c hc1
            have h2 : b.start < b.end_ := by
              apply hne
              rw [hrs]
              simp
            linarith
        rcases hfirst with h | ⟨h0, h⟩
        · have hhdc : hd.end_ ≤ c.start := hcross hd (List.mem_cons_self _ _) c hc
          rcases hhd with hin | hnear
          · linarith [hin.2, hcin.1]
          · have hlc := hcross _ (List.getLast_mem (List.cons_ne_nil hd run)) c hc
            rw [← hres'] at hlc
            linarith [hcin.1]
        · linarith [hcin.1]

end BufferController

namespace BufferController

/-- C26 (as stated) fails: for the single buffered range `(5, 5.05)`, time
`5.1` and the default tolerance, the range starts within the tolerance of the
time and is returned by `getRangeAt`, and `getBufferLength` is
`5.05 − 5.1 = −0.05`. -/
theorem getBufferLength_negative :
    ¬ (∀ (ranges : List TimeRange) (t : ℚ) (tolerance : Option ℚ),
        OrderedDisjoint ranges → 0 ≤ t → 0 ≤ getBufferLength (some ranges) t tolerance) := by
  intro h
  have h1 := h [⟨5, 5.05⟩] 5.1 none
    ⟨by intro r hr; simp at hr; subst hr; norm_num, by simp⟩ (by norm_num)
  have habs : |(1 : ℚ) / 10| ≤ 3 / 20 := by
    rw [abs_le]
    constructor <;> norm_num
  norm_num [getBufferLength, getRangeAt, effectiveTolerance, getRangeAtLoop, habs] at h1

/-- C26 (amended): for every ordered non-overlapping list of buffered ranges,
every time `t` and every tolerance, `getBufferLength(t, tolerance)` is never
less than `−tol`, where `tol` is the tolerance in force (0.15 when none or `0`
is given), and never negative at all when that tolerance is negative; and it
is positive whenever some buffered range contains `t` (`start ≤ t < end`). -/
theorem getBufferLength_lower_bound (ranges : List TimeRange) (t : ℚ) (tolerance : Option ℚ)
    (hord : OrderedDisjoint ranges) :
    -(max (effectiveTolerance tolerance) 0) ≤ getBufferLength (some ranges) t tolerance ∧
    ((∃ r ∈ ranges, r.start ≤ t ∧ t < r.end_) →
      0 < getBufferLength (some ranges) t tolerance) := by
  have hmax : -(max (effectiveTolerance tolerance) 0) ≤ 0 := by
    have := le_max_right (effectiveTolerance tolerance) 0
    linarith
  cases hg : getRangeAtLoop t (effectiveTolerance tolerance) ranges none with
  | none =>
    have hlen : getBufferLength (some ranges) t tolerance = 0 := by
      simp [getBufferLength, getRangeAt, hg]
    rw [hlen]
    refine ⟨hmax, ?_⟩
    rintro ⟨c, hc, hcin⟩
    rcases getRangeAtLoop_closed t (effectiveTolerance tolerance) ranges with
      ⟨-, hall⟩ | ⟨pre, hd, run, post, -, -, -, -, hloop, -⟩
    · exact absurd (Or.inl hcin) (hall c hc)
    · rw [hloop] at hg
      cases hg
  | some res =>
    have hlen : getBufferLength (some ranges) t tolerance = res.end_ - t := by
      simp [getBufferLength, getRangeAt, hg]
    obtain ⟨h1, h2⟩ := getRangeAtLoop_end t (effectiveTolerance tolerance) ranges hord res hg
    rw [hlen]
    refine ⟨?_, ?_⟩
    · rcases h1 with h | ⟨h0, h⟩
      · linarith
      · have := le_max_left (effectiveTolerance tolerance) 0
        linarith
    · intro hc
      have := h2 hc
      linarith

/-- The amended C26 for the range `(5, 5.05)` at time `5.1`: the length
`−0.05` is not below `−0.15`. -/
theorem getBufferLength_lower_bound_witness :
    -(max (effectiveTolerance none) 0) ≤ getBufferLength (some [⟨5, 5.05⟩]) 5.1 none :=
  (getBufferLength_lower_bound [⟨5, 5.05⟩] 5.1 none
    ⟨by intro r hr; simp at hr; subst hr; norm_num, by simp⟩).1

end BufferController

namespace BufferController

theorem andThen_appending (r : Res) (f : State → Res) (c : Bool)
    (hr : r.st.isAppendingInProgress = c)
    (hf : ∀ s, s.isAppendingInProgress = c → (f s).st.isAppendingInProgress = c) :
    (r.andThen f).st.isAppendingInProgress = c := by
  unfold Res.andThen
  split_ifs
  · exact hr
  · exact hf _ hr

theorem notifyBufferStateChanged_appending (cfg : Config) (s : State) (env : Env)
    (b : BufferState) :
    (notifyBufferStateChanged cfg s env b).st.isAppendingInProgress
      = s.isAppendingInProgress := by
  unfold notifyBufferStateChanged
  split_ifs <;> rfl

theorem checkIfBufferingCompleted_appending (s : State) :
    (checkIfBufferingCompleted s).st.isAppendingInProgress = s.isAppendingInProgress := by
  unfold checkIfBufferingCompleted
  simp only
  split_ifs <;> rfl

theorem checkIfSufficientBuffer_appending (cfg : Config) (s : State) (env : Env) :
    (checkIfSufficientBuffer cfg s env).st.isAppendingInProgress
      = s.isAppendingInProgress := by
  unfold checkIfSufficientBuffer
  simp only
  split
  · rfl
  · refine andThen_appending _ _ _ (by split <;> rfl) ?_
    intro s1 h1
    repeat' split
    all_goals first | exact h1 | (rw [notifyBufferStateChanged_appending]; exact h1)

theorem updateBufferLevel_appending (cfg : Config) (s : State) (env : Env) :
    (updateBufferLevel cfg s env).st.isAppendingInProgress = s.isAppendingInProgress := by
  unfold updateBufferLevel
  repeat' split
  all_goals first | rfl | skip
  refine andThen_appending _ _ _ rfl ?_
  intro s1 h1
  rw [checkIfSufficientBuffer_appending]
  exact h1

theorem clearBufferOfClearRange_appending (s : State) :
    (clearBufferOfClearRange s).st.isAppendingInProgress = s.isAppendingInProgress := by
  unfold clearBufferOfClearRange
  cases s.buffer <;> rfl

/-- The handler of the append-completed event leaves the flag
`isAppendingInProgress` as it finds it. -/
theorem onAppended_appending (cfg : Config) (s : State) (env : Env) (b : Nat)
    (error : Option Nat) :
    (onAppended cfg s env b error).st.isAppendingInProgress = s.isAppendingInProgress := by
  unfold onAppended
  refine andThen_appending _ _ _ ?_ ?_
  · repeat' split
    all_goals first | rfl | skip
    all_goals
      refine andThen_appending _ _ _ (andThen_appending _ _ _ ?_ ?_) ?_
      · first | rfl | (rw [checkIfBufferingCompleted_appending])
      · intro s1 h1
        unfold onPlaybackProgression
        rw [updateBufferLevel_appending]
        exact h1
      · intro s1 h1
        split <;> exact h1
  · intro s3 h3
    cases error with
    | none => exact h3
    | some code =>
      simp only []
      repeat' split
      all_goals first | exact h3 | skip
      all_goals
        refine andThen_appending _ _ _ h3 ?_
        intro s5 h5
        rw [clearBufferOfClearRange_appending]
        exact h5

end BufferController

namespace BufferController

/-- C27: the code on an append followed by its completion.  The handler of
the append-completed event never touches `isAppendingInProgress`, and a
wallclock tick that finds the flag set only counts the tick.  So for a video
controller with the sink 1 that appended a media chunk and handled its
completion, a tick at which the pruning interval has elapsed (buffered range
`(0,40)`, playback time 30, keep-window 5) asks the sink for nothing, whereas
the same tick before the append asks it to remove `[0, 25]`. -/
theorem append_flag_never_cleared :
    (∀ (cfg : Config) (s : State) (env : Env) (b : Nat) (error : Option Nat),
      (onAppended cfg s env b error).st.isAppendingInProgress = s.isAppendingInProgress) ∧
    (∀ (cfg : Config) (s : State) (env : Env),
      onWallclockTimeUpdated cfg { s with isAppendingInProgress := true } env
        = ⟨{ s with isAppendingInProgress := true, wallclockTicked := s.wallclockTicked + 1 },
            [], false⟩) ∧
    (run ⟨.video, true⟩ State.init
      [(⟨some [], [], some 0, 100, none, false, fun _ _ => none, 5, 1000, 1, false, false⟩,
          .initializeCall true),
       (⟨some [], [], some 0, 100, none, false, fun _ _ => none, 5, 1000, 1, false, false⟩,
          .createBuffer true (some 1)),
       (⟨some [], [], some 0, 100, none, false, fun _ _ => none, 5, 1000, 1, false, false⟩,
          .mediaFragmentLoaded true ⟨7, 0, 0, some 3, false⟩),
       (⟨some [⟨0, 40⟩], [⟨0, 40⟩], some 30, 100, none, false, fun _ _ => none, 5, 1000, 1,
          false, false⟩, .appendCompleted 1 none),
       (⟨some [⟨0, 40⟩], [⟨0, 40⟩], some 30, 100, none, false, fun _ _ => none, 5, 1000, 1,
          false, false⟩, .wallclockTimeUpdated)]).2
      = [.sinkAppend 1 ⟨7, 0, 0, some 3, false⟩, .bufferLevelUpdated 10,
         .bytesAppended ⟨7, 0, 0, some 3, false⟩] ∧
    (run ⟨.video, true⟩ State.init
      [(⟨some [], [], some 0, 100, none, false, fun _ _ => none, 5, 1000, 1, false, false⟩,
          .initializeCall true),
       (⟨some [], [], some 0, 100, none, false, fun _ _ => none, 5, 1000, 1, false, false⟩,
          .createBuffer true (some 1)),
       (⟨some [⟨0, 40⟩], [⟨0, 40⟩], some 30, 100, none, false, fun _ _ => none, 5, 1000, 1,
          false, false⟩, .wallclockTimeUpdated)]).2
      = [.sinkRemove 1 0 25] := by
  refine ⟨onAppended_appending, ?_, ?_, ?_⟩
  · intro cfg s env
    simp [onWallclockTimeUpdated]
  · norm_num [run, step, handle, Event.isSignal, initializeController, createBuffer,
      onMediaFragmentLoaded, appendToBuffer, onAppended, checkIfBufferingCompleted,
      onPlaybackProgression, updateBufferLevel, checkIfSufficientBuffer, Res.andThen,
      getBufferLength, getRangeAt, getRangeAtLoop, effectiveTolerance, getWorkingTime,
      onWallclockTimeUpdated, State.init, STALL_THRESHOLD]
  · have hne : ¬ MediaType.video = MediaType.fragmentedText := by decide
    norm_num [run, step, handle, Event.isSignal, initializeController, createBuffer,
      onWallclockTimeUpdated, pruneBuffer, jsRound, State.init, hne]

end BufferController

/-! ## Theorems: HTTPLoader, abort of delayed requests -/

namespace HTTPLoader

/-- C28: the code on a request held in the delay queue.  When only delayed
requests are outstanding, `abort()` clears their timers and does nothing
else: the abort callback of none of them is invoked.  So a request with a
`delayLoadingTime` 500 ms ahead and an abort callback supplied, loaded and
then aborted, produces the arming and the clearing of its timer and no
callback at all, whereas the same configuration waiting for a retry, or in
flight, has its abort callback invoked. -/
theorem abort_skips_delayed_requests :
    (∀ s : State,
      (abort { s with retryRequests := [], requests := [] }).2
        = s.delayedRequests.map (fun x => Effect.clearDelayTimer x.id)) ∧
    run ⟨true, fun _ => 3, fun _ => 1000⟩ State.init
        [.load ⟨0, some ⟨.MEDIA_SEGMENT_TYPE, some 500⟩, true, true, true, true⟩ 0 .started,
         .abort]
      = (⟨[], [], [], 2⟩, [.setDelayTimer 1 500, .clearDelayTimer 1]) ∧
    (abort ⟨[], [],
        [⟨1, ⟨0, some ⟨.MEDIA_SEGMENT_TYPE, some 500⟩, true, true, true, true⟩, 2⟩], 2⟩).2
      = [.clearRetryTimer 1,
         .abortCallback ⟨0, some ⟨.MEDIA_SEGMENT_TYPE, some 500⟩, true, true, true, true⟩] ∧
    (abort ⟨[⟨0, ⟨0, some ⟨.MEDIA_SEGMENT_TYPE, some 500⟩, true, true, true, true⟩, 3, true⟩],
        [], [], 1⟩).2
      = [.transportAbort 0,
         .abortCallback ⟨0, some ⟨.MEDIA_SEGMENT_TYPE, some 500⟩, true, true, true, true⟩] := by
  refine ⟨?_, ?_, ?_, ?_⟩
  · intro s
    simp [abort]
  · norm_num [run, step, load, internalLoad, abort, State.init]
  · simp [abort]
  · simp [abort]

end HTTPLoader
